import Mathlib

/-!
# personal_server: the HTTP transaction engine of `src/http.c`

A shallow embedding of `src/http.c`.  C strings are lists of characters
without the terminating NUL; the connection's read buffer is a list of
characters addressed by offsets, and the functions that write into it
(`strtok_r`, `removeSpaces`) are modelled as writes at offsets.  Everything
the transaction does to the outside world (socket writes, file system calls)
is appended to a trace of events; the outside world answers through the
oracles of `Env`.
-/

set_option autoImplicit false

namespace PersonalServer

/-! ## C strings inside a byte buffer -/

/-- The NUL character that terminates a C string. -/
def NUL : Char := Char.ofNat 0

/-- The C string that starts a list of bytes: everything before the first NUL
(or the whole list when it holds none). -/
def cstr : List Char → List Char
  | [] => []
  | c :: cs => if c = NUL then [] else c :: cstr cs

/-- The C string found at offset `off` of buffer `buf`. -/
def cstrAt (buf : List Char) (off : Nat) : List Char :=
  cstr (buf.drop off)

/-- Store the bytes `bytes` at offsets `p, p+1, ...` of `buf`. -/
def writeAt : List Char → Nat → List Char → List Char
  | buf, _, [] => buf
  | buf, p, c :: cs => writeAt (buf.set p c) (p + 1) cs

/-- The call `strspn(s, delim)`: length of the leading run of delimiters. -/
def strspn : List Char → List Char → Nat
  | [], _ => 0
  | c :: cs, delim => if c ∈ delim then strspn cs delim + 1 else 0

/-- The call `strcspn(s, delim)`: length of the leading run of non-delimiters. -/
def strcspn : List Char → List Char → Nat
  | [], _ => 0
  | c :: cs, delim => if c ∈ delim then 0 else strcspn cs delim + 1

/-- The result of `strtok_r`: the offset of the token (`none` for `NULL`),
the buffer after the terminator has been written, and the saved position. -/
structure Tok where
  tok : Option Nat
  buf : List Char
  save : Nat
  deriving DecidableEq, Repr

/-- The call `strtok_r(s, delim, &save)` of glibc on the C string at offset
`s` of `buf`: skip leading delimiters, return `NULL` at the end of the
string, otherwise overwrite the delimiter that ends the token with NUL and
save the position after it. -/
def strtok_r (buf : List Char) (s : Nat) (delim : List Char) : Tok :=
  let s1 := s + strspn (cstrAt buf s) delim
  if cstrAt buf s1 = [] then ⟨none, buf, s1⟩
  else
    let e := s1 + strcspn (cstrAt buf s1) delim
    if cstrAt buf e = [] then ⟨some s1, buf, e⟩
    else ⟨some s1, buf.set e NUL, e + 1⟩

/-- The test `strstr(hay, needle) != NULL`. -/
def strstr : List Char → List Char → Bool
  | [], needle => needle.isEmpty
  | c :: cs, needle => needle.isPrefixOf (c :: cs) || strstr cs needle

/-- The test `strncasecmp(a, b, n) == 0` on two C strings (ASCII case
folding; the end of either string stops the comparison). -/
def strncasecmp_eq : List Char → List Char → Nat → Bool
  | _, _, 0 => true
  | [], [], _ + 1 => true
  | a :: as, b :: bs, n + 1 => a.toLower == b.toLower && strncasecmp_eq as bs n
  | _, _, _ + 1 => false

/-- The test `strcasecmp(a, b) == 0`. -/
def strcasecmp_eq (a b : List Char) : Bool :=
  a.map Char.toLower == b.map Char.toLower

/-- The macro `STARTS_WITH(field_name, header)`, that is
`!strncasecmp(field_name, header, sizeof(header) - 1)`.  `header` is the
content of the string literal as written, so that `sizeof(header) - 1` is its
length even when the literal holds an explicit NUL. -/
def STARTS_WITH (field_name header : List Char) : Bool :=
  strncasecmp_eq field_name (cstr header) header.length

/-- The result of `strrchr(s, c)`: the part of `s` from the last `c` on. -/
def strrchr : List Char → Char → Option (List Char)
  | [], _ => none
  | x :: xs, c =>
    match strrchr xs c with
    | some r => some r
    | none => if x = c then some (x :: xs) else none

/-! ## Declarations of `http.h`, the libraries and the outside world -/

/-- Modelled from the spec: the request methods of `http.h` (not part of the
sources), "method (enumerated: GET, POST, UNKNOWN)". -/
inductive http_method
  | HTTP_GET
  | HTTP_POST
  | HTTP_UNKNOWN
  deriving DecidableEq, Repr

/-- Modelled from the spec: the protocol versions of `http.h` (not part of
the sources), "protocol version (1.0 or 1.1)". -/
inductive http_version
  | HTTP_1_0
  | HTTP_1_1
  deriving DecidableEq, Repr

/-- Modelled from the spec: the response statuses of `http.h` (not part of
the sources), the cases of the `switch` of `start_response`. -/
inductive http_response_status
  | HTTP_OK
  | HTTP_PARTIAL_CONTENT
  | HTTP_BAD_REQUEST
  | HTTP_PERMISSION_DENIED
  | HTTP_NOT_FOUND
  | HTTP_METHOD_NOT_ALLOWED
  | HTTP_REQUEST_TIMEOUT
  | HTTP_REQUEST_TOO_LONG
  | HTTP_INTERNAL_ERROR
  | HTTP_NOT_IMPLEMENTED
  | HTTP_SERVICE_UNAVAILABLE
  deriving DecidableEq, Repr

/-- The value of one grant of a token: libjwt keeps the grants as a JSON
object whose members the server reads as strings or as integers. -/
inductive grant_value
  | str (s : List Char)
  | int (n : Int)
  deriving DecidableEq, Repr

/-- The grants of a `jwt_t`, in the order they were added. -/
abbrev jwt_t := List (List Char × grant_value)

/-- The call `jwt_get_grant(jwt, grant)`: the string value of the grant, `NULL`
(`none`) when the grant is missing or is not a string. -/
def jwt_get_grant (jwt : jwt_t) (grant : List Char) : Option (List Char) :=
  match jwt.lookup grant with
  | some (grant_value.str s) => some s
  | _ => none

/-- The call `jwt_add_grant(jwt, grant, val)` on a token without that grant. -/
def jwt_add_grant (jwt : jwt_t) (grant val : List Char) : jwt_t :=
  jwt ++ [(grant, grant_value.str val)]

/-- The call `jwt_add_grant_int(jwt, grant, val)` on a token without that
grant. -/
def jwt_add_grant_int (jwt : jwt_t) (grant : List Char) (val : Int) : jwt_t :=
  jwt ++ [(grant, grant_value.int val)]

/-- A member value of a parsed JSON object, as far as the server looks at it:
a string or anything else. -/
inductive json_member
  | string (s : List Char)
  | other
  deriving DecidableEq, Repr

/-- A JSON text parsed by jansson, as far as the server looks at it: an
object with its members, or any other JSON value. -/
inductive json_t
  | object (members : List (List Char × json_member))
  | non_object
  deriving DecidableEq, Repr

/-- The call `json_object_get(json, key)`: `NULL` when `json` is `NULL` or is
not an object, or when the object has no such member. -/
def json_object_get (json : Option json_t) (key : List Char) : Option json_member :=
  match json with
  | some (json_t.object members) => members.lookup key
  | _ => none

/-- The call `json_string_value(json)`: `NULL` when the value is not a
string. -/
def json_string_value (json : json_member) : Option (List Char) :=
  match json with
  | json_member.string s => some s
  | json_member.other => none

/-- The outcome of `access(fname, R_OK)`: 0, or -1 with `errno == EACCES`, or
-1 with any other `errno`. -/
inductive access_result
  | ok
  | eacces
  | failed
  deriving DecidableEq, Repr

/-- The handlers of the dispatcher. -/
inductive Handler
  | api
  | priv
  | static
  deriving DecidableEq, Repr

/-- What a transaction does to the outside world, in order. -/
inductive Event
  /-- One `bufio_sendbuffer` call with the bytes handed to it and whether it
  succeeded. -/
  | send (bytes : List Char) (ok : Bool)
  /-- The call `access(fname, R_OK)`. -/
  | access (fname : List Char)
  /-- The call `stat(fname, &st)`. -/
  | stat (fname : List Char)
  /-- The call `open(fname, O_RDONLY)`. -/
  | fopen (fname : List Char)
  /-- One `bufio_sendfile` call: the offset, the count asked for, the result. -/
  | sendfile (off count res : Int)
  /-- The call `close(filefd)`. -/
  | close
  /-- Entry into a handler (a ghost event: nothing is sent). -/
  | call (h : Handler)
  deriving DecidableEq, Repr

/-- The configuration and the outside world of one transaction: the globals
of `main.h`, the clock, the token and JSON libraries, the file system and the
socket.  The last three fields give the values of storage that the code reads
before writing it. -/
structure Env where
  /-- The global `server_root`. -/
  server_root : List Char
  /-- The global `token_expiration_time`. -/
  token_expiration_time : Int
  /-- The value of `time(NULL)`. -/
  now : Int
  /-- The call `jwt_encode_str` under HS256 with the embedded secret. -/
  jwt_encode_str : jwt_t → List Char
  /-- The call `jwt_decode` with the embedded secret; `none` for a non-zero
  return value. -/
  jwt_decode : List Char → Option jwt_t
  /-- The call `jwt_get_grants_json(jwt, NULL)`. -/
  jwt_get_grants_json : jwt_t → Option (List Char)
  /-- What `jwt_get_grant_int` returns for a grant that is missing or is not
  an integer. -/
  jwt_missing_int : Int
  /-- The call `json_loadb` of jansson; `none` for `NULL`. -/
  json_loadb : List Char → Option json_t
  /-- The call `access(fname, R_OK)`. -/
  fs_access : List Char → access_result
  /-- The call `stat(fname, &st)`: `st.st_size`, `none` for -1. -/
  fs_stat : List Char → Option Nat
  /-- The call `open(fname, O_RDONLY)`: whether a descriptor was returned. -/
  fs_open : List Char → Bool
  /-- Whether the `bufio_sendbuffer` call made after `k` earlier events
  succeeds. -/
  sendbuffer_ok : Nat → Bool
  /-- The result of the `bufio_sendfile` call made after `k` earlier events,
  for the given offset and count. -/
  sendfile_result : Nat → Int → Int → Int
  /-- The enumerator of `http_method` that `memset(&ta, 0, ...)` leaves in
  `req_method`. -/
  memset_method : http_method
  /-- The enumerator of `http_version` that `memset(&ta, 0, ...)` leaves in
  `req_version`. -/
  memset_version : http_version
  /-- What the uninitialised pointer `value` of `http_process_headers` happens
  to address: `none` when it addresses no storage that can be read and
  written (the uses of `value` are then undefined), otherwise the string in
  the storage it addresses. -/
  value_mem : Option (List Char)
  /-- The string in the fresh block that `malloc` returns for `ta->cookie`. -/
  malloc_mem : List Char
  /-- Whether the uninitialised pointer `cookies` of `http_process_headers`
  happens to be `NULL`. -/
  cookies_null : Bool

/-- The call `jwt_get_grant_int(jwt, grant)`: the integer value of the grant
as a `long`; when the grant is missing or is not an integer, the value the
library returns then. -/
def jwt_get_grant_int (env : Env) (jwt : jwt_t) (grant : List Char) : Int :=
  match jwt.lookup grant with
  | some (grant_value.int n) => n
  | _ => env.jwt_missing_int

/-- Modelled from the spec: the buffered socket of `bufio.c` (not part of the
sources), "an offset-addressable read/write buffer over a connection".  `buf`
holds the bytes of the connection, `bufpos` is the offset of the next byte to
be read. -/
structure bufio where
  buf : List Char
  bufpos : Nat
  deriving DecidableEq, Repr

/-- The fields of `struct http_transaction` (declared in `http.h`, read off
their uses in `http.c`). -/
structure http_transaction where
  req_method : http_method
  req_version : http_version
  req_path : Nat
  req_body : Nat
  req_content_len : Int
  resp_status : Option http_response_status
  resp_headers : List Char
  resp_body : List Char
  cookie : Option (List Char)
  deriving DecidableEq, Repr

/-- The state of a transaction: its record, the connection buffer behind
`ta->client->bufio`, and the events so far. -/
structure State where
  ta : http_transaction
  client : bufio
  trace : List Event
  deriving DecidableEq, Repr

/-- The result of a function of `http.c` that returns `bool`: `some b` for a
return value, `none` when the C code has dereferenced a null or wild pointer
and so has no defined result. -/
abbrev Outcome := Option Bool × State

/-! ## Response assembly -/

/-- The line terminator `CRLF`. -/
def CRLF : List Char := ['\r', '\n']

/-- The constant `MAX_HEADER_LEN`. -/
def MAX_HEADER_LEN : Nat := 2048

/-- The constant `MAX_ERROR_LEN`. -/
def MAX_ERROR_LEN : Nat := 2048

/-- The constant `PATH_MAX` of `linux/limits.h`. -/
def PATH_MAX : Nat := 4096

/-- What `vsnprintf(p, size, ...)` followed by
`len += n > size ? size - 1 : n` appends to a buffer, for the formatted text
`text` of length `n`: the text cut to `size - 1` characters when `n > size`;
when `n = size` the same cut text and the NUL that `vsnprintf` wrote after
it. -/
def vsnprintf_append (size : Nat) (text : List Char) : List Char :=
  if text.length > size then text.take (size - 1)
  else if text.length = size then text.take (size - 1) ++ [NUL]
  else text

/-- What `snprintf(dst, size, ...)` leaves in `dst` as a C string. -/
def snprintf (size : Nat) (text : List Char) : List Char :=
  text.take (size - 1)

/-- The conversion `%ld`. -/
def fmt_ld (n : Int) : List Char :=
  match n with
  | Int.ofNat m => Nat.toDigits 10 m
  | Int.negSucc m => '-' :: Nat.toDigits 10 (m + 1)

/-- The function `http_add_header(resp, key, fmt, ...)`, given the text that
the format produces. -/
def http_add_header (resp key text : List Char) : List Char :=
  resp ++ key ++ ": ".toList ++ vsnprintf_append MAX_HEADER_LEN text ++ "\r\n".toList

/-- The function `add_content_length(res, len)`. -/
def add_content_length (res : List Char) (len : Int) : List Char :=
  http_add_header res "Content-Length".toList (fmt_ld len)

/-- The text that `start_response` appends for a status; a `resp_status` that
was never assigned takes the `default` case. -/
def status_text : Option http_response_status → List Char
  | some http_response_status.HTTP_OK => "200 OK".toList
  | some http_response_status.HTTP_PARTIAL_CONTENT => "206 Partial Content".toList
  | some http_response_status.HTTP_BAD_REQUEST => "400 Bad Request".toList
  | some http_response_status.HTTP_PERMISSION_DENIED => "403 Permission Denied".toList
  | some http_response_status.HTTP_NOT_FOUND => "404 Not Found".toList
  | some http_response_status.HTTP_METHOD_NOT_ALLOWED => "405 Method Not Allowed".toList
  | some http_response_status.HTTP_REQUEST_TIMEOUT => "408 Request Timeout".toList
  | some http_response_status.HTTP_REQUEST_TOO_LONG => "414 Request Too Long".toList
  | some http_response_status.HTTP_NOT_IMPLEMENTED => "501 Not Implemented".toList
  | some http_response_status.HTTP_SERVICE_UNAVAILABLE => "503 Service Unavailable".toList
  | some http_response_status.HTTP_INTERNAL_ERROR => "500 Internal Server Error".toList
  | none => "500 Internal Server Error".toList

/-- The function `start_response(ta, res)`. -/
def start_response (ta : http_transaction) (res : List Char) : List Char :=
  res ++ "HTTP/1.1 ".toList ++ status_text ta.resp_status ++ CRLF

/-- Modelled from the spec: `bufio_sendbuffer` of `bufio.c` (not part of the
sources) writes the bytes of a buffer to the socket; the environment decides
whether it succeeds (`false` for the return value -1). -/
def bufio_sendbuffer (env : Env) (s : State) (bytes : List Char) : Bool × State :=
  (env.sendbuffer_ok s.trace.length,
   { s with trace := s.trace ++ [Event.send bytes (env.sendbuffer_ok s.trace.length)] })

/-- The function `send_response_header`. -/
def send_response_header (env : Env) (s : State) : Bool × State :=
  let r1 := bufio_sendbuffer env s (start_response s.ta [])
  if r1.1 = false then (false, r1.2)
  else
    let s2 : State := { r1.2 with ta := { r1.2.ta with resp_headers := r1.2.ta.resp_headers ++ CRLF } }
    let r2 := bufio_sendbuffer env s2 s2.ta.resp_headers
    if r2.1 = false then (false, r2.2) else (true, r2.2)

/-- The function `send_response`. -/
def send_response (env : Env) (s : State) : Bool × State :=
  let s1 : State :=
    { s with ta := { s.ta with
        resp_headers := add_content_length s.ta.resp_headers s.ta.resp_body.length } }
  let r1 := send_response_header env s1
  if r1.1 = false then (false, r1.2)
  else bufio_sendbuffer env r1.2 r1.2.ta.resp_body

/-- The function `send_error(ta, status, fmt, ...)`, given the text that the
format produces. -/
def send_error (env : Env) (s : State) (status : http_response_status)
    (text : List Char) : Bool × State :=
  let s1 : State :=
    { s with ta := { s.ta with
        resp_body := s.ta.resp_body ++ vsnprintf_append MAX_ERROR_LEN text,
        resp_status := some status,
        resp_headers := http_add_header s.ta.resp_headers "Content-Type".toList "text/plain".toList } }
  send_response env s1

/-- Modelled from the spec: `bufio_offset2ptr` of `bufio.c` (not part of the
sources) resolves an offset into the read buffer; the string read through
the pointer is the C string at that offset. -/
def bufio_offset2ptr (b : bufio) (off : Nat) : List Char :=
  cstrAt b.buf off

/-- The function `send_not_found`. -/
def send_not_found (env : Env) (s : State) : Bool × State :=
  send_error env s http_response_status.HTTP_NOT_FOUND
    ("File ".toList ++ bufio_offset2ptr s.client s.ta.req_path ++ " not found".toList)

/-- The function `guess_mime_type`. -/
def guess_mime_type (filename : List Char) : List Char :=
  match strrchr filename '.' with
  | none => "text/plain".toList
  | some suffix =>
    if strcasecmp_eq suffix ".html".toList then "text/html".toList
    else if strcasecmp_eq suffix ".gif".toList then "image/gif".toList
    else if strcasecmp_eq suffix ".png".toList then "image/png".toList
    else if strcasecmp_eq suffix ".jpg".toList then "image/jpeg".toList
    else if strcasecmp_eq suffix ".js".toList then "text/javascript".toList
    else "text/plain".toList

/-! ## The handlers -/

/-- Append one event to the trace. -/
def State.log (s : State) (e : Event) : State :=
  { s with trace := s.trace ++ [e] }

/-- Lift a `bool` result to an outcome. -/
def returns (r : Bool × State) : Outcome :=
  (some r.1, r.2)

/-- The value an `int` takes when a `long` is assigned to it (two's
complement, 32 bits). -/
def int_of_long (x : Int) : Int :=
  (x + 2147483648) % 4294967296 - 2147483648

/-- The value a `size_t` takes when an `int` is passed for it (64 bits). -/
def size_t_of_int (x : Int) : Nat :=
  (x % 18446744073709551616).toNat

/-- The streaming loop of `handle_static_asset`:
`while (success && from <= to) success = bufio_sendfile(..., &from, to + 1 - from) > 0;`
with `bufio_sendfile` (of `bufio.c`, not part of the sources) advancing the
offset by the number of bytes it reports.  The first argument bounds the
number of iterations. -/
def sendfile_loop (env : Env) : Nat → Int → Int → List Event → Bool × List Event
  | 0, _, _, tr => (false, tr)
  | fuel + 1, pos, to_, tr =>
    if pos ≤ to_ then
      let r := env.sendfile_result tr.length pos (to_ + 1 - pos)
      let tr1 := tr ++ [Event.sendfile pos (to_ + 1 - pos) r]
      if r > 0 then sendfile_loop env fuel (pos + r) to_ tr1 else (false, tr1)
    else (true, tr)

/-- The function `handle_static_asset(ta, basedir)`. -/
def handle_static_asset (env : Env) (s0 : State) (basedir : List Char) : Outcome :=
  let s := s0.log (Event.call Handler.static)
  let req_path := bufio_offset2ptr s.client s.ta.req_path
  let fname := snprintf PATH_MAX (basedir ++ req_path)
  if strstr fname "..".toList = false then
    let s1 := s.log (Event.access fname)
    match env.fs_access fname with
    | access_result.eacces =>
      returns (send_error env s1 http_response_status.HTTP_PERMISSION_DENIED
        "Permission denied.".toList)
    | access_result.failed => returns (send_not_found env s1)
    | access_result.ok =>
      let s2 := s1.log (Event.stat fname)
      match env.fs_stat fname with
      | none =>
        returns (send_error env s2 http_response_status.HTTP_INTERNAL_ERROR
          "Could not stat file.".toList)
      | some st_size =>
        let s3 := s2.log (Event.fopen fname)
        if env.fs_open fname = false then returns (send_not_found env s3)
        else
          let to_ : Int := (st_size : Int) - 1
          let content_length : Int := to_ + 1 - 0
          let s4 : State :=
            { s3 with ta := { s3.ta with
                resp_status := some http_response_status.HTTP_OK,
                resp_headers :=
                  add_content_length
                    (http_add_header s3.ta.resp_headers "Content-Type".toList
                      (guess_mime_type fname))
                    content_length } }
          let r := send_response_header env s4
          if r.1 = false then (some false, r.2.log Event.close)
          else
            let l := sendfile_loop env (st_size + 1) 0 to_ r.2.trace
            (some l.1, ({ r.2 with trace := l.2 } : State).log Event.close)
  else
    returns (send_error env s http_response_status.HTTP_NOT_FOUND "Not Found.".toList)

/-- The answer of the GET branch of `handle_api` for an anonymous, invalid or
expired token: the body `{}`. -/
def api_empty_object (env : Env) (s : State) : Outcome :=
  returns (send_response env
    { s with ta := { s.ta with
        resp_status := some http_response_status.HTTP_OK,
        resp_body := s.ta.resp_body ++ "\x7b\x7d".toList } })

/-- The function `handle_api`. -/
def handle_api (env : Env) (s0 : State) : Outcome :=
  let s := s0.log (Event.call Handler.api)
  match s.ta.req_method with
  | http_method.HTTP_GET =>
    let s1 : State := { s with ta := { s.ta with resp_status := some http_response_status.HTTP_OK } }
    match s1.ta.cookie with
    | none => api_empty_object env s1
    | some cookie =>
      match env.jwt_decode cookie with
      | none => api_empty_object env s1
      | some key_d =>
        match env.jwt_get_grants_json key_d with
        | none => api_empty_object env s1
        | some grants =>
          let expT : Int := int_of_long (jwt_get_grant_int env key_d "exp".toList)
          if env.now > expT then api_empty_object env s1
          else
            returns (send_response env
              { s1 with ta := { s1.ta with
                  resp_body := s1.ta.resp_body ++ grants ++ "\n".toList } })
  | http_method.HTTP_POST =>
    let line := s.client.buf.drop s.ta.req_body
    let json := env.json_loadb (line.take (size_t_of_int s.ta.req_content_len))
    let jPass := json_object_get json "password".toList
    let jUser := json_object_get json "username".toList
    match json with
    | none =>
      returns (send_response env
        { s with ta := { s.ta with resp_status := some http_response_status.HTTP_BAD_REQUEST } })
    | some _ =>
      match jPass with
      | none =>
        returns (send_response env
          { s with ta := { s.ta with resp_status := some http_response_status.HTTP_BAD_REQUEST } })
      | some jp =>
        match jUser with
        | none =>
          returns (send_response env
            { s with ta := { s.ta with
                resp_status := some http_response_status.HTTP_PERMISSION_DENIED } })
        | some ju =>
          -- strcmp(password, "thepassword") || strcmp(username, "user0")
          match json_string_value jp with
          | none => (none, s)
          | some password =>
            if password ≠ "thepassword".toList then
              returns (send_error env s http_response_status.HTTP_PERMISSION_DENIED
                "Permission Denied.".toList)
            else
              match json_string_value ju with
              | none => (none, s)
              | some username =>
                if username ≠ "user0".toList then
                  returns (send_error env s http_response_status.HTTP_PERMISSION_DENIED
                    "Permission Denied.".toList)
                else
                  let t : jwt_t :=
                    jwt_add_grant_int
                      (jwt_add_grant_int (jwt_add_grant [] "sub".toList "user0".toList)
                        "iat".toList env.now)
                      "exp".toList (env.now + env.token_expiration_time)
                  let encoded := env.jwt_encode_str t
                  match env.jwt_get_grants_json t with
                  | none => (none, s)
                  | some grants =>
                    let cookieS :=
                      snprintf 5000 ("auth_token=".toList ++ encoded ++ "; Path=/".toList)
                    -- cookieS is passed as the format of http_add_header
                    if '%' ∈ cookieS then
                      (none, { s with ta := { s.ta with
                          resp_body := s.ta.resp_body ++ grants ++ "\n".toList } })
                    else
                      returns (send_response env
                        { s with ta := { s.ta with
                            resp_body := s.ta.resp_body ++ grants ++ "\n".toList,
                            resp_headers :=
                              http_add_header
                                (http_add_header s.ta.resp_headers "Set-Cookie".toList cookieS)
                                "Content-Type".toList "application/json".toList,
                            resp_status := some http_response_status.HTTP_OK } })
  | http_method.HTTP_UNKNOWN =>
    returns (send_error env s http_response_status.HTTP_NOT_IMPLEMENTED
      "API not implemented".toList)

/-- The function `handle_private`. -/
def handle_private (env : Env) (s0 : State) : Outcome :=
  let s := s0.log (Event.call Handler.priv)
  match s.ta.cookie with
  | some cookie =>
    match env.jwt_decode cookie with
    | none =>
      returns (send_error env s http_response_status.HTTP_PERMISSION_DENIED
        "Permission denied.\n".toList)
    | some client_T =>
      let expr : Int := jwt_get_grant_int env client_T "exp".toList
      -- strcmp(user, "user0") reads through `user`
      match jwt_get_grant client_T "sub".toList with
      | none => (none, s)
      | some user =>
        if user = "user0".toList ∧ expr > env.now then
          handle_static_asset env s env.server_root
        else
          returns (send_error env s http_response_status.HTTP_PERMISSION_DENIED
            "Permission denied.sss\n".toList)
  | none =>
    returns (send_error env s http_response_status.HTTP_PERMISSION_DENIED
      "Permission denied.sss\n".toList)

/-! ## Request line, headers and the transaction -/

/-- The offset of the first line feed of a list of bytes. -/
def find_lf : List Char → Option Nat
  | [] => none
  | c :: cs => if c = '\n' then some 0 else (find_lf cs).map (· + 1)

/-- Modelled from the spec: `bufio_readline` of `bufio.c` (not part of the
sources), the "line-read" operation.  It returns the number of bytes up to and
including the next line feed and moves the read position past them; the line
starts at the old read position.  `none` stands for a return value of 0 or
-1 (end of input, error). -/
def bufio_readline (b : bufio) : Option (Nat × bufio) :=
  match find_lf (b.buf.drop b.bufpos) with
  | none => none
  | some i => some (i + 1, { b with bufpos := b.bufpos + (i + 1) })

/-- Modelled from the spec: `bufio_read` of `bufio.c` (not part of the
sources), the "fixed-length-read" operation: the number of bytes read (fewer
than `count` when the input ends) and the read position moved past them; the
bytes start at the old read position. -/
def bufio_read (b : bufio) (count : Nat) : Nat × bufio :=
  (min count (b.buf.length - b.bufpos),
   { b with bufpos := b.bufpos + min count (b.buf.length - b.bufpos) })

/-- The function `http_parse_request`. -/
def http_parse_request (env : Env) (s : State) : Outcome :=
  match bufio_readline s.client with
  | none => (some false, s)
  | some (len, client1) =>
    if len < 2 then (some false, { s with client := client1 })
    else
      let req_offset := s.client.bufpos
      -- request[len - 2] = '\0'
      let buf1 := client1.buf.set (req_offset + len - 2) NUL
      let t1 := strtok_r buf1 req_offset [' ']
      match t1.tok with
      | none => (some false, { s with client := { client1 with buf := t1.buf } })
      | some method =>
        let req_method :=
          if cstrAt t1.buf method = "GET".toList then http_method.HTTP_GET
          else if cstrAt t1.buf method = "POST".toList then http_method.HTTP_POST
          else http_method.HTTP_UNKNOWN
        let t2 := strtok_r t1.buf t1.save [' ']
        let s2 : State :=
          { s with ta := { s.ta with req_method := req_method },
                   client := { client1 with buf := t2.buf } }
        match t2.tok with
        | none => (some false, s2)
        | some req_path =>
          if strstr (cstrAt t2.buf req_path) "..".toList then
            returns (send_error env s2 http_response_status.HTTP_NOT_FOUND
              "Permission denied. Can\x27t access directory.".toList)
          else
            let t3 := strtok_r t2.buf t2.save ['\r']
            let s3 : State :=
              { s2 with ta := { s2.ta with req_path := req_path },
                        client := { client1 with buf := t3.buf } }
            match t3.tok with
            | none => (some false, s3)
            | some version =>
              if cstrAt t3.buf version = "HTTP/1.1".toList then
                (some true, { s3 with ta := { s3.ta with req_version := http_version.HTTP_1_1 } })
              else if cstrAt t3.buf version = "HTTP/1.0".toList then
                (some true, { s3 with ta := { s3.ta with req_version := http_version.HTTP_1_0 } })
              else (some false, s3)

/-- The test `isspace(c)` in the C locale. -/
def isspace (c : Char) : Bool :=
  c = ' ' || c = '\t' || c = '\n' || c = Char.ofNat 11 || c = Char.ofNat 12 || c = '\r'

/-- The value of the leading decimal digits of a string, after `acc`. -/
def digits_value : List Char → Nat → Nat
  | [], acc => acc
  | c :: cs, acc => if c.isDigit then digits_value cs (acc * 10 + (c.toNat - 48)) else acc

/-- The result of `strtol(s, NULL, 10)`: white space, an optional sign, the
leading digits, clamped to the range of `long`. -/
def strtol (s : List Char) : Int :=
  let s1 := s.dropWhile isspace
  let v : Int :=
    match s1 with
    | '-' :: r => - (digits_value r 0 : Int)
    | '+' :: r => (digits_value r 0 : Int)
    | _ => (digits_value s1 0 : Int)
  max (-9223372036854775808) (min 9223372036854775807 v)

/-- The call `atoi(s)`, which is `(int) strtol(s, NULL, 10)`. -/
def atoi (s : List Char) : Int :=
  int_of_long (strtol s)

/-- The function `removeSpaces(str)` on the C string at offset `str`: the
characters other than the space are moved to the front in order and a NUL is
stored after them. -/
def removeSpaces (buf : List Char) (str : Nat) : List Char :=
  writeAt buf str ((cstrAt buf str).filter (fun c => c ≠ ' ') ++ [NUL])

/-- What `sscanf(src, "auth_token=%s", value)` stores through `value`: `none`
when the literal text does not match or no character is left for `%s`,
otherwise the run of non-white-space characters after the literal text and
any white space. -/
def sscanf_auth_token (src : List Char) : Option (List Char) :=
  if "auth_token=".toList.isPrefixOf src then
    let w := ((src.drop 11).dropWhile isspace).takeWhile (fun c => !isspace c)
    if w = [] then none else some w
  else none

/-- Where the local pointer `value` of `http_process_headers` points: nowhere
known (it is not initialised), or into the read buffer after `strtok_r` has
stored the saved position in it. -/
inductive ValuePtr
  | wild
  | inbuf (off : Nat)
  deriving DecidableEq, Repr

/-- The storage the Cookie branch of `http_process_headers` works on: the read
buffer, the pointer `value`, what is behind the uninitialised `value` (`none`
when it addresses no storage, otherwise the string stored there), and the
string in the block `ta->cookie`. -/
structure CookieMem where
  buf : List Char
  value : ValuePtr
  value_mem : Option (List Char)
  cookie : List Char
  deriving DecidableEq, Repr

/-- The pair `sscanf(src, "auth_token=%s", value); strcpy(ta->cookie, value);`
for the C string at offset `src`.  `none` when `value` is uninitialised and
addresses no storage: `strcpy` then reads through a wild pointer, and so does
`sscanf` when it stores a token. -/
def scan_and_copy (m : CookieMem) (src : Nat) : Option CookieMem :=
  match m.value with
  | ValuePtr.wild =>
    match m.value_mem with
    | none => none
    | some old =>
      match sscanf_auth_token (cstrAt m.buf src) with
      | some w => some { m with value_mem := some w, cookie := w }
      | none => some { m with cookie := old }
  | ValuePtr.inbuf off =>
    match sscanf_auth_token (cstrAt m.buf src) with
    | some w =>
      some { m with buf := writeAt m.buf off (w ++ [NUL]),
                    cookie := cstrAt (writeAt m.buf off (w ++ [NUL])) off }
    | none => some { m with cookie := cstrAt m.buf off }

/-- The loop `while (cookies != NULL) { ... cookies = strtok(NULL, ";"); }` of
`http_process_headers`; `save` is the position `strtok` has saved.  The first
argument bounds the number of iterations.  `none` when an iteration goes
through the wild `value`. -/
def cookie_loop : Nat → Option Nat → Nat → CookieMem → Option CookieMem
  | 0, _, _, m => some m
  | _ + 1, none, _, m => some m
  | fuel + 1, some cookies, save, m =>
    let m1 : Option CookieMem :=
      if strstr (cstrAt m.buf cookies) "auth_token=".toList then
        let buf1 := removeSpaces m.buf cookies
        if strstr (cstrAt buf1 cookies) ";".toList then
          let t := strtok_r buf1 cookies [';']
          some { m with buf := t.buf, value := ValuePtr.inbuf t.save,
                        cookie := cstrAt t.buf t.save }
        else scan_and_copy { m with buf := buf1 } cookies
      else some m
    match m1 with
    | none => none
    | some m1 =>
      let t := strtok_r m1.buf save [';']
      cookie_loop fuel t.tok t.save { m1 with buf := t.buf }

/-- The Cookie branch of `http_process_headers` for the field value at offset
`field_value`, with `value_mem` behind the uninitialised `value`: the buffer,
the string in `ta->cookie` and what is behind `value` afterwards.  `none` when
the branch goes through the wild `value`, or when the loop starts from an
uninitialised `cookies` that is not `NULL`. -/
def process_cookie (env : Env) (value_mem : Option (List Char)) (buf : List Char)
    (field_value : Nat) : Option (List Char × List Char × Option (List Char)) :=
  let m0 : CookieMem :=
    { buf := buf, value := ValuePtr.wild, value_mem := value_mem, cookie := env.malloc_mem }
  if strstr (cstrAt buf field_value) ";".toList then
    let t := strtok_r buf field_value [';']
    match cookie_loop (buf.length + 1) t.tok t.save { m0 with buf := t.buf } with
    | none => none
    | some m => some (m.buf, m.cookie, m.value_mem)
  else
    match scan_and_copy { m0 with buf := removeSpaces buf field_value } field_value with
    | none => none
    | some m => if env.cookies_null then some (m.buf, m.cookie, m.value_mem) else none

/-- The loop of `http_process_headers`.  The first argument bounds the number
of lines; every line takes at least one byte of the buffer.  The second
argument is what is behind the uninitialised `value`, which one Cookie line
leaves to the next. -/
def http_process_headers_loop (env : Env) : Nat → Option (List Char) → State → Outcome
  | 0, _, s => (some false, s)
  | fuel + 1, value_mem, s =>
    match bufio_readline s.client with
    | none => (some false, s)
    | some (len, client1) =>
      let header := s.client.bufpos
      if len = 2 ∧ STARTS_WITH (cstrAt client1.buf header) CRLF = true then
        (some true, { s with client := client1 })
      else
        -- header[len - 2] = '\0'
        let buf1 :=
          if 2 ≤ header + len then client1.buf.set (header + len - 2) NUL else client1.buf
        let t := strtok_r buf1 header [':']
        match t.tok with
        | none => (some false, { s with client := { client1 with buf := t.buf } })
        | some field_name =>
          let field_value := t.save + strspn (cstrAt t.buf t.save) [' ', '\t']
          let ta1 : http_transaction :=
            if strcasecmp_eq (cstrAt t.buf field_name) "Content-Length".toList then
              { s.ta with req_content_len := atoi (cstrAt t.buf field_value) }
            else s.ta
          if strcasecmp_eq (cstrAt t.buf field_name) "Cookie".toList then
            match process_cookie env value_mem t.buf field_value with
            | none => (none, { s with ta := ta1, client := { client1 with buf := t.buf } })
            | some (buf2, cookie, value_mem2) =>
              http_process_headers_loop env fuel value_mem2
                { s with ta := { ta1 with cookie := some cookie },
                         client := { client1 with buf := buf2 } }
          else
            http_process_headers_loop env fuel value_mem
              { s with ta := ta1, client := { client1 with buf := t.buf } }

/-- The function `http_process_headers`. -/
def http_process_headers (env : Env) (s : State) : Outcome :=
  http_process_headers_loop env (s.client.buf.length + 1) env.value_mem s

/-- The part of `http_handle_transaction` after the response buffers have been
set up: the answer to an unknown method, the choice of the handler, and the
return value. -/
def dispatch (env : Env) (s : State) : Outcome :=
  let req_path := bufio_offset2ptr s.client s.ta.req_path
  let s1 : State :=
    if s.ta.req_method = http_method.HTTP_UNKNOWN then
      (send_error env s http_response_status.HTTP_NOT_IMPLEMENTED
        "http method not implemented".toList).2
    else s
  if STARTS_WITH req_path "/api".toList then
    if STARTS_WITH req_path ("/api/login".toList ++ [NUL]) then
      let r := handle_api env s1
      (r.1.map (fun rc => rc && decide (r.2.ta.req_version = http_version.HTTP_1_1)), r.2)
    else
      returns (send_error env s1 http_response_status.HTTP_NOT_FOUND "Not implemented".toList)
  else if STARTS_WITH req_path "/private".toList then
    let r := handle_private env s1
    (r.1.map (fun rc => rc && decide (r.2.ta.req_version = http_version.HTTP_1_1)), r.2)
  else
    let r := handle_static_asset env s1 env.server_root
    (r.1.map (fun rc => rc && decide (r.2.ta.req_version = http_version.HTTP_1_1)), r.2)

/-- The transaction record after `memset(&ta, 0, sizeof ta)`. -/
def zeroed_transaction (env : Env) : http_transaction :=
  { req_method := env.memset_method, req_version := env.memset_version,
    req_path := 0, req_body := 0, req_content_len := 0, resp_status := none,
    resp_headers := [], resp_body := [], cookie := none }

/-- The step of `http_handle_transaction` that reads the request body: when
`req_content_len > 0`, that many bytes are read and `req_body` is set to their
offset; `false` when fewer bytes arrive. -/
def read_body (s : State) : Bool × State :=
  if s.ta.req_content_len > 0 then
    let r := bufio_read s.client s.ta.req_content_len.toNat
    if (r.1 : Int) ≠ s.ta.req_content_len then (false, { s with client := r.2 })
    else (true, { s with client := r.2, ta := { s.ta with req_body := s.client.bufpos } })
  else (true, s)

/-- The step of `http_handle_transaction` that sets up the response buffers:
`resp_headers` starts with the `Server` header, `resp_body` is empty. -/
def init_response (s : State) : State :=
  { s with ta := { s.ta with
      resp_headers := http_add_header [] "Server".toList "CS3214-Personal-Server".toList,
      resp_body := [] } }

/-- The function `http_handle_transaction(self)` on the connection buffer
`self`, starting from the trace `trace`.  (The test `req_path == NULL` is left
out: `bufio_offset2ptr` adds an offset to the buffer address.) -/
def http_handle_transaction (env : Env) (self : bufio) (trace : List Event) : Outcome :=
  let r1 := http_parse_request env { ta := zeroed_transaction env, client := self, trace := trace }
  match r1.1 with
  | none => (none, r1.2)
  | some false => (some false, r1.2)
  | some true =>
    let r2 := http_process_headers env r1.2
    match r2.1 with
    | none => (none, r2.2)
    | some false => (some false, r2.2)
    | some true =>
      let r3 := read_body r2.2
      if r3.1 = false then (some false, r3.2)
      else dispatch env (init_response r3.2)

/-! ## Notions used to state the properties -/

/-- The bytes that reached the socket: the buffers of the `bufio_sendbuffer`
calls that succeeded, in order. -/
def transmitted : List Event → List Char
  | [] => []
  | Event.send bytes true :: es => bytes ++ transmitted es
  | _ :: es => transmitted es

/-- The events of a trace that are file system calls (`access`, `stat`,
`open`, `sendfile`, `close`). -/
def is_fs_event : Event → Bool
  | Event.access _ => true
  | Event.stat _ => true
  | Event.fopen _ => true
  | Event.sendfile _ _ _ => true
  | Event.close => true
  | _ => false

/-- The token that the POST branch of `handle_api` builds: `sub`, `iat` and
`exp` added in this order to a fresh `jwt_t`. -/
def login_claims (env : Env) : jwt_t :=
  jwt_add_grant_int
    (jwt_add_grant_int (jwt_add_grant [] "sub".toList "user0".toList) "iat".toList env.now)
    "exp".toList (env.now + env.token_expiration_time)

/-- The tokens of a request line. -/
structure RequestLine where
  method : List Char
  path : Option (List Char)
  version : Option (List Char)
  deriving DecidableEq, Repr

/-- The tokens of the request line at the read position of a connection, cut
the way `http_parse_request` cuts them: the line is ended two bytes before
its end, the method and the path are delimited by spaces, the version is what
follows up to a carriage return.  `none` when there is no line of two bytes
or more, or no method. -/
def request_line (b : bufio) : Option RequestLine :=
  match bufio_readline b with
  | none => none
  | some (len, client1) =>
    if len < 2 then none
    else
      let t1 := strtok_r (client1.buf.set (b.bufpos + len - 2) NUL) b.bufpos [' ']
      match t1.tok with
      | none => none
      | some method =>
        let t2 := strtok_r t1.buf t1.save [' ']
        match t2.tok with
        | none => some { method := cstrAt t1.buf method, path := none, version := none }
        | some req_path =>
          let t3 := strtok_r t2.buf t2.save ['\r']
          some { method := cstrAt t1.buf method,
                 path := some (cstrAt t2.buf req_path),
                 version := t3.tok.map (cstrAt t3.buf) }

/-- The status of the answer of `handle_static_asset` as the specification
states it for the joined path `fname`: 404 for a path with `..`, 403 and 404
for a failed access check, 500 for a failed `stat`, 200 otherwise. -/
def static_status_stated (env : Env) (fname : List Char) : http_response_status :=
  if strstr fname "..".toList then http_response_status.HTTP_NOT_FOUND
  else
    match env.fs_access fname with
    | access_result.eacces => http_response_status.HTTP_PERMISSION_DENIED
    | access_result.failed => http_response_status.HTTP_NOT_FOUND
    | access_result.ok =>
      match env.fs_stat fname with
      | none => http_response_status.HTTP_INTERNAL_ERROR
      | some _ => http_response_status.HTTP_OK

/-- The status of the answer of `handle_static_asset` with the case of a file
that cannot be opened added: 404 for a path with `..`, 403 and 404 for a
failed access check, 500 for a failed `stat`, 404 for a failed `open`, 200
otherwise. -/
def static_status_amended (env : Env) (fname : List Char) : http_response_status :=
  if strstr fname "..".toList then http_response_status.HTTP_NOT_FOUND
  else
    match env.fs_access fname with
    | access_result.eacces => http_response_status.HTTP_PERMISSION_DENIED
    | access_result.failed => http_response_status.HTTP_NOT_FOUND
    | access_result.ok =>
      match env.fs_stat fname with
      | none => http_response_status.HTTP_INTERNAL_ERROR
      | some _ =>
        if env.fs_open fname then http_response_status.HTTP_OK
        else http_response_status.HTTP_NOT_FOUND

/-! ## A concrete environment for the examples -/

/-- Cut a string at every full stop. -/
def split_dots : List Char → List (List Char)
  | [] => [[]]
  | c :: cs =>
    match split_dots cs with
    | [] => [[c]]
    | p :: ps => if c = '.' then [] :: p :: ps else (c :: p) :: ps

/-- A toy token encoding for the examples: subject, issue time and expiry
time joined by full stops. -/
def demo_jwt_encode_str (jwt : jwt_t) : List Char :=
  (jwt_get_grant jwt "sub".toList).getD [] ++ ['.']
    ++ (match jwt.lookup "iat".toList with
        | some (grant_value.int n) => fmt_ld n
        | _ => [])
    ++ ['.']
    ++ (match jwt.lookup "exp".toList with
        | some (grant_value.int n) => fmt_ld n
        | _ => [])

/-- Whether a string is a non-empty run of decimal digits. -/
def is_number (s : List Char) : Bool :=
  s ≠ [] && s.all Char.isDigit

/-- The decoder of the toy token encoding.  A token of two numbers decodes to
a claim set without a subject. -/
def demo_jwt_decode (token : List Char) : Option jwt_t :=
  match split_dots token with
  | [sub, iat, exp] =>
    if is_number iat && is_number exp then
      some [("sub".toList, grant_value.str sub),
            ("iat".toList, grant_value.int (digits_value iat 0)),
            ("exp".toList, grant_value.int (digits_value exp 0))]
    else none
  | [iat, exp] =>
    if is_number iat && is_number exp then
      some [("iat".toList, grant_value.int (digits_value iat 0)),
            ("exp".toList, grant_value.int (digits_value exp 0))]
    else none
  | _ => none

/-- The grants of a toy token as text. -/
def demo_jwt_get_grants_json (jwt : jwt_t) : Option (List Char) :=
  some ("\x7b\"claims\":\"".toList ++ demo_jwt_encode_str jwt ++ "\"\x7d".toList)

/-- The answers of the JSON parser on the request bodies of the examples. -/
def demo_json_loadb (body : List Char) : Option json_t :=
  if body = "\x7b\"username\":\"user0\",\"password\":\"thepassword\"\x7d".toList then
    some (json_t.object [("username".toList, json_member.string "user0".toList),
                         ("password".toList, json_member.string "thepassword".toList)])
  else if body = "\x7b\"username\":\"user0\",\"password\":\"wrong\"\x7d".toList then
    some (json_t.object [("username".toList, json_member.string "user0".toList),
                         ("password".toList, json_member.string "wrong".toList)])
  else if body = "\x7b\"username\":\"user0\",\"password\":5\x7d".toList then
    some (json_t.object [("username".toList, json_member.string "user0".toList),
                         ("password".toList, json_member.other)])
  else none

/-- An environment for the examples: server root `/srv/www` without any file,
a socket that accepts every write, the clock at 1700000000 and a token
lifetime of one day. -/
def demo_env : Env :=
  { server_root := "/srv/www".toList,
    token_expiration_time := 86400,
    now := 1700000000,
    jwt_encode_str := demo_jwt_encode_str,
    jwt_decode := demo_jwt_decode,
    jwt_get_grants_json := demo_jwt_get_grants_json,
    jwt_missing_int := -1,
    json_loadb := demo_json_loadb,
    fs_access := fun _ => access_result.failed,
    fs_stat := fun _ => none,
    fs_open := fun _ => false,
    sendbuffer_ok := fun _ => true,
    sendfile_result := fun _ _ count => count,
    memset_method := http_method.HTTP_GET,
    memset_version := http_version.HTTP_1_0,
    value_mem := some [],
    malloc_mem := [],
    cookies_null := true }

/-- A connection whose buffer holds the bytes `input`, none of them read. -/
def connection (input : String) : bufio :=
  { buf := input.toList, bufpos := 0 }

/-- The state in which the dispatcher runs for the request `input` received
on a fresh connection: the request line and the headers are processed, the
body is read, the response buffers are set up. -/
def dispatch_state (env : Env) (input : String) : State :=
  init_response
    (read_body
      (http_process_headers env
        (http_parse_request env
          { ta := zeroed_transaction env, client := connection input, trace := [] }).2).2).2

/-- The example environment with a readable file `/srv/www/index.html` of 10
bytes. -/
def demo_env_index : Env :=
  { demo_env with
    fs_access := fun f =>
      if f = "/srv/www/index.html".toList then access_result.ok else access_result.failed,
    fs_stat := fun f => if f = "/srv/www/index.html".toList then some 10 else none,
    fs_open := fun f => decide (f = "/srv/www/index.html".toList) }

/-- The example environment with a file `/srv/www/index.html` of 10 bytes
that passes the access check and `stat` but cannot be opened. -/
def demo_env_unopenable : Env :=
  { demo_env_index with fs_open := fun _ => false }

/-- The example environment with a token lifetime of 500000000 seconds. -/
def demo_env_long_lived : Env :=
  { demo_env with token_expiration_time := 500000000 }

/-- Whether an event is a socket write. -/
def is_send : Event → Bool
  | Event.send _ _ => true
  | _ => false

/-- The trace `t1` continues the trace `t0` with socket writes only. -/
def sends_only (t0 t1 : List Event) : Prop :=
  ∃ rest, t1 = t0 ++ rest ∧ ∀ e ∈ rest, is_send e = true

/-! ## Notions used to state the properties of the later sections -/

/-- The trace `t1` continues the trace `t0`. -/
def extends_trace (t0 t1 : List Event) : Prop :=
  ∃ rest, t1 = t0 ++ rest

/-- The MIME type table of the specification, by extension (the text after
the last full stop). -/
def mime_of_extension (ext : List Char) : List Char :=
  if ext = "html".toList then "text/html".toList
  else if ext = "gif".toList then "image/gif".toList
  else if ext = "png".toList then "image/png".toList
  else if ext = "jpg".toList then "image/jpeg".toList
  else if ext = "js".toList then "text/javascript".toList
  else "text/plain".toList

/-- The events of a transfer that sends the bytes from offset `pos` up to `n`
without an error: every call starts where the one before stopped, asks for
all the bytes that are left and sends at least one. -/
def complete_transfer (n : Int) : Int → List Event → Prop
  | pos, [] => pos = n
  | pos, Event.sendfile off count res :: rest =>
    off = pos ∧ count = n - pos ∧ 0 < res ∧ complete_transfer n (pos + res) rest
  | _, _ :: _ => False

/-- The events of a transfer from offset `pos` that stops at the first call
that reports an error: the calls before it are as in a complete transfer, the
last call returns a result `≤ 0`. -/
def failed_transfer (n : Int) : Int → List Event → Prop
  | _, [] => False
  | pos, Event.sendfile off count res :: rest =>
    off = pos ∧ count = n - pos ∧
      ((res ≤ 0 ∧ rest = []) ∨ (0 < res ∧ failed_transfer n (pos + res) rest))
  | _, _ :: _ => False

/-- Cut a string at every occurrence of the character `sep`. -/
def split_on_char (sep : Char) : List Char → List (List Char)
  | [] => [[]]
  | c :: cs =>
    match split_on_char sep cs with
    | [] => [[c]]
    | p :: ps => if c = sep then [] :: p :: ps else (c :: p) :: ps

/-- The file that an absolute path free of `..` denotes: repeated slashes are
collapsed and `.` segments are removed. -/
def normalize_path (path : List Char) : List Char :=
  (((split_on_char '/' path).filter (fun seg => seg ≠ [] ∧ seg ≠ ['.'])).map
    (fun seg => '/' :: seg)).flatten

/-- The example environment with a readable file `/srv/www/private/secret.txt`
of 6 bytes; the file system resolves a path to the file it denotes. -/
def demo_env_private : Env :=
  { demo_env with
    fs_access := fun f =>
      if normalize_path f = "/srv/www/private/secret.txt".toList then access_result.ok
      else access_result.failed,
    fs_stat := fun f =>
      if normalize_path f = "/srv/www/private/secret.txt".toList then some 6 else none,
    fs_open := fun f => decide (normalize_path f = "/srv/www/private/secret.txt".toList) }

/-- The example environment with a transfer primitive that sends at most 4
bytes in one call. -/
def demo_env_chunked : Env :=
  { demo_env with sendfile_result := fun _ _ count => min count 4 }

/-! ## The header block and the Cookie value as text -/

/-- The field name that `strtok_r(header, ":", &endptr)` finds in the text of
a header line, read as a C string: the text after the leading colons, up to
the next colon. -/
def field_name_of (line : List Char) : List Char :=
  ((cstr line).dropWhile (fun c => decide (c ∈ [':']))).takeWhile
    (fun c => decide (c ∉ [':']))

/-- The field value of a header line, read as a C string: the text after the
colon that ends the field name, without the leading spaces and tabs. -/
def field_value_of (line : List Char) : List Char :=
  (((((cstr line).dropWhile (fun c => decide (c ∈ [':']))).dropWhile
      (fun c => decide (c ∉ [':']))).drop 1).dropWhile (fun c => decide (c ∈ [' ', '\t'])))

/-- The bytes of a header block: the lines, each ended by CR LF, the empty
line, and the bytes `rest` that follow it. -/
def header_text (lines : List (List Char)) (rest : List Char) : List Char :=
  lines.foldr (fun l acc => l ++ '\r' :: '\n' :: acc) ('\r' :: '\n' :: rest)

/-- The effect of one iteration of the Cookie loop, for the segment `seg`, on
the pair of what is behind `value` and the string in `ta->cookie`; `none` when
the iteration goes through a `value` that addresses no storage. -/
def scan_segment (p : Option (List Char) × List Char) (seg : List Char) :
    Option (Option (List Char) × List Char) :=
  if strstr seg "auth_token=".toList then
    match p.1 with
    | none => none
    | some old =>
      match sscanf_auth_token (seg.filter (fun c => c ≠ ' ')) with
      | some w => some (some w, w)
      | none => some (some old, old)
  else some p

/-- The Cookie loop on the text `rem` that `strtok` has not looked at yet: the
next segment is the text between the leading semicolons and the next
semicolon.  The first argument bounds the number of segments. -/
def cookie_scan : Nat → List Char → Option (List Char) × List Char →
    Option (Option (List Char) × List Char)
  | 0, _, p => some p
  | fuel + 1, rem, p =>
    if rem.dropWhile (fun c => decide (c ∈ [';'])) = [] then some p
    else
      match scan_segment p ((rem.dropWhile (fun c => decide (c ∈ [';']))).takeWhile
          (fun c => decide (c ∉ [';']))) with
      | none => none
      | some p1 =>
        cookie_scan fuel
          (((rem.dropWhile (fun c => decide (c ∈ [';']))).dropWhile
            (fun c => decide (c ∉ [';']))).drop 1) p1

/-- The Cookie branch on the text `v` of the field value, read from a buffer
of `n` bytes, with `value_mem` behind `value`: the string in `ta->cookie` and
what is behind `value` afterwards; `none` where the branch is undefined. -/
def cookie_of_value (env : Env) (value_mem : Option (List Char)) (n : Nat) (v : List Char) :
    Option (List Char × Option (List Char)) :=
  if strstr v ";".toList then
    match cookie_scan (n + 1) v (value_mem, env.malloc_mem) with
    | none => none
    | some p => some (p.2, p.1)
  else
    match value_mem with
    | none => none
    | some old =>
      if env.cookies_null then
        match sscanf_auth_token (v.filter (fun c => c ≠ ' ')) with
        | some w => some (w, some w)
        | none => some (old, some old)
      else none

/-- What the header lines set: what is behind `value`, the content length and
the cookie. -/
structure HeaderFields where
  value_mem : Option (List Char)
  content_len : Int
  cookie : Option (List Char)
  deriving DecidableEq, Repr

/-- The loop of `http_process_headers` on the text of the lines of a block,
read from a buffer of `n` bytes: the result (`some true` at the empty line,
`some false` at a line without a field name, `none` at a Cookie line on which
the Cookie branch is undefined) and the fields at that point. -/
def header_lines_run (env : Env) (n : Nat) :
    List (List Char) → HeaderFields → Option Bool × HeaderFields
  | [], f => (some true, f)
  | l :: ls, f =>
    if field_name_of l = [] then (some false, f)
    else if strcasecmp_eq (field_name_of l) "Cookie".toList then
      match cookie_of_value env f.value_mem n (field_value_of l) with
      | none =>
        (none,
         { f with content_len :=
             if strcasecmp_eq (field_name_of l) "Content-Length".toList then
               atoi (field_value_of l) else f.content_len })
      | some (ck, vm) =>
        header_lines_run env n ls
          { value_mem := vm,
            content_len :=
              if strcasecmp_eq (field_name_of l) "Content-Length".toList then
                atoi (field_value_of l) else f.content_len,
            cookie := some ck }
    else
      header_lines_run env n ls
        { f with content_len :=
            if strcasecmp_eq (field_name_of l) "Content-Length".toList then
              atoi (field_value_of l) else f.content_len }

/-- The content length stored after the lines of a header block, starting from
`init`: every line whose field name is `Content-Length` stores `atoi` of its
value. -/
def content_length_after (init : Int) (lines : List (List Char)) : Int :=
  lines.foldl (fun acc l =>
    if strcasecmp_eq (field_name_of l) "Content-Length".toList then atoi (field_value_of l)
    else acc) init

/-- The calls of the transfer primitive that a list of events records, the
first one made after `k` earlier events: every event is a call of
`bufio_sendfile` and carries the result of the primitive for its offset and
count. -/
def calls_of_primitive (env : Env) : Nat → List Event → Prop
  | _, [] => True
  | k, Event.sendfile off count res :: rest =>
    res = env.sendfile_result k off count ∧ calls_of_primitive env (k + 1) rest
  | _, _ :: _ => False

/-- The example environment in which the uninitialised `value` addresses no
storage. -/
def demo_env_wild : Env :=
  { demo_env with value_mem := none }

/-- The file system calls that `handle_static_asset` makes for the joined path
`fname`, up to the first one that fails. -/
def static_fs_calls (env : Env) (fname : List Char) : List Event :=
  if strstr fname "..".toList then []
  else
    match env.fs_access fname with
    | access_result.eacces => [Event.access fname]
    | access_result.failed => [Event.access fname]
    | access_result.ok =>
      match env.fs_stat fname with
      | none => [Event.access fname, Event.stat fname]
      | some _ => [Event.access fname, Event.stat fname, Event.fopen fname]

/-- The text of the body with which `handle_static_asset` refuses the joined
path `fname` of the request path `req_path`. -/
def static_refusal_text (env : Env) (fname req_path : List Char) : List Char :=
  if strstr fname "..".toList then "Not Found.".toList
  else
    match env.fs_access fname with
    | access_result.eacces => "Permission denied.".toList
    | access_result.failed => "File ".toList ++ req_path ++ " not found".toList
    | access_result.ok =>
      match env.fs_stat fname with
      | none => "Could not stat file.".toList
      | some _ => "File ".toList ++ req_path ++ " not found".toList

/-- The example environment in which every access check fails with
`EACCES`. -/
def demo_env_denied : Env :=
  { demo_env with fs_access := fun _ => access_result.eacces }

/-! ## Lemmas on the response assembly -/


theorem vsnprintf_append_of_lt (size : Nat) (text : List Char) (h : text.length < size) :
    vsnprintf_append size text = text := by
  unfold vsnprintf_append
  have h1 : ¬ text.length > size := by omega
  have h2 : ¬ text.length = size := by omega
  simp [h1, h2]

theorem snprintf_of_lt (size : Nat) (text : List Char) (h : text.length < size) :
    snprintf size text = text := by
  unfold snprintf
  exact List.take_of_length_le (by omega)

theorem transmitted_append (a b : List Event) :
    transmitted (a ++ b) = transmitted a ++ transmitted b := by
  induction a with
  | nil => simp [transmitted]
  | cons e es ih =>
    cases e with
    | send bytes ok => cases ok <;> simp [transmitted, ih]
    | _ => simp [transmitted, ih]

/-- With a socket that accepts every write, `send_response` writes the status
line, the header block closed by the `Content-Length` line and the empty
line, and the body. -/
theorem send_response_all_ok (env : Env) (s : State)
    (hsend : ∀ k, env.sendbuffer_ok k = true) :
    send_response env s =
      (true,
       { s with
         ta := { s.ta with
           resp_headers :=
             add_content_length s.ta.resp_headers s.ta.resp_body.length ++ CRLF },
         trace := s.trace ++
           [Event.send (start_response s.ta []) true,
            Event.send (add_content_length s.ta.resp_headers s.ta.resp_body.length ++ CRLF) true,
            Event.send s.ta.resp_body true] }) := by
  simp [send_response, send_response_header, bufio_sendbuffer, hsend, start_response]

theorem send_response_status (env : Env) (s : State) :
    (send_response env s).2.ta.resp_status = s.ta.resp_status := by
  unfold send_response send_response_header bufio_sendbuffer
  simp only []
  split_ifs <;> rfl

theorem send_response_body (env : Env) (s : State) :
    (send_response env s).2.ta.resp_body = s.ta.resp_body := by
  unfold send_response send_response_header bufio_sendbuffer
  simp only []
  split_ifs <;> rfl

theorem login_cookie_text (token : List Char) (hlen : token.length < 2000) :
    vsnprintf_append MAX_HEADER_LEN
        (snprintf 5000 ("auth_token=".toList ++ token ++ "; Path=/".toList))
      = "auth_token=".toList ++ token ++ "; Path=/".toList := by
  have h1 : ("auth_token=".toList ++ token ++ "; Path=/".toList).length = token.length + 19 := by
    simp
  rw [snprintf_of_lt _ _ (by rw [h1]; omega)]
  exact vsnprintf_append_of_lt _ _ (by rw [h1]; unfold MAX_HEADER_LEN; omega)

/-- C5: a POST to `/api/login` with the fixed credentials at time `env.now`
and token lifetime `env.token_expiration_time` is answered with status 200;
the body is the JSON text of the claim set `sub = user0`, `iat = now`,
`exp = now + lifetime` (followed by a line feed); and, on a socket that
accepts the writes, the bytes sent are the status line `200 OK`, the headers
set so far, `Set-Cookie: auth_token=<token>; Path=/` with the encoding of that
claim set, `Content-Type: application/json`, the `Content-Length` line, the
empty line and the body. -/
theorem C5_login_post_success (env : Env) (s : State)
    (members : List (List Char × json_member)) (grants : List Char)
    (hmethod : s.ta.req_method = http_method.HTTP_POST)
    (hbody : s.ta.resp_body = [])
    (hjson : env.json_loadb
        ((s.client.buf.drop s.ta.req_body).take (size_t_of_int s.ta.req_content_len))
      = some (json_t.object members))
    (hpass : members.lookup "password".toList = some (json_member.string "thepassword".toList))
    (huser : members.lookup "username".toList = some (json_member.string "user0".toList))
    (hgrants : env.jwt_get_grants_json (login_claims env) = some grants)
    (hfmt : '%' ∉ env.jwt_encode_str (login_claims env))
    (hlen : (env.jwt_encode_str (login_claims env)).length < 2000) :
    login_claims env
        = [("sub".toList, grant_value.str "user0".toList),
           ("iat".toList, grant_value.int env.now),
           ("exp".toList, grant_value.int (env.now + env.token_expiration_time))]
    ∧ (handle_api env s).2.ta.resp_status = some http_response_status.HTTP_OK
    ∧ (handle_api env s).2.ta.resp_body = grants ++ "\n".toList
    ∧ ((∀ k, env.sendbuffer_ok k = true) →
        (handle_api env s).1 = some true
        ∧ transmitted (handle_api env s).2.trace
          = transmitted s.trace ++ "HTTP/1.1 200 OK\r\n".toList
            ++ add_content_length
                (s.ta.resp_headers
                  ++ "Set-Cookie: auth_token=".toList ++ env.jwt_encode_str (login_claims env)
                  ++ "; Path=/\r\n".toList
                  ++ "Content-Type: application/json\r\n".toList)
                (grants ++ "\n".toList).length
            ++ "\r\n".toList
            ++ (grants ++ "\n".toList)) := by
  have hcookie := login_cookie_text (env.jwt_encode_str (login_claims env)) hlen
  have hfmt2 : '%' ∉ snprintf 5000
      ("auth_token=".toList ++ env.jwt_encode_str (login_claims env) ++ "; Path=/".toList) := by
    rw [snprintf_of_lt _ _ (by simp; omega)]
    simp [hfmt]
  have hct : vsnprintf_append MAX_HEADER_LEN "application/json".toList = "application/json".toList := by
    decide
  have heq : handle_api env s = returns (send_response env
      { s.log (Event.call Handler.api) with
        ta := { s.ta with
          resp_body := grants ++ "\n".toList,
          resp_headers :=
            s.ta.resp_headers
              ++ "Set-Cookie: auth_token=".toList ++ env.jwt_encode_str (login_claims env)
              ++ "; Path=/\r\n".toList
              ++ "Content-Type: application/json\r\n".toList,
          resp_status := some http_response_status.HTTP_OK } }) := by
    unfold handle_api
    simp only [State.log, hmethod, hjson, json_object_get, hpass, huser, json_string_value]
    have hl : jwt_add_grant_int
        (jwt_add_grant_int (jwt_add_grant [] "sub".toList "user0".toList) "iat".toList env.now)
        "exp".toList (env.now + env.token_expiration_time) = login_claims env := rfl
    simp only [hl, hgrants, hfmt2, if_false, ne_eq, not_true_eq_false, http_add_header, hcookie,
      hct, hbody, List.nil_append]
    simp
  refine ⟨rfl, ?_, ?_, ?_⟩
  · rw [heq]; simp only [returns, send_response_status]
  · rw [heq]; simp only [returns, send_response_body]
  · intro hsend
    rw [heq, send_response_all_ok env _ hsend]
    simp only [returns, State.log, start_response, status_text, transmitted_append, transmitted,
      CRLF]
    simp


theorem send_response_header_status (env : Env) (s : State) :
    (send_response_header env s).2.ta.resp_status = s.ta.resp_status := by
  unfold send_response_header bufio_sendbuffer
  simp only []
  split_ifs <;> rfl

theorem send_error_status (env : Env) (s : State) (status : http_response_status)
    (text : List Char) :
    (send_error env s status text).2.ta.resp_status = some status := by
  unfold send_error
  rw [send_response_status]

theorem send_not_found_status (env : Env) (s : State) :
    (send_not_found env s).2.ta.resp_status = some http_response_status.HTTP_NOT_FOUND := by
  unfold send_not_found
  rw [send_error_status]

theorem sends_only_refl (t : List Event) : sends_only t t :=
  ⟨[], by simp, by simp⟩

theorem sends_only_trans {t0 t1 t2 : List Event} (h1 : sends_only t0 t1)
    (h2 : sends_only t1 t2) : sends_only t0 t2 := by
  obtain ⟨r1, rfl, hr1⟩ := h1
  obtain ⟨r2, rfl, hr2⟩ := h2
  refine ⟨r1 ++ r2, by simp, ?_⟩
  intro e he
  rcases List.mem_append.mp he with h | h
  · exact hr1 e h
  · exact hr2 e h

theorem sends_only_mem {t0 t1 : List Event} (h : sends_only t0 t1) (e : Event)
    (he : e ∈ t1) : e ∈ t0 ∨ is_send e = true := by
  obtain ⟨r, rfl, hr⟩ := h
  rcases List.mem_append.mp he with h | h
  · exact Or.inl h
  · exact Or.inr (hr e h)

theorem sends_only_mono {t0 t1 : List Event} (h : sends_only t0 t1) (e : Event)
    (he : e ∈ t0) : e ∈ t1 := by
  obtain ⟨r, rfl, _⟩ := h
  exact List.mem_append.mpr (Or.inl he)

theorem bufio_sendbuffer_sends (env : Env) (s : State) (bytes : List Char) :
    sends_only s.trace (bufio_sendbuffer env s bytes).2.trace :=
  ⟨[_], rfl, by simp [is_send]⟩

theorem send_response_header_sends (env : Env) (s : State) :
    sends_only s.trace (send_response_header env s).2.trace := by
  unfold send_response_header
  dsimp only
  split_ifs
  · exact bufio_sendbuffer_sends env s _
  · exact sends_only_trans (bufio_sendbuffer_sends env s _) (bufio_sendbuffer_sends env _ _)
  · exact sends_only_trans (bufio_sendbuffer_sends env s _) (bufio_sendbuffer_sends env _ _)

/-- The events that `send_response` adds are socket writes. -/
theorem send_response_sends (env : Env) (s : State) :
    sends_only s.trace (send_response env s).2.trace := by
  have key : ∀ s1 : State, s1.trace = s.trace →
      sends_only s.trace
        (if (send_response_header env s1).1 = false then (false, (send_response_header env s1).2)
         else bufio_sendbuffer env (send_response_header env s1).2
           (send_response_header env s1).2.ta.resp_body).2.trace := by
    intro s1 h1
    rw [← h1]
    split_ifs
    · exact send_response_header_sends env s1
    · exact sends_only_trans (send_response_header_sends env s1) (bufio_sendbuffer_sends env _ _)
  exact key _ rfl

/-- The events that `send_error` adds are socket writes. -/
theorem send_error_sends (env : Env) (s : State) (status : http_response_status)
    (text : List Char) :
    sends_only s.trace (send_error env s status text).2.trace := by
  unfold send_error
  exact send_response_sends env _

theorem is_fs_event_of_is_send (e : Event) (h : is_send e = true) : is_fs_event e = false := by
  cases e <;> simp_all [is_send, is_fs_event]

theorem send_response_header_all_ok (env : Env) (s : State)
    (hsend : ∀ k, env.sendbuffer_ok k = true) :
    send_response_header env s =
      (true,
       { s with
         ta := { s.ta with resp_headers := s.ta.resp_headers ++ CRLF },
         trace := s.trace ++
           [Event.send (start_response s.ta []) true,
            Event.send (s.ta.resp_headers ++ CRLF) true] }) := by
  simp [send_response_header, bufio_sendbuffer, hsend]

theorem guess_mime_type_length (filename : List Char) :
    (guess_mime_type filename).length < MAX_HEADER_LEN := by
  unfold guess_mime_type
  split
  · decide
  · split_ifs <;> decide

theorem send_response_sends_from (env : Env) (s : State) (t0 : List Event) (h : s.trace = t0) :
    sends_only t0 (send_response env s).2.trace :=
  h ▸ send_response_sends env s

theorem send_error_sends_from (env : Env) (s : State) (status : http_response_status)
    (text : List Char) (t0 : List Event) (h : s.trace = t0) :
    sends_only t0 (send_error env s status text).2.trace :=
  h ▸ send_error_sends env s status text

theorem sends_only_none (t0 : List Event) (s : State) (h : s.trace = t0) :
    sends_only t0 s.trace :=
  h ▸ sends_only_refl _

/-- After its entry event, `handle_api` only writes to the socket. -/
theorem handle_api_sends (env : Env) (s : State) :
    sends_only (s.trace ++ [Event.call Handler.api]) (handle_api env s).2.trace := by
  unfold handle_api api_empty_object
  simp only [State.log, returns]
  repeat' split
  all_goals
    first
    | exact send_response_sends_from env _ _ rfl
    | exact send_error_sends_from env _ _ _ _ rfl
    | exact sends_only_refl _

theorem strncasecmp_eq_exact (a b : List Char) (n : Nat) (h : b.length < n) :
    strncasecmp_eq a b n = true ↔ a.map Char.toLower = b.map Char.toLower := by
  induction a generalizing b n with
  | nil =>
    cases b with
    | nil => cases n with
      | zero => omega
      | succ m => simp [strncasecmp_eq]
    | cons y ys => cases n with
      | zero => omega
      | succ m => simp [strncasecmp_eq]
  | cons x xs ih =>
    cases b with
    | nil => cases n with
      | zero => omega
      | succ m => simp [strncasecmp_eq]
    | cons y ys => cases n with
      | zero => omega
      | succ m =>
        have h2 : ys.length < m := by simp at h; omega
        simp [strncasecmp_eq, ih ys m h2]

theorem starts_with_api_login (p : List Char) :
    STARTS_WITH p ("/api/login".toList ++ [NUL]) = true
      ↔ p.map Char.toLower = "/api/login".toList := by
  unfold STARTS_WITH
  have h1 : cstr ("/api/login".toList ++ [NUL]) = "/api/login".toList := by decide
  have h2 : ("/api/login".toList ++ [NUL]).length = 11 := by decide
  have h3 : "/api/login".toList.map Char.toLower = "/api/login".toList := by decide
  rw [h1, h2, strncasecmp_eq_exact _ _ _ (by decide), h3]

/-- The state in which the dispatcher chooses the handler: after the 501
answer to an unknown method, if there was one. -/
theorem dispatch_unknown_sends (env : Env) (s : State) :
    sends_only s.trace
      (if s.ta.req_method = http_method.HTTP_UNKNOWN then
        (send_error env s http_response_status.HTTP_NOT_IMPLEMENTED
          "http method not implemented".toList).2
       else s).trace := by
  split_ifs
  · exact send_error_sends env s _ _
  · exact sends_only_refl _

theorem send_response_header_status_line (env : Env) (s : State) :
    Event.send (start_response s.ta []) (env.sendbuffer_ok s.trace.length)
      ∈ (send_response_header env s).2.trace := by
  unfold send_response_header bufio_sendbuffer
  cases h : env.sendbuffer_ok s.trace.length
  · simp [h]
  · simp only [h, Bool.true_eq_false, if_false]
    split_ifs <;> simp

/-- The status line of a response is handed to the socket first. -/
theorem send_response_status_line (env : Env) (s : State) :
    Event.send (start_response s.ta []) (env.sendbuffer_ok s.trace.length)
      ∈ (send_response env s).2.trace := by
  have h0 := send_response_header_status_line env
    { s with ta := { s.ta with
        resp_headers := add_content_length s.ta.resp_headers s.ta.resp_body.length } }
  unfold send_response
  dsimp only
  split_ifs
  · exact h0
  · exact sends_only_mono (bufio_sendbuffer_sends env _ _) _ h0

theorem send_error_status_line (env : Env) (s : State) (status : http_response_status)
    (text : List Char) :
    Event.send ("HTTP/1.1 ".toList ++ status_text (some status) ++ CRLF)
        (env.sendbuffer_ok s.trace.length)
      ∈ (send_error env s status text).2.trace := by
  unfold send_error
  have h := send_response_status_line env
    { s with ta := { s.ta with
        resp_body := s.ta.resp_body ++ vsnprintf_append MAX_ERROR_LEN text,
        resp_status := some status,
        resp_headers :=
          http_add_header s.ta.resp_headers "Content-Type".toList "text/plain".toList } }
  simpa [start_response] using h

/-- C9, amended: for every request path that begins with `/api` in any letter
case, the dispatcher enters `handle_api` if and only if the path equals
`/api/login` up to letter case; for every other such path `handle_api` is not
entered, the status is 404 and a `404 Not Found` status line is handed to the
socket. -/
theorem C9_api_routing (env : Env) (s : State)
    (hstart : STARTS_WITH (bufio_offset2ptr s.client s.ta.req_path) "/api".toList = true)
    (hfresh : Event.call Handler.api ∉ s.trace) :
    (Event.call Handler.api ∈ (dispatch env s).2.trace
      ↔ (bufio_offset2ptr s.client s.ta.req_path).map Char.toLower = "/api/login".toList)
    ∧ ((bufio_offset2ptr s.client s.ta.req_path).map Char.toLower ≠ "/api/login".toList →
        (dispatch env s).2.ta.resp_status = some http_response_status.HTTP_NOT_FOUND
        ∧ ∃ ok, Event.send "HTTP/1.1 404 Not Found\r\n".toList ok ∈ (dispatch env s).2.trace) := by
  have hne : ∀ e, e ∈ s.trace ∨ is_send e = true → e ≠ Event.call Handler.api := by
    intro e he heq
    subst heq
    rcases he with h | h
    · exact hfresh h
    · simp [is_send] at h
  by_cases hp : (bufio_offset2ptr s.client s.ta.req_path).map Char.toLower = "/api/login".toList
  · have hl := (starts_with_api_login _).mpr hp
    refine ⟨⟨fun _ => hp, fun _ => ?_⟩, fun h => absurd hp h⟩
    unfold dispatch
    simp only [hstart, hl, if_true]
    exact sends_only_mono (handle_api_sends env _) _ (by simp)
  · have hl : STARTS_WITH (bufio_offset2ptr s.client s.ta.req_path) ("/api/login".toList ++ [NUL])
        = false := by
      cases h : STARTS_WITH (bufio_offset2ptr s.client s.ta.req_path) ("/api/login".toList ++ [NUL])
      · rfl
      · exact absurd ((starts_with_api_login _).mp h) hp
    have hd : dispatch env s = returns (send_error env
        (if s.ta.req_method = http_method.HTTP_UNKNOWN then
          (send_error env s http_response_status.HTTP_NOT_IMPLEMENTED
            "http method not implemented".toList).2
         else s) http_response_status.HTTP_NOT_FOUND "Not implemented".toList) := by
      unfold dispatch
      simp only [hstart, hl, if_true, Bool.false_eq_true, if_false]
    refine ⟨⟨fun hin => ?_, fun h => absurd h hp⟩, fun _ => ⟨?_, ?_⟩⟩
    · exfalso
      rw [hd] at hin
      have h1 := sends_only_mem
        (sends_only_trans (dispatch_unknown_sends env s) (send_error_sends env _ _ _)) _ hin
      exact hne _ h1 rfl
    · rw [hd]
      simp only [returns, send_error_status]
    · rw [hd]
      have h2 := send_error_status_line env
        (if s.ta.req_method = http_method.HTTP_UNKNOWN then
          (send_error env s http_response_status.HTTP_NOT_IMPLEMENTED
            "http method not implemented".toList).2
         else s) http_response_status.HTTP_NOT_FOUND "Not implemented".toList
      have h3 : "HTTP/1.1 ".toList ++ status_text (some http_response_status.HTTP_NOT_FOUND) ++ CRLF
          = "HTTP/1.1 404 Not Found\r\n".toList := by decide
      rw [h3] at h2
      exact ⟨_, h2⟩

/-- C10, amended: for every request line whose path token does not contain
`..`: when the version token is anything other than exactly `HTTP/1.1` or
`HTTP/1.0` (or is missing), `http_parse_request` returns failure and writes
nothing to the socket; when it is exactly `HTTP/1.1` or `HTTP/1.0`, the
function succeeds, writes nothing and records `HTTP_1_1` or `HTTP_1_0`
respectively. -/
theorem C10_version_token (env : Env) (s : State)
    (hpath : ∀ p, (request_line s.client).bind RequestLine.path = some p →
      strstr p "..".toList = false) :
    ((request_line s.client).bind RequestLine.version = some "HTTP/1.1".toList →
        (http_parse_request env s).1 = some true
        ∧ (http_parse_request env s).2.ta.req_version = http_version.HTTP_1_1
        ∧ (http_parse_request env s).2.trace = s.trace)
    ∧ ((request_line s.client).bind RequestLine.version = some "HTTP/1.0".toList →
        (http_parse_request env s).1 = some true
        ∧ (http_parse_request env s).2.ta.req_version = http_version.HTTP_1_0
        ∧ (http_parse_request env s).2.trace = s.trace)
    ∧ ((request_line s.client).bind RequestLine.version ≠ some "HTTP/1.1".toList →
        (request_line s.client).bind RequestLine.version ≠ some "HTTP/1.0".toList →
        (http_parse_request env s).1 = some false
        ∧ (http_parse_request env s).2.trace = s.trace) := by
  revert hpath
  unfold http_parse_request request_line
  cases hrl : bufio_readline s.client with
  | none => simp
  | some lc =>
    obtain ⟨len, client1⟩ := lc
    dsimp only
    by_cases hlen : len < 2
    · simp only [hlen, if_true]
      simp
    · simp only [hlen, if_false]
      generalize strtok_r (client1.buf.set (s.client.bufpos + len - 2) NUL) s.client.bufpos [' ']
        = t1
      obtain ⟨tok1, buf1, save1⟩ := t1
      cases tok1 with
      | none => simp
      | some method =>
        dsimp only
        generalize strtok_r buf1 save1 [' '] = t2
        obtain ⟨tok2, buf2, save2⟩ := t2
        cases tok2 with
        | none => simp
        | some req_path =>
          dsimp only [Option.bind]
          intro hpath
          have hdd := hpath _ rfl
          simp only [hdd, Bool.false_eq_true, if_false]
          generalize strtok_r buf2 save2 ['\r'] = t3
          obtain ⟨tok3, buf3, save3⟩ := t3
          cases tok3 with
          | none => simp
          | some version =>
            dsimp only [Option.map]
            by_cases h11 : cstrAt buf3 version = "HTTP/1.1".toList
            · simp only [h11, if_true]
              simp
            · by_cases h10 : cstrAt buf3 version = "HTTP/1.0".toList
              · simp only [h10, if_true]
                simp
              · simp only [h11, h10, if_false]
                simp
                exact ⟨h11, h10⟩

/-! ## The claims on concrete requests -/

set_option maxRecDepth 100000

/-- C1 (the code departs from the claim): the request
`GET /../etc/passwd HTTP/1.1` is answered with 404 by `http_parse_request`,
which then returns the result of `send_error`, that is success; the
transaction goes on with `req_path` still 0, the static handler joins the
server root with the string at offset 0 of the buffer (the method token) and
calls `access` on it, and a second response is written. -/
theorem C1_dotdot_request_reaches_file_system :
    (http_handle_transaction demo_env (connection "GET /../etc/passwd HTTP/1.1\r\n\r\n") []).2.trace
      = [Event.send "HTTP/1.1 404 Not Found\r\n".toList true,
         Event.send "Content-Type: text/plain\r\nContent-Length: 42\r\n\r\n".toList true,
         Event.send "Permission denied. Can\x27t access directory.".toList true,
         Event.call Handler.static,
         Event.access "/srv/wwwGET".toList,
         Event.send "HTTP/1.1 404 Not Found\r\n".toList true,
         Event.send
           "Server: CS3214-Personal-Server\r\nContent-Type: text/plain\r\nContent-Length: 18\r\n\r\n".toList
           true,
         Event.send "File GET not found".toList true] := by
  decide

/-- C2 (the code departs from the claim): at time 1700000000 a token whose
`exp` claim is 1700000000 (at the current time, not after it) is answered by
GET `/api/login` with the full claim set, not with `{}`: the test is
`now > expT`.  The same token at the same time is refused with 403 by
`handle_private`, whose test is `expr > now`. -/
theorem C2_login_get_accepts_token_expiring_now :
    demo_env.now = 1700000000
    ∧ demo_env.jwt_decode "user0.1699913600.1700000000".toList
        = some [("sub".toList, grant_value.str "user0".toList),
                ("iat".toList, grant_value.int 1699913600),
                ("exp".toList, grant_value.int 1700000000)]
    ∧ (http_handle_transaction demo_env
        (connection
          "GET /api/login HTTP/1.1\r\nCookie: auth_token=user0.1699913600.1700000000\r\n\r\n")
        []).2.trace
      = [Event.call Handler.api,
         Event.send "HTTP/1.1 200 OK\r\n".toList true,
         Event.send "Server: CS3214-Personal-Server\r\nContent-Length: 41\r\n\r\n".toList true,
         Event.send "\x7b\"claims\":\"user0.1699913600.1700000000\"\x7d\n".toList true]
    ∧ (http_handle_transaction demo_env
        (connection
          "GET /private/x HTTP/1.1\r\nCookie: auth_token=user0.1699913600.1700000000\r\n\r\n")
        []).2.trace
      = [Event.call Handler.priv,
         Event.send "HTTP/1.1 403 Permission Denied\r\n".toList true,
         Event.send
           "Server: CS3214-Personal-Server\r\nContent-Type: text/plain\r\nContent-Length: 22\r\n\r\n".toList
           true,
         Event.send "Permission denied.sss\n".toList true] := by
  decide

/-- C3 (the code departs from the claim): a token that decodes and verifies
but carries no `sub` claim is not answered with 403: `jwt_get_grant` returns
`NULL`, `strcmp` reads through it, and nothing is written to the socket. -/
theorem C3_private_token_without_subject :
    demo_env.jwt_decode "1699913600.1800000000".toList
        = some [("iat".toList, grant_value.int 1699913600),
                ("exp".toList, grant_value.int 1800000000)]
    ∧ (http_handle_transaction demo_env
        (connection "GET /private/x HTTP/1.1\r\nCookie: auth_token=1699913600.1800000000\r\n\r\n")
        []).1 = none
    ∧ (http_handle_transaction demo_env
        (connection "GET /private/x HTTP/1.1\r\nCookie: auth_token=1699913600.1800000000\r\n\r\n")
        []).2.trace = [Event.call Handler.priv] := by
  decide

/-- C4 (the code departs from the claim): a login body in which `password`
is present but is not a string, here the number 5, is not answered with 403:
`json_string_value` returns `NULL`, `strcmp` reads through it, and nothing is
written to the socket. -/
theorem C4_login_post_password_not_a_string :
    (http_handle_transaction demo_env
        (connection
          "POST /api/login HTTP/1.1\r\nContent-Length: 33\r\n\r\n\x7b\"username\":\"user0\",\"password\":5\x7d")
        []).1 = none
    ∧ (http_handle_transaction demo_env
        (connection
          "POST /api/login HTTP/1.1\r\nContent-Length: 33\r\n\r\n\x7b\"username\":\"user0\",\"password\":5\x7d")
        []).2.trace = [Event.call Handler.api] := by
  decide

/-- C6 (the code departs from the claim): with the clock at 1700000000 and a
token lifetime of 500000000 seconds the token capability round-trips on the
claim set of the login, the login POST answers with that claim set and sets
the cookie, and the GET that presents this cookie at the same time is
answered with `{}`: `exp = 2200000000` is assigned to an `int`, which makes it
negative. -/
theorem C6_round_trip_fails_past_int_range :
    demo_env_long_lived.jwt_decode
        (demo_env_long_lived.jwt_encode_str (login_claims demo_env_long_lived))
      = some (login_claims demo_env_long_lived)
    ∧ (http_handle_transaction demo_env_long_lived
        (connection
          "POST /api/login HTTP/1.1\r\nContent-Length: 45\r\n\r\n\x7b\"username\":\"user0\",\"password\":\"thepassword\"\x7d")
        []).2.trace
      = [Event.call Handler.api,
         Event.send "HTTP/1.1 200 OK\r\n".toList true,
         Event.send
           "Server: CS3214-Personal-Server\r\nSet-Cookie: auth_token=user0.1700000000.2200000000; Path=/\r\nContent-Type: application/json\r\nContent-Length: 41\r\n\r\n".toList
           true,
         Event.send "\x7b\"claims\":\"user0.1700000000.2200000000\"\x7d\n".toList true]
    ∧ (http_handle_transaction demo_env_long_lived
        (connection
          "GET /api/login HTTP/1.1\r\nCookie: auth_token=user0.1700000000.2200000000\r\n\r\n")
        []).2.trace
      = [Event.call Handler.api,
         Event.send "HTTP/1.1 200 OK\r\n".toList true,
         Event.send "Server: CS3214-Personal-Server\r\nContent-Length: 2\r\n\r\n".toList true,
         Event.send "\x7b\x7d".toList true] := by
  decide

/-- C8 (the code departs from the claim): the request `BREW /api/x HTTP/1.1`
gets two responses from the same buffers.  The header block of the second one
repeats the line `Content-Length: 27` of the first, while the body sent with
it has 42 bytes. -/
theorem C8_second_response_repeats_content_length :
    (http_handle_transaction demo_env (connection "BREW /api/x HTTP/1.1\r\n\r\n") []).2.trace
      = [Event.send "HTTP/1.1 501 Not Implemented\r\n".toList true,
         Event.send
           "Server: CS3214-Personal-Server\r\nContent-Type: text/plain\r\nContent-Length: 27\r\n\r\n".toList
           true,
         Event.send "http method not implemented".toList true,
         Event.send "HTTP/1.1 404 Not Found\r\n".toList true,
         Event.send
           "Server: CS3214-Personal-Server\r\nContent-Type: text/plain\r\nContent-Length: 27\r\n\r\nContent-Type: text/plain\r\nContent-Length: 42\r\n\r\n".toList
           true,
         Event.send "http method not implementedNot implemented".toList true]
    ∧ "http method not implementedNot implemented".toList.length = 42 := by
  decide

/-- C5 at a concrete login: the request with the fixed credentials, the clock
at 1700000000 and a lifetime of one day. -/
theorem C5_login_post_success_witness :
    (handle_api demo_env
        (dispatch_state demo_env
          "POST /api/login HTTP/1.1\r\nContent-Length: 45\r\n\r\n\x7b\"username\":\"user0\",\"password\":\"thepassword\"\x7d")).2.ta.resp_status
      = some http_response_status.HTTP_OK
    ∧ transmitted (handle_api demo_env
        (dispatch_state demo_env
          "POST /api/login HTTP/1.1\r\nContent-Length: 45\r\n\r\n\x7b\"username\":\"user0\",\"password\":\"thepassword\"\x7d")).2.trace
      = "HTTP/1.1 200 OK\r\nServer: CS3214-Personal-Server\r\nSet-Cookie: auth_token=user0.1700000000.1700086400; Path=/\r\nContent-Type: application/json\r\nContent-Length: 41\r\n\r\n\x7b\"claims\":\"user0.1700000000.1700086400\"\x7d\n".toList :=
  have h := C5_login_post_success demo_env
    (dispatch_state demo_env
      "POST /api/login HTTP/1.1\r\nContent-Length: 45\r\n\r\n\x7b\"username\":\"user0\",\"password\":\"thepassword\"\x7d")
    [("username".toList, json_member.string "user0".toList),
     ("password".toList, json_member.string "thepassword".toList)]
    "\x7b\"claims\":\"user0.1700000000.1700086400\"\x7d".toList
    (by decide) (by decide) (by decide) (by decide) (by decide) (by decide) (by decide) (by decide)
  ⟨h.2.1, (h.2.2.2 (fun _ => rfl)).2.trans (by decide)⟩

/-- C9 as stated fails: the path `/api/LOGIN` begins with `/api` and is not
the string `/api/login`, and the dispatcher enters `handle_api` for it. -/
theorem C9_counterexample_letter_case :
    bufio_offset2ptr (dispatch_state demo_env "GET /api/LOGIN HTTP/1.1\r\n\r\n").client
        (dispatch_state demo_env "GET /api/LOGIN HTTP/1.1\r\n\r\n").ta.req_path
      = "/api/LOGIN".toList
    ∧ "/api/LOGIN".toList ≠ "/api/login".toList
    ∧ (dispatch demo_env (dispatch_state demo_env "GET /api/LOGIN HTTP/1.1\r\n\r\n")).2.trace
      = [Event.call Handler.api,
         Event.send "HTTP/1.1 200 OK\r\n".toList true,
         Event.send "Server: CS3214-Personal-Server\r\nContent-Length: 2\r\n\r\n".toList true,
         Event.send "\x7b\x7d".toList true] := by
  decide

/-- C9 at a concrete request: `/api/logout` is answered with 404 and
`handle_api` is not entered. -/
theorem C9_api_routing_witness :
    Event.call Handler.api
        ∉ (dispatch demo_env (dispatch_state demo_env "GET /api/logout HTTP/1.1\r\n\r\n")).2.trace
    ∧ (dispatch demo_env
        (dispatch_state demo_env "GET /api/logout HTTP/1.1\r\n\r\n")).2.ta.resp_status
      = some http_response_status.HTTP_NOT_FOUND :=
  have h := C9_api_routing demo_env (dispatch_state demo_env "GET /api/logout HTTP/1.1\r\n\r\n")
    (by decide) (by decide)
  ⟨fun hin => absurd (h.1.mp hin) (by decide), (h.2 (by decide)).1⟩

/-- C10 as stated fails: in the request line `GET /.. HTTP/2.0` the version
token is neither `HTTP/1.1` nor `HTTP/1.0`, yet `http_parse_request` returns
success and a 404 response is written. -/
theorem C10_counterexample_dotdot_path :
    (request_line (connection "GET /.. HTTP/2.0\r\n\r\n")).bind RequestLine.version
      = some "HTTP/2.0".toList
    ∧ (http_parse_request demo_env
        { ta := zeroed_transaction demo_env,
          client := connection "GET /.. HTTP/2.0\r\n\r\n", trace := [] }).1 = some true
    ∧ transmitted (http_parse_request demo_env
        { ta := zeroed_transaction demo_env,
          client := connection "GET /.. HTTP/2.0\r\n\r\n", trace := [] }).2.trace
      = "HTTP/1.1 404 Not Found\r\nContent-Type: text/plain\r\nContent-Length: 42\r\n\r\nPermission denied. Can\x27t access directory.".toList := by
  decide

/-- C10 at concrete request lines: `GET /index.html HTTP/1.0` is recorded as
`HTTP_1_0`, and `GET /index.html HTTP/2.0` fails without a byte written. -/
theorem C10_version_token_witness :
    ((http_parse_request demo_env
        { ta := zeroed_transaction demo_env,
          client := connection "GET /index.html HTTP/1.0\r\n\r\n", trace := [] }).1 = some true
      ∧ (http_parse_request demo_env
        { ta := zeroed_transaction demo_env,
          client := connection "GET /index.html HTTP/1.0\r\n\r\n", trace := [] }).2.ta.req_version
        = http_version.HTTP_1_0
      ∧ (http_parse_request demo_env
        { ta := zeroed_transaction demo_env,
          client := connection "GET /index.html HTTP/1.0\r\n\r\n", trace := [] }).2.trace = [])
    ∧ ((http_parse_request demo_env
        { ta := zeroed_transaction demo_env,
          client := connection "GET /index.html HTTP/2.0\r\n\r\n", trace := [] }).1 = some false
      ∧ (http_parse_request demo_env
        { ta := zeroed_transaction demo_env,
          client := connection "GET /index.html HTTP/2.0\r\n\r\n", trace := [] }).2.trace = []) :=
  ⟨(C10_version_token demo_env
      { ta := zeroed_transaction demo_env,
        client := connection "GET /index.html HTTP/1.0\r\n\r\n", trace := [] }
      (fun p hp => by
        have h : (request_line (connection "GET /index.html HTTP/1.0\r\n\r\n")).bind
            RequestLine.path = some "/index.html".toList := by decide
        rw [h] at hp
        cases hp
        decide)).2.1 (by decide),
   (C10_version_token demo_env
      { ta := zeroed_transaction demo_env,
        client := connection "GET /index.html HTTP/2.0\r\n\r\n", trace := [] }
      (fun p hp => by
        have h : (request_line (connection "GET /index.html HTTP/2.0\r\n\r\n")).bind
            RequestLine.path = some "/index.html".toList := by decide
        rw [h] at hp
        cases hp
        decide)).2.2 (by decide) (by decide)⟩

/-! ## What the handlers do on the inputs outside the departures above -/

/-- The GET branch of `handle_api`: the status is always 200; the body gets
`{}` appended when there is no token, when the token does not decode, when no
claim set can be retrieved, or when `now > (int) exp`; otherwise it gets the
claim set and a line feed appended. -/
theorem login_get_answer (env : Env) (s : State)
    (hmethod : s.ta.req_method = http_method.HTTP_GET) :
    (handle_api env s).2.ta.resp_status = some http_response_status.HTTP_OK
    ∧ (s.ta.cookie = none →
        (handle_api env s).2.ta.resp_body = s.ta.resp_body ++ "\x7b\x7d".toList)
    ∧ (∀ cookie, s.ta.cookie = some cookie → env.jwt_decode cookie = none →
        (handle_api env s).2.ta.resp_body = s.ta.resp_body ++ "\x7b\x7d".toList)
    ∧ (∀ cookie key_d, s.ta.cookie = some cookie → env.jwt_decode cookie = some key_d →
        env.jwt_get_grants_json key_d = none →
        (handle_api env s).2.ta.resp_body = s.ta.resp_body ++ "\x7b\x7d".toList)
    ∧ (∀ cookie key_d grants, s.ta.cookie = some cookie →
        env.jwt_decode cookie = some key_d → env.jwt_get_grants_json key_d = some grants →
        env.now > int_of_long (jwt_get_grant_int env key_d "exp".toList) →
        (handle_api env s).2.ta.resp_body = s.ta.resp_body ++ "\x7b\x7d".toList)
    ∧ (∀ cookie key_d grants, s.ta.cookie = some cookie →
        env.jwt_decode cookie = some key_d → env.jwt_get_grants_json key_d = some grants →
        ¬ env.now > int_of_long (jwt_get_grant_int env key_d "exp".toList) →
        (handle_api env s).2.ta.resp_body = s.ta.resp_body ++ grants ++ "\n".toList) := by
  refine ⟨?_, ?_, ?_, ?_, ?_, ?_⟩
  · unfold handle_api api_empty_object
    simp only [State.log, hmethod, returns]
    repeat' split
    all_goals simp only [send_response_status]
  · intro hc
    unfold handle_api api_empty_object
    simp only [State.log, hmethod, hc, returns, send_response_body]
  · intro cookie hc hd
    unfold handle_api api_empty_object
    simp only [State.log, hmethod, hc, hd, returns, send_response_body]
  · intro cookie key_d hc hd hg
    unfold handle_api api_empty_object
    simp only [State.log, hmethod, hc, hd, hg, returns, send_response_body]
  · intro cookie key_d grants hc hd hg hexp
    unfold handle_api api_empty_object
    simp only [State.log, hmethod, hc, hd, hg, hexp, if_true, returns, send_response_body]
  · intro cookie key_d grants hc hd hg hexp
    unfold handle_api api_empty_object
    simp only [State.log, hmethod, hc, hd, hg, hexp, if_false, returns, send_response_body]

/-- The function `handle_private` on a token that carries a string `sub`: the
request goes to the static handler when the token decodes, `sub` is `user0`
and `exp > now`; every other request with or without such a token is answered
with 403 by `send_error`. -/
theorem private_answer (env : Env) (s : State) :
    (s.ta.cookie = none →
        handle_private env s
          = returns (send_error env (s.log (Event.call Handler.priv))
              http_response_status.HTTP_PERMISSION_DENIED "Permission denied.sss\n".toList))
    ∧ (∀ cookie, s.ta.cookie = some cookie → env.jwt_decode cookie = none →
        handle_private env s
          = returns (send_error env (s.log (Event.call Handler.priv))
              http_response_status.HTTP_PERMISSION_DENIED "Permission denied.\n".toList))
    ∧ (∀ cookie client_T user, s.ta.cookie = some cookie →
        env.jwt_decode cookie = some client_T →
        jwt_get_grant client_T "sub".toList = some user →
        (user = "user0".toList ∧ jwt_get_grant_int env client_T "exp".toList > env.now →
          handle_private env s
            = handle_static_asset env (s.log (Event.call Handler.priv)) env.server_root)
        ∧ (¬ (user = "user0".toList ∧ jwt_get_grant_int env client_T "exp".toList > env.now) →
          handle_private env s
            = returns (send_error env (s.log (Event.call Handler.priv))
                http_response_status.HTTP_PERMISSION_DENIED "Permission denied.sss\n".toList))) := by
  refine ⟨?_, ?_, ?_⟩
  · intro hc
    unfold handle_private
    simp only [State.log, hc]
  · intro cookie hc hd
    unfold handle_private
    simp only [State.log, hc, hd]
  · intro cookie client_T user hc hd hu
    constructor
    · intro h
      unfold handle_private
      simp only [State.log, hc, hd, hu, h, and_self, if_true]
    · intro h
      unfold handle_private
      simp only [State.log, hc, hd, hu, h, if_false]

/-- The POST branch of `handle_api` on a body whose `password` and `username`,
when present, are strings: 400 for a body that does not parse or has no
`password`, 403 for a body without `username`, 403 by `send_error` for a pair
other than the fixed one. -/
theorem login_post_refusals (env : Env) (s : State)
    (hmethod : s.ta.req_method = http_method.HTTP_POST) :
    (env.json_loadb
          ((s.client.buf.drop s.ta.req_body).take (size_t_of_int s.ta.req_content_len)) = none →
        (handle_api env s).2.ta.resp_status = some http_response_status.HTTP_BAD_REQUEST)
    ∧ (∀ json, env.json_loadb
          ((s.client.buf.drop s.ta.req_body).take (size_t_of_int s.ta.req_content_len))
            = some json →
        (json_object_get (some json) "password".toList = none →
          (handle_api env s).2.ta.resp_status = some http_response_status.HTTP_BAD_REQUEST)
        ∧ (∀ jp, json_object_get (some json) "password".toList = some jp →
            json_object_get (some json) "username".toList = none →
            (handle_api env s).2.ta.resp_status
              = some http_response_status.HTTP_PERMISSION_DENIED)
        ∧ (∀ password username,
            json_object_get (some json) "password".toList = some (json_member.string password) →
            json_object_get (some json) "username".toList = some (json_member.string username) →
            ¬ (password = "thepassword".toList ∧ username = "user0".toList) →
            handle_api env s
              = returns (send_error env (s.log (Event.call Handler.api))
                  http_response_status.HTTP_PERMISSION_DENIED "Permission Denied.".toList))) := by
  refine ⟨?_, ?_⟩
  · intro hj
    unfold handle_api
    simp only [State.log, hmethod, hj, returns, send_response_status]
  · intro json hj
    refine ⟨?_, ?_, ?_⟩
    · intro hp
      unfold handle_api
      simp only [State.log, hmethod, hj, hp, returns, send_response_status]
    · intro jp hp hu
      unfold handle_api
      simp only [State.log, hmethod, hj, hp, hu, returns, send_response_status]
    · intro password username hp hu hne
      unfold handle_api
      simp only [State.log, hmethod, hj, hp, hu, json_string_value]
      by_cases h1 : password = "thepassword".toList
      · have h2 : username ≠ "user0".toList := fun h => hne ⟨h1, h⟩
        simp only [h1, ne_eq, not_true_eq_false, if_false, h2, not_false_eq_true, if_true]
      · simp only [ne_eq, h1, not_false_eq_true, if_true]

/-! ## The tokens of a request line given as text -/

theorem cstr_append_nul (a b : List Char) (ha : ∀ c ∈ a, c ≠ NUL) :
    cstr (a ++ NUL :: b) = a := by
  induction a with
  | nil => simp [cstr]
  | cons x xs ih =>
    have hx : x ≠ NUL := ha x (by simp)
    have hxs : ∀ c ∈ xs, c ≠ NUL := fun c hc => ha c (by simp [hc])
    simp [cstr, hx, ih hxs]

theorem cstr_append (a b : List Char) (ha : ∀ c ∈ a, c ≠ NUL) :
    cstr (a ++ b) = a ++ cstr b := by
  induction a with
  | nil => simp
  | cons x xs ih =>
    have hx : x ≠ NUL := ha x (by simp)
    have hxs : ∀ c ∈ xs, c ≠ NUL := fun c hc => ha c (by simp [hc])
    simp [cstr, hx, ih hxs]

theorem cstrAt_append (a b : List Char) : cstrAt (a ++ b) a.length = cstr b := by
  simp [cstrAt]

theorem strspn_of_head (c : Char) (cs delim : List Char) (h : c ∉ delim) :
    strspn (c :: cs) delim = 0 := by
  simp [strspn, h]

theorem strcspn_append (a b delim : List Char) (d : Char) (ha : ∀ c ∈ a, c ∉ delim)
    (hd : d ∈ delim) : strcspn (a ++ d :: b) delim = a.length := by
  induction a with
  | nil => simp [strcspn, hd]
  | cons x xs ih =>
    have hx : x ∉ delim := ha x (by simp)
    have hxs : ∀ c ∈ xs, c ∉ delim := fun c hc => ha c (by simp [hc])
    simp [strcspn, hx, ih hxs]

theorem strcspn_all (a delim : List Char) (ha : ∀ c ∈ a, c ∉ delim) :
    strcspn a delim = a.length := by
  induction a with
  | nil => simp [strcspn]
  | cons x xs ih =>
    have hx : x ∉ delim := ha x (by simp)
    have hxs : ∀ c ∈ xs, c ∉ delim := fun c hc => ha c (by simp [hc])
    simp [strcspn, hx, ih hxs]

theorem set_append_length (a b : List Char) (x y : Char) :
    (a ++ x :: b).set a.length y = a ++ y :: b := by
  induction a with
  | nil => simp
  | cons z zs ih => simp [ih]

theorem find_lf_append (a b : List Char) (ha : ∀ c ∈ a, c ≠ '\n') :
    find_lf (a ++ '\n' :: b) = some a.length := by
  induction a with
  | nil => simp [find_lf]
  | cons x xs ih =>
    have hx : x ≠ '\n' := ha x (by simp)
    have hxs : ∀ c ∈ xs, c ≠ '\n' := fun c hc => ha c (by simp [hc])
    simp [find_lf, hx, ih hxs]

/-- The call `strtok_r` on a token that is followed by a delimiter: the
delimiter is overwritten with NUL and the position after it is saved. -/
theorem strtok_r_delimited (pre tok post delim : List Char) (d : Char)
    (hne : tok ≠ []) (htok : ∀ c ∈ tok, c ∉ delim ∧ c ≠ NUL) (hd : d ∈ delim) (hd0 : d ≠ NUL) :
    strtok_r (pre ++ (tok ++ d :: post)) pre.length delim
      = ⟨some pre.length, pre ++ (tok ++ NUL :: post), pre.length + tok.length + 1⟩ := by
  obtain ⟨x, xs, rfl⟩ := List.exists_cons_of_ne_nil hne
  have hx := htok x (by simp)
  have hnul : ∀ c ∈ x :: xs, c ≠ NUL := fun c hc => (htok c hc).2
  have hdel : ∀ c ∈ x :: xs, c ∉ delim := fun c hc => (htok c hc).1
  have h1 : cstrAt (pre ++ (x :: xs ++ d :: post)) pre.length
      = (x :: xs) ++ d :: cstr post := by
    rw [cstrAt_append, cstr_append _ _ hnul]
    simp [cstr, hd0]
  have h2 : pre ++ (x :: xs ++ d :: post) = (pre ++ (x :: xs)) ++ d :: post := by simp
  have h3 : cstrAt (pre ++ (x :: xs ++ d :: post)) (pre.length + (x :: xs).length)
      = d :: cstr post := by
    rw [h2, ← List.length_append, cstrAt_append]
    simp [cstr, hd0]
  have h4 : (pre ++ (x :: xs ++ d :: post)).set (pre.length + (x :: xs).length) NUL
      = pre ++ (x :: xs ++ NUL :: post) := by
    rw [h2, ← List.length_append, set_append_length]
    simp
  unfold strtok_r
  have hs : strspn ((x :: xs) ++ d :: cstr post) delim = 0 := by
    simp [strspn, hx.1]
  have hc : strcspn ((x :: xs) ++ d :: cstr post) delim = (x :: xs).length :=
    strcspn_append _ _ _ _ hdel hd
  simp only [h1, hs, Nat.add_zero, hc, h3, h4]
  simp

/-- The call `strtok_r` on a token that ends the string: nothing is written
and the position of the terminator is saved. -/
theorem strtok_r_last (pre tok post delim : List Char)
    (hne : tok ≠ []) (htok : ∀ c ∈ tok, c ∉ delim ∧ c ≠ NUL) :
    strtok_r (pre ++ (tok ++ NUL :: post)) pre.length delim
      = ⟨some pre.length, pre ++ (tok ++ NUL :: post), pre.length + tok.length⟩ := by
  obtain ⟨x, xs, rfl⟩ := List.exists_cons_of_ne_nil hne
  have hx := htok x (by simp)
  have hnul : ∀ c ∈ x :: xs, c ≠ NUL := fun c hc => (htok c hc).2
  have hdel : ∀ c ∈ x :: xs, c ∉ delim := fun c hc => (htok c hc).1
  have h1 : cstrAt (pre ++ (x :: xs ++ NUL :: post)) pre.length = x :: xs := by
    rw [cstrAt_append, cstr_append_nul _ _ hnul]
  have h2 : pre ++ (x :: xs ++ NUL :: post) = (pre ++ (x :: xs)) ++ NUL :: post := by simp
  have h3 : cstrAt (pre ++ (x :: xs ++ NUL :: post)) (pre.length + (x :: xs).length) = [] := by
    rw [h2, ← List.length_append, cstrAt_append]
    simp [cstr]
  unfold strtok_r
  have hs : strspn (x :: xs) delim = 0 := by simp [strspn, hx.1]
  have hc : strcspn (x :: xs) delim = (x :: xs).length := strcspn_all _ _ hdel
  simp only [h1, hs, Nat.add_zero, hc, h3]
  simp

/-- The tokens of a request line `METHOD SP PATH SP VERSION CRLF` at the start
of a connection: when the method and the path hold no space and the version
holds no carriage return (and none of them a NUL or a line feed),
`request_line` cuts the line into exactly these three tokens. -/
theorem request_line_of_text (m p v rest : List Char)
    (hm : m ≠ []) (hmc : ∀ c ∈ m, c ≠ ' ' ∧ c ≠ NUL ∧ c ≠ '\n')
    (hp : p ≠ []) (hpc : ∀ c ∈ p, c ≠ ' ' ∧ c ≠ NUL ∧ c ≠ '\n')
    (hv : v ≠ []) (hvc : ∀ c ∈ v, c ≠ '\r' ∧ c ≠ NUL ∧ c ≠ '\n') :
    request_line { buf := m ++ ' ' :: (p ++ ' ' :: (v ++ '\r' :: '\n' :: rest)), bufpos := 0 }
      = some { method := m, path := some p, version := some v } := by
  have hsp : (' ' : Char) ≠ NUL := by decide
  have hlf : bufio_readline
      { buf := m ++ ' ' :: (p ++ ' ' :: (v ++ '\r' :: '\n' :: rest)), bufpos := 0 }
      = some (m.length + p.length + v.length + 4,
          { buf := m ++ ' ' :: (p ++ ' ' :: (v ++ '\r' :: '\n' :: rest)),
            bufpos := 0 + (m.length + p.length + v.length + 4) }) := by
    have e : m ++ ' ' :: (p ++ ' ' :: (v ++ '\r' :: '\n' :: rest))
        = (m ++ ' ' :: (p ++ ' ' :: (v ++ ['\r']))) ++ '\n' :: rest := by simp
    have hno : ∀ c ∈ m ++ ' ' :: (p ++ ' ' :: (v ++ ['\r'])), c ≠ '\n' := by
      intro c hc
      simp only [List.mem_append, List.mem_cons, List.mem_singleton, List.not_mem_nil,
        or_false] at hc
      rcases hc with h | h | h | h | h | h
      · exact (hmc c h).2.2
      · subst h; decide
      · exact (hpc c h).2.2
      · subst h; decide
      · exact (hvc c h).2.2
      · subst h; decide
    unfold bufio_readline
    simp only [List.drop_zero]
    rw [e, find_lf_append _ _ hno]
    simp
    omega
  have hset : (m ++ ' ' :: (p ++ ' ' :: (v ++ '\r' :: '\n' :: rest))).set
      (0 + (m.length + p.length + v.length + 4) - 2) NUL
      = [] ++ (m ++ ' ' :: (p ++ ' ' :: (v ++ NUL :: '\n' :: rest))) := by
    have e : m ++ ' ' :: (p ++ ' ' :: (v ++ '\r' :: '\n' :: rest))
        = (m ++ ' ' :: (p ++ ' ' :: v)) ++ '\r' :: ('\n' :: rest) := by simp
    have el : 0 + (m.length + p.length + v.length + 4) - 2
        = (m ++ ' ' :: (p ++ ' ' :: v)).length := by
      simp
      omega
    rw [el, e, set_append_length]
    simp
  have ht1 := strtok_r_delimited [] m (p ++ ' ' :: (v ++ NUL :: '\n' :: rest)) [' '] ' ' hm
    (fun c hc => ⟨by simp [(hmc c hc).1], (hmc c hc).2.1⟩) (by simp) hsp
  have ht2 := strtok_r_delimited (m ++ [NUL]) p (v ++ NUL :: '\n' :: rest) [' '] ' ' hp
    (fun c hc => ⟨by simp [(hpc c hc).1], (hpc c hc).2.1⟩) (by simp) hsp
  have ht3 := strtok_r_last (m ++ NUL :: (p ++ [NUL])) v ('\n' :: rest) ['\r'] hv
    (fun c hc => ⟨by simp [(hvc c hc).1], (hvc c hc).2.1⟩)
  simp only [List.length_nil, List.nil_append, Nat.zero_add] at ht1
  unfold request_line
  rw [hlf]
  dsimp only
  rw [if_neg (by omega), hset, List.nil_append, ht1]
  dsimp only
  have ht2' : strtok_r (m ++ NUL :: (p ++ ' ' :: (v ++ NUL :: '\n' :: rest))) (m.length + 1) [' ']
      = ⟨some (m.length + 1), m ++ NUL :: (p ++ NUL :: (v ++ NUL :: '\n' :: rest)),
          m.length + 1 + p.length + 1⟩ := by
    simpa using ht2
  have ht3' : strtok_r (m ++ NUL :: (p ++ NUL :: (v ++ NUL :: '\n' :: rest)))
      (m.length + 1 + p.length + 1) ['\r']
      = ⟨some (m.length + 1 + p.length + 1), m ++ NUL :: (p ++ NUL :: (v ++ NUL :: '\n' :: rest)),
          m.length + 1 + p.length + 1 + v.length⟩ := by
    have e : (m ++ NUL :: (p ++ [NUL])).length = m.length + 1 + p.length + 1 := by
      simp
      omega
    rw [e] at ht3
    simpa using ht3
  rw [ht2']
  dsimp only
  rw [ht3']
  dsimp only [Option.map]
  have c1 : cstrAt (m ++ NUL :: (p ++ ' ' :: (v ++ NUL :: '\n' :: rest))) 0 = m := by
    unfold cstrAt
    rw [List.drop_zero]
    exact cstr_append_nul _ _ (fun c hc => (hmc c hc).2.1)
  have c2 : cstrAt (m ++ NUL :: (p ++ NUL :: (v ++ NUL :: '\n' :: rest))) (m.length + 1) = p := by
    have e : m ++ NUL :: (p ++ NUL :: (v ++ NUL :: '\n' :: rest))
        = (m ++ [NUL]) ++ (p ++ NUL :: (v ++ NUL :: '\n' :: rest)) := by simp
    have el : m.length + 1 = (m ++ [NUL]).length := by simp
    rw [e, el, cstrAt_append]
    exact cstr_append_nul _ _ (fun c hc => (hpc c hc).2.1)
  have c3 : cstrAt (m ++ NUL :: (p ++ NUL :: (v ++ NUL :: '\n' :: rest)))
      (m.length + 1 + p.length + 1) = v := by
    have e : m ++ NUL :: (p ++ NUL :: (v ++ NUL :: '\n' :: rest))
        = (m ++ NUL :: (p ++ [NUL])) ++ (v ++ NUL :: '\n' :: rest) := by simp
    have el : m.length + 1 + p.length + 1 = (m ++ NUL :: (p ++ [NUL])).length := by
      simp
      omega
    rw [e, el, cstrAt_append]
    exact cstr_append_nul _ _ (fun c hc => (hvc c hc).2.1)
  rw [c1, c2, c3]

/-! ## The MIME type table -/

theorem strrchr_none (l : List Char) (c : Char) (h : c ∉ l) : strrchr l c = none := by
  induction l with
  | nil => rfl
  | cons x xs ih =>
    have h1 : c ∉ xs := fun hc => h (List.mem_cons_of_mem _ hc)
    have h2 : x ≠ c := fun hx => h (by simp [hx])
    simp [strrchr, ih h1, h2]

/-- The call `strrchr` returns the part of the string from its last
occurrence of the character on. -/
theorem strrchr_last (hd tl : List Char) (c : Char) (h : c ∉ tl) :
    strrchr (hd ++ c :: tl) c = some (c :: tl) := by
  induction hd with
  | nil => simp [strrchr, strrchr_none tl c h]
  | cons x xs ih => simp [strrchr, ih]

theorem strcasecmp_eq_dot (ext lit : List Char) (hlit : lit.map Char.toLower = lit) :
    strcasecmp_eq ('.' :: ext) ('.' :: lit) = decide (ext.map Char.toLower = lit) := by
  unfold strcasecmp_eq
  simp only [List.map_cons, hlit]
  have h0 : Char.toLower '.' = '.' := by decide
  rw [h0]
  by_cases h : ext.map Char.toLower = lit
  · simp [h]
  · simp [h]

/-- C16, amended: for every file name, `guess_mime_type` returns `text/plain`
when the name contains no `.`; otherwise, with the extension being the text
after the last `.`, it returns `text/html`, `image/gif`, `image/png`,
`image/jpeg` or `text/javascript` when the extension is `html`, `gif`, `png`,
`jpg` or `js` in any letter case, and `text/plain` for every other extension;
the result is always one of these six values. -/
theorem C16_mime_table (filename : List Char) :
    ('.' ∉ filename → guess_mime_type filename = "text/plain".toList)
    ∧ (∀ stem ext, filename = stem ++ '.' :: ext → '.' ∉ ext →
        guess_mime_type filename = mime_of_extension (ext.map Char.toLower))
    ∧ guess_mime_type filename
        ∈ ["text/html".toList, "image/gif".toList, "image/png".toList, "image/jpeg".toList,
           "text/javascript".toList, "text/plain".toList] := by
  refine ⟨?_, ?_, ?_⟩
  · intro h
    unfold guess_mime_type
    rw [strrchr_none _ _ h]
  · intro stem ext hf hext
    subst hf
    unfold guess_mime_type mime_of_extension
    rw [strrchr_last _ _ _ hext]
    have e1 := strcasecmp_eq_dot ext "html".toList (by decide)
    have e2 := strcasecmp_eq_dot ext "gif".toList (by decide)
    have e3 := strcasecmp_eq_dot ext "png".toList (by decide)
    have e4 := strcasecmp_eq_dot ext "jpg".toList (by decide)
    have e5 := strcasecmp_eq_dot ext "js".toList (by decide)
    have f1 : ".html".toList = '.' :: "html".toList := by decide
    have f2 : ".gif".toList = '.' :: "gif".toList := by decide
    have f3 : ".png".toList = '.' :: "png".toList := by decide
    have f4 : ".jpg".toList = '.' :: "jpg".toList := by decide
    have f5 : ".js".toList = '.' :: "js".toList := by decide
    simp only [f1, f2, f3, f4, f5, e1, e2, e3, e4, e5, decide_eq_true_eq]
  · unfold guess_mime_type
    split
    · decide
    · split_ifs <;> decide

/-- C16 as stated fails: the text from the last `.` of `INDEX.HTML` is
`.HTML`, which is none of the five suffixes of the table, and the function
returns `text/html`, not `text/plain`. -/
theorem C16_counterexample_upper_case :
    strrchr "INDEX.HTML".toList '.' = some ".HTML".toList
    ∧ ".HTML".toList ∉ [".html".toList, ".gif".toList, ".png".toList, ".jpg".toList, ".js".toList]
    ∧ guess_mime_type "INDEX.HTML".toList = "text/html".toList
    ∧ "text/html".toList ≠ "text/plain".toList := by
  decide

/-- C16 at concrete names: `/srv/www/index.html` and `/srv/www/app.JS`. -/
theorem C16_mime_table_witness :
    guess_mime_type "/srv/www/index.html".toList = "text/html".toList
    ∧ guess_mime_type "/srv/www/app.JS".toList = "text/javascript".toList :=
  ⟨((C16_mime_table "/srv/www/index.html".toList).2.1 "/srv/www/index".toList "html".toList
      (by decide) (by decide)).trans (by decide),
   ((C16_mime_table "/srv/www/app.JS".toList).2.1 "/srv/www/app".toList "JS".toList
      (by decide) (by decide)).trans (by decide)⟩

/-! ## The streaming loop -/

/-- The streaming loop from offset `pos`, with fuel for the bytes that are
left: under the assumption on the transfer primitive, what it adds to the
trace is the calls of the primitive, each with the result the primitive gave;
they form a complete transfer when it reports success and a failed transfer
when it reports failure. -/
theorem sendfile_loop_transfer (env : Env) (n : Int)
    (hprim : ∀ k pos count, env.sendfile_result k pos count ≤ 0
      ∨ (1 ≤ env.sendfile_result k pos count ∧ env.sendfile_result k pos count ≤ count))
    (fuel : Nat) (pos : Int) (tr : List Event)
    (hpos : pos ≤ n) (hfuel : n - pos < fuel) :
    ∃ calls, (sendfile_loop env fuel pos (n - 1) tr).2 = tr ++ calls
      ∧ calls_of_primitive env tr.length calls
      ∧ ((sendfile_loop env fuel pos (n - 1) tr).1 = true → complete_transfer n pos calls)
      ∧ ((sendfile_loop env fuel pos (n - 1) tr).1 = false → failed_transfer n pos calls)
      ∧ (pos = n → calls = []) := by
  induction fuel generalizing pos tr with
  | zero => omega
  | succ fuel ih =>
    unfold sendfile_loop
    by_cases hle : pos ≤ n - 1
    · simp only [hle, if_true]
      have hcount : n - 1 + 1 - pos = n - pos := by omega
      rw [hcount]
      rcases hprim tr.length pos (n - pos) with hr | ⟨hr1, hr2⟩
      · have hng : ¬ env.sendfile_result tr.length pos (n - pos) > 0 := by omega
        simp only [hng, if_false]
        refine ⟨[Event.sendfile pos (n - pos) (env.sendfile_result tr.length pos (n - pos))],
          rfl, ⟨rfl, trivial⟩, ?_, ?_, ?_⟩
        · intro h; cases h
        · intro _
          exact ⟨rfl, rfl, Or.inl ⟨hr, rfl⟩⟩
        · intro h; omega
      · have hg : env.sendfile_result tr.length pos (n - pos) > 0 := by omega
        simp only [hg, if_true]
        obtain ⟨calls, hc, hprimc, hok, hfail, _⟩ :=
          ih (pos + env.sendfile_result tr.length pos (n - pos))
            (tr ++ [Event.sendfile pos (n - pos) (env.sendfile_result tr.length pos (n - pos))])
            (by omega) (by omega)
        rw [List.length_append, List.length_singleton] at hprimc
        refine ⟨Event.sendfile pos (n - pos) (env.sendfile_result tr.length pos (n - pos))
          :: calls, by rw [hc]; simp, ⟨rfl, hprimc⟩, ?_, ?_, ?_⟩
        · intro h
          exact ⟨rfl, rfl, by omega, hok h⟩
        · intro h
          exact ⟨rfl, rfl, Or.inr ⟨by omega, hfail h⟩⟩
        · intro h; omega
    · simp only [hle, if_false]
      have hpn : pos = n := by omega
      refine ⟨[], by simp, trivial, ?_, ?_, ?_⟩
      · intro _; exact hpn
      · intro h; cases h
      · intro _; rfl

/-- With fuel for the bytes that are left, more fuel does not change the
result of the streaming loop. -/
theorem sendfile_loop_fuel (env : Env) (n : Int)
    (hprim : ∀ k pos count, env.sendfile_result k pos count ≤ 0
      ∨ (1 ≤ env.sendfile_result k pos count ∧ env.sendfile_result k pos count ≤ count))
    (fuel : Nat) (pos : Int) (tr : List Event)
    (hpos : pos ≤ n) (hfuel : n - pos < fuel) (more : Nat) :
    sendfile_loop env (fuel + more) pos (n - 1) tr = sendfile_loop env fuel pos (n - 1) tr := by
  induction fuel generalizing pos tr with
  | zero => omega
  | succ fuel ih =>
    have e : fuel + 1 + more = (fuel + more) + 1 := by omega
    rw [e]
    unfold sendfile_loop
    by_cases hle : pos ≤ n - 1
    · simp only [hle, if_true]
      have hcount : n - 1 + 1 - pos = n - pos := by omega
      rw [hcount]
      rcases hprim tr.length pos (n - pos) with hr | ⟨hr1, hr2⟩
      · have hng : ¬ env.sendfile_result tr.length pos (n - pos) > 0 := by omega
        simp only [hng, if_false]
      · have hg : env.sendfile_result tr.length pos (n - pos) > 0 := by omega
        simp only [hg, if_true]
        exact ih _ _ (by omega) (by omega)
    · simp only [hle, if_false]

theorem complete_not_failed (n : Int) (calls : List Event) (pos : Int)
    (hc : complete_transfer n pos calls) : ¬ failed_transfer n pos calls := by
  induction calls generalizing pos with
  | nil => intro h; exact h
  | cons e es ih =>
    cases e with
    | sendfile off count res =>
      intro hf
      obtain ⟨_, _, hres, hrest⟩ := hc
      obtain ⟨_, _, h | h⟩ := hf
      · omega
      · exact ih _ hrest h.2
    | _ => intro hf; exact hf

/-- C18: for every file size `n ≥ 0`, when every call of the transfer
primitive either reports an error (result `≤ 0`) or sends `k` bytes with
`1 ≤ k ≤ requested` (the offset advancing by `k`), the streaming loop of
`handle_static_asset` terminates: the `n + 1` iterations the model allows are
enough and more would not change the result.  What it adds to the trace is its
calls of the primitive, each recorded with the result that the primitive gave
for its offset and count.  It reports success exactly when these calls went
contiguously from offset 0 to `n`, each sending at least one byte (no call at
all when `n = 0`), and it reports failure exactly when its last call returned
an error, the calls before it being contiguous from 0 and none following
it. -/
theorem C18_streaming_loop (env : Env) (n : Nat) (tr : List Event)
    (hprim : ∀ k pos count, env.sendfile_result k pos count ≤ 0
      ∨ (1 ≤ env.sendfile_result k pos count ∧ env.sendfile_result k pos count ≤ count)) :
    (∀ more, sendfile_loop env (n + 1 + more) 0 ((n : Int) - 1) tr
        = sendfile_loop env (n + 1) 0 ((n : Int) - 1) tr)
    ∧ ∃ calls, (sendfile_loop env (n + 1) 0 ((n : Int) - 1) tr).2 = tr ++ calls
      ∧ calls_of_primitive env tr.length calls
      ∧ ((sendfile_loop env (n + 1) 0 ((n : Int) - 1) tr).1 = true
          ↔ complete_transfer n 0 calls)
      ∧ ((sendfile_loop env (n + 1) 0 ((n : Int) - 1) tr).1 = false
          ↔ failed_transfer n 0 calls)
      ∧ (n = 0 → calls = []) := by
  refine ⟨fun more => sendfile_loop_fuel env n hprim (n + 1) 0 tr (by omega) (by omega) more, ?_⟩
  obtain ⟨calls, hc, hprimc, hok, hfail, hzero⟩ :=
    sendfile_loop_transfer env n hprim (n + 1) 0 tr (by omega) (by omega)
  refine ⟨calls, hc, hprimc, ⟨hok, ?_⟩, ⟨hfail, ?_⟩, ?_⟩
  · intro hcomp
    cases h : (sendfile_loop env (n + 1) 0 ((n : Int) - 1) tr).1
    · exact absurd (hfail h) (complete_not_failed n calls 0 hcomp)
    · rfl
  · intro hf
    cases h : (sendfile_loop env (n + 1) 0 ((n : Int) - 1) tr).1
    · rfl
    · exact absurd hf (complete_not_failed n calls 0 (hok h))
  · intro h0
    exact hzero (by omega)

/-- C18 on a file of 10 bytes sent in pieces of at most 4 bytes: three calls,
from offsets 0, 4 and 8, and success. -/
theorem C18_streaming_loop_witness :
    sendfile_loop demo_env_chunked (10 + 1 + 7) 0 9 [] = sendfile_loop demo_env_chunked 11 0 9 []
    ∧ sendfile_loop demo_env_chunked 11 0 9 []
      = (true, [Event.sendfile 0 10 4, Event.sendfile 4 6 4, Event.sendfile 8 2 2]) :=
  ⟨(C18_streaming_loop demo_env_chunked 10 []
      (fun _ _ count => by
        show min count 4 ≤ 0 ∨ (1 ≤ min count 4 ∧ min count 4 ≤ count)
        omega)).1 7,
   by decide⟩

/-! ## The dispatcher and the method -/

theorem extends_trace_refl (t : List Event) : extends_trace t t :=
  ⟨[], by simp⟩

theorem extends_trace_trans {t0 t1 t2 : List Event} (h1 : extends_trace t0 t1)
    (h2 : extends_trace t1 t2) : extends_trace t0 t2 := by
  obtain ⟨r1, rfl⟩ := h1
  obtain ⟨r2, rfl⟩ := h2
  exact ⟨r1 ++ r2, by simp⟩

theorem extends_trace_of_sends {t0 t1 : List Event} (h : sends_only t0 t1) :
    extends_trace t0 t1 := by
  obtain ⟨r, hr, _⟩ := h
  exact ⟨r, hr⟩

theorem extends_trace_from (s : State) (t0 t1 : List Event) (h0 : s.trace = t0)
    (h : extends_trace s.trace t1) : extends_trace t0 t1 :=
  h0 ▸ h

theorem extends_snoc {t0 t1 : List Event} (h : extends_trace t0 t1) (e : Event) :
    extends_trace t0 (t1 ++ [e]) :=
  extends_trace_trans h ⟨[e], rfl⟩

theorem send_response_header_first (env : Env) (s : State) :
    extends_trace
      (s.trace ++ [Event.send (start_response s.ta []) (env.sendbuffer_ok s.trace.length)])
      (send_response_header env s).2.trace := by
  unfold send_response_header bufio_sendbuffer
  dsimp only
  split_ifs
  · exact extends_trace_refl _
  · exact extends_snoc (extends_trace_refl _) _
  · exact extends_snoc (extends_trace_refl _) _

/-- The first thing `send_error` does to the outside world is to hand the
status line to the socket. -/
theorem send_error_first (env : Env) (s : State) (status : http_response_status)
    (text : List Char) :
    extends_trace
      (s.trace ++ [Event.send ("HTTP/1.1 ".toList ++ status_text (some status) ++ CRLF)
        (env.sendbuffer_ok s.trace.length)])
      (send_error env s status text).2.trace := by
  have h := send_response_header_first env
    { s with ta := { s.ta with
        resp_body := s.ta.resp_body ++ vsnprintf_append MAX_ERROR_LEN text,
        resp_status := some status,
        resp_headers :=
          add_content_length
            (http_add_header s.ta.resp_headers "Content-Type".toList "text/plain".toList)
            (s.ta.resp_body ++ vsnprintf_append MAX_ERROR_LEN text).length } }
  have h2 : extends_trace
      (s.trace ++ [Event.send ("HTTP/1.1 ".toList ++ status_text (some status) ++ CRLF)
        (env.sendbuffer_ok s.trace.length)])
      (send_response_header env
        { s with ta := { s.ta with
            resp_body := s.ta.resp_body ++ vsnprintf_append MAX_ERROR_LEN text,
            resp_status := some status,
            resp_headers :=
              add_content_length
                (http_add_header s.ta.resp_headers "Content-Type".toList "text/plain".toList)
                (s.ta.resp_body ++ vsnprintf_append MAX_ERROR_LEN text).length } }).2.trace := by
    simpa [start_response] using h
  unfold send_error send_response
  dsimp only
  split_ifs
  · exact h2
  · exact extends_trace_trans h2 (extends_trace_of_sends (bufio_sendbuffer_sends env _ _))

/-- C11 (the code departs from the claim): the header line `NoColon` holds no
colon, and `http_process_headers` goes on to the empty line and returns
success: `strtok_r` returns the whole line as the field name.  The line `:`
holds a colon, and `http_process_headers` returns failure on it. -/
theorem C11_line_without_colon_accepted :
    (http_process_headers demo_env
        (http_parse_request demo_env
          { ta := zeroed_transaction demo_env,
            client := connection "GET /index.html HTTP/1.1\r\nNoColon\r\n\r\n",
            trace := [] }).2).1 = some true
    ∧ (http_process_headers demo_env
        (http_parse_request demo_env
          { ta := zeroed_transaction demo_env,
            client := connection "GET /index.html HTTP/1.1\r\n:\r\n\r\n",
            trace := [] }).2).1 = some false
    ∧ (http_handle_transaction demo_env
        (connection "GET /index.html HTTP/1.1\r\nNoColon\r\n\r\n") []).2.trace
      = [Event.call Handler.static,
         Event.access "/srv/www/index.html".toList,
         Event.send "HTTP/1.1 404 Not Found\r\n".toList true,
         Event.send
           "Server: CS3214-Personal-Server\r\nContent-Type: text/plain\r\nContent-Length: 26\r\n\r\n".toList
           true,
         Event.send "File /index.html not found".toList true] := by
  decide

/-- C13 (the code departs from the claim): after the header
`Cookie: a=b; c=d`, which carries no `auth_token` pair, the token field is not
`NULL`: it points to the block that `malloc` returned.  `handle_private` then
takes the path of a token that does not decode (`Permission denied.`), not the
path of an anonymous request (`Permission denied.sss`). -/
theorem C13_cookie_without_token_sets_field :
    (dispatch_state demo_env "GET /private/x HTTP/1.1\r\nCookie: a=b; c=d\r\n\r\n").ta.cookie
      = some demo_env.malloc_mem
    ∧ (dispatch_state demo_env "GET /private/x HTTP/1.1\r\n\r\n").ta.cookie = none
    ∧ transmitted (http_handle_transaction demo_env
        (connection "GET /private/x HTTP/1.1\r\nCookie: a=b; c=d\r\n\r\n") []).2.trace
      = "HTTP/1.1 403 Permission Denied\r\nServer: CS3214-Personal-Server\r\nContent-Type: text/plain\r\nContent-Length: 19\r\n\r\nPermission denied.\n".toList
    ∧ transmitted (http_handle_transaction demo_env
        (connection "GET /private/x HTTP/1.1\r\n\r\n") []).2.trace
      = "HTTP/1.1 403 Permission Denied\r\nServer: CS3214-Personal-Server\r\nContent-Type: text/plain\r\nContent-Length: 22\r\n\r\nPermission denied.sss\n".toList := by
  decide

/-- C17 (the code departs from the claim): the request
`DELETE /private/x HTTP/1.1` gets a response assembled under status 501 and
then a second response assembled under status 403. -/
theorem C17_two_statuses_in_one_transaction :
    (http_handle_transaction demo_env (connection "DELETE /private/x HTTP/1.1\r\n\r\n") []).2.trace
      = [Event.send "HTTP/1.1 501 Not Implemented\r\n".toList true,
         Event.send
           "Server: CS3214-Personal-Server\r\nContent-Type: text/plain\r\nContent-Length: 27\r\n\r\n".toList
           true,
         Event.send "http method not implemented".toList true,
         Event.call Handler.priv,
         Event.send "HTTP/1.1 403 Permission Denied\r\n".toList true,
         Event.send
           "Server: CS3214-Personal-Server\r\nContent-Type: text/plain\r\nContent-Length: 27\r\n\r\nContent-Type: text/plain\r\nContent-Length: 49\r\n\r\n".toList
           true,
         Event.send "http method not implementedPermission denied.sss\n".toList true] := by
  decide

/-- C19 (the code departs from the claim): the request `GET /api/x HTTP/1.0`
makes `http_handle_transaction` return true: the dispatcher returns the result
of `send_error` for this route without looking at the version.  On the static
route the same version makes it return false. -/
theorem C19_http_1_0_returns_true :
    (http_handle_transaction demo_env (connection "GET /api/x HTTP/1.0\r\n\r\n") []).1 = some true
    ∧ (dispatch_state demo_env "GET /api/x HTTP/1.0\r\n\r\n").ta.req_version
      = http_version.HTTP_1_0
    ∧ (http_handle_transaction demo_env (connection "GET /index.html HTTP/1.0\r\n\r\n") []).1
      = some false := by
  decide

/-- C20 (the code departs from the claim): the paths `/private/secret.txt` and
`//private/secret.txt` are free of `..` and, joined to the server root, name
the same file.  Without a token the first is refused with 403 by
`handle_private`; the second does not begin with `/private`, goes to the
static handler and is served. -/
theorem C20_private_file_served_without_token :
    normalize_path (demo_env_private.server_root ++ "//private/secret.txt".toList)
      = normalize_path (demo_env_private.server_root ++ "/private/secret.txt".toList)
    ∧ strstr "//private/secret.txt".toList "..".toList = false
    ∧ strstr "/private/secret.txt".toList "..".toList = false
    ∧ (http_handle_transaction demo_env_private
        (connection "GET /private/secret.txt HTTP/1.1\r\n\r\n") []).2.trace
      = [Event.call Handler.priv,
         Event.send "HTTP/1.1 403 Permission Denied\r\n".toList true,
         Event.send
           "Server: CS3214-Personal-Server\r\nContent-Type: text/plain\r\nContent-Length: 22\r\n\r\n".toList
           true,
         Event.send "Permission denied.sss\n".toList true]
    ∧ (http_handle_transaction demo_env_private
        (connection "GET //private/secret.txt HTTP/1.1\r\n\r\n") []).2.trace
      = [Event.call Handler.static,
         Event.access "/srv/www//private/secret.txt".toList,
         Event.stat "/srv/www//private/secret.txt".toList,
         Event.fopen "/srv/www//private/secret.txt".toList,
         Event.send "HTTP/1.1 200 OK\r\n".toList true,
         Event.send
           "Server: CS3214-Personal-Server\r\nContent-Type: text/plain\r\nContent-Length: 6\r\n\r\n".toList
           true,
         Event.sendfile 0 6 6,
         Event.close] := by
  decide

/-! ## Lemmas on strings inside the read buffer -/

theorem cstr_no_nul (l : List Char) : ∀ c ∈ cstr l, c ≠ NUL := by
  induction l with
  | nil => intro c hc; simp [cstr] at hc
  | cons a l ih =>
    intro c hc
    unfold cstr at hc
    split_ifs at hc with h
    · simp at hc
    · rcases List.mem_cons.1 hc with rfl | hc
      · exact h
      · exact ih c hc

theorem cstr_length_le (l : List Char) : (cstr l).length ≤ l.length := by
  induction l with
  | nil => simp [cstr]
  | cons a l ih =>
    unfold cstr
    split_ifs
    · simp
    · simp only [List.length_cons]; omega

theorem cstr_length_append_nul (a t : List Char) :
    (cstr (a ++ NUL :: t)).length ≤ a.length := by
  induction a with
  | nil => simp [cstr]
  | cons x a ih =>
    simp only [List.cons_append]
    unfold cstr
    split_ifs
    · simp
    · simp only [List.length_cons]; omega

theorem cstrAt_length_le (buf : List Char) (s z : Nat) (t : List Char)
    (hz : buf.drop z = NUL :: t) (hs : s ≤ z) : (cstrAt buf s).length ≤ z - s := by
  unfold cstrAt
  have h : buf.drop s = (buf.drop s).take (z - s) ++ (NUL :: t) := by
    rw [← hz]
    have : buf.drop z = (buf.drop s).drop (z - s) := by
      rw [List.drop_drop]; congr 1; omega
    rw [this, List.take_append_drop]
  rw [h]
  refine le_trans (cstr_length_append_nul _ _) ?_
  simp

theorem cstr_drop (l : List Char) (k : Nat) (hk : k ≤ (cstr l).length) :
    cstr (l.drop k) = (cstr l).drop k := by
  induction l generalizing k with
  | nil => simp [cstr]
  | cons a l ih =>
    cases k with
    | zero => simp
    | succ k =>
      by_cases h : a = NUL
      · simp [cstr, h] at hk
      · have e : cstr (a :: l) = a :: cstr l := by simp [cstr, h]
        rw [e] at hk ⊢
        simp only [List.length_cons, Nat.add_le_add_iff_right] at hk
        simp [ih k hk]

theorem cstrAt_add (buf : List Char) (s k : Nat) (hk : k ≤ (cstrAt buf s).length) :
    cstrAt buf (s + k) = (cstrAt buf s).drop k := by
  unfold cstrAt at hk ⊢
  rw [← cstr_drop _ _ hk, List.drop_drop]

theorem cstr_set_nul (l : List Char) (k : Nat) (hk : k ≤ (cstr l).length) :
    cstr (l.set k NUL) = (cstr l).take k := by
  induction l generalizing k with
  | nil => simp [cstr]
  | cons a l ih =>
    cases k with
    | zero => simp [cstr]
    | succ k =>
      simp only [List.set_cons_succ]
      unfold cstr at hk ⊢
      split_ifs at hk ⊢ with h
      · simp
      · simp only [List.length_cons, Nat.add_le_add_iff_right] at hk
        simp only [List.take_succ_cons]
        rw [ih k hk]

theorem cstrAt_set_nul (buf : List Char) (s k : Nat) (hk : k ≤ (cstrAt buf s).length) :
    cstrAt (buf.set (s + k) NUL) s = (cstrAt buf s).take k := by
  unfold cstrAt at hk ⊢
  rw [← cstr_set_nul _ _ hk, List.drop_set]
  simp

theorem strspn_le (l delim : List Char) : strspn l delim ≤ l.length := by
  induction l with
  | nil => simp [strspn]
  | cons a l ih =>
    unfold strspn
    split_ifs
    · simp only [List.length_cons]; omega
    · simp

theorem strcspn_le (l delim : List Char) : strcspn l delim ≤ l.length := by
  induction l with
  | nil => simp [strcspn]
  | cons a l ih =>
    unfold strcspn
    split_ifs
    · simp
    · simp only [List.length_cons]; omega

theorem strcspn_take (l delim : List Char) :
    ∀ c ∈ l.take (strcspn l delim), c ∉ delim := by
  induction l with
  | nil => intro c hc; simp at hc
  | cons a l ih =>
    intro c hc
    unfold strcspn at hc
    split_ifs at hc with h
    · simp at hc
    · simp only [List.take_succ_cons, List.mem_cons] at hc
      rcases hc with rfl | hc
      · exact h
      · exact ih c hc

theorem strcspn_eq_length (l delim : List Char) (h : strcspn l delim = l.length) :
    ∀ c ∈ l, c ∉ delim := by
  have := strcspn_take l delim
  rw [h, List.take_length] at this
  exact this

theorem writeAt_length (bytes : List Char) : ∀ (buf : List Char) (p : Nat),
    (writeAt buf p bytes).length = buf.length := by
  induction bytes with
  | nil => intro buf p; simp [writeAt]
  | cons c cs ih => intro buf p; simp [writeAt, ih]

theorem writeAt_eq (bytes : List Char) : ∀ (buf : List Char) (p : Nat),
    p + bytes.length ≤ buf.length →
    writeAt buf p bytes = buf.take p ++ (bytes ++ buf.drop (p + bytes.length)) := by
  induction bytes with
  | nil => intro buf p _; simp [writeAt]
  | cons c cs ih =>
    intro buf p h
    simp only [List.length_cons] at h
    unfold writeAt
    have hp : p < buf.length := by omega
    rw [ih (buf.set p c) (p + 1) (by simp; omega)]
    rw [List.drop_set_of_lt _ _ (by omega)]
    have e : (buf.set p c).take (p + 1) = buf.take p ++ [c] := by
      rw [List.set_eq_take_cons_drop c hp]
      have hl : (buf.take p).length = p := by simp; omega
      rw [List.take_append_eq_append_take, hl]
      simp
    rw [e]
    simp only [List.length_cons, List.append_assoc, List.singleton_append, List.cons_append]
    rw [show p + 1 + cs.length = p + (cs.length + 1) by omega]
    simp

theorem strspn_drop (l delim : List Char) :
    l.drop (strspn l delim) = l.dropWhile (fun c => decide (c ∈ delim)) := by
  induction l with
  | nil => simp [strspn]
  | cons a l ih =>
    unfold strspn
    by_cases h : a ∈ delim
    · simp only [h, if_true, List.drop_succ_cons, ih]
      rw [List.dropWhile_cons_of_pos (by simpa using h)]
    · simp only [h, if_false, List.drop_zero]
      rw [List.dropWhile_cons_of_neg (by simpa using h)]

theorem strcspn_drop (l delim : List Char) :
    l.drop (strcspn l delim) = l.dropWhile (fun c => decide (c ∉ delim)) := by
  induction l with
  | nil => simp [strcspn]
  | cons a l ih =>
    unfold strcspn
    by_cases h : a ∈ delim
    · simp only [h, if_true, List.drop_zero]
      rw [List.dropWhile_cons_of_neg (by simpa using h)]
    · simp only [h, if_false, List.drop_succ_cons, ih]
      rw [List.dropWhile_cons_of_pos (by simpa using h)]

theorem strcspn_takeWhile (l delim : List Char) :
    l.take (strcspn l delim) = l.takeWhile (fun c => decide (c ∉ delim)) := by
  induction l with
  | nil => simp [strcspn]
  | cons a l ih =>
    unfold strcspn
    by_cases h : a ∈ delim
    · simp only [h, if_true, List.take_zero]
      rw [List.takeWhile_cons_of_neg (by simpa using h)]
    · simp only [h, if_false, List.take_succ_cons, ih]
      rw [List.takeWhile_cons_of_pos (by simpa using h)]

theorem strstr_single (l : List Char) (x : Char) (h : ∀ c ∈ l, c ≠ x) :
    strstr l [x] = false := by
  induction l with
  | nil => simp [strstr]
  | cons a l ih =>
    unfold strstr
    have ha : a ≠ x := h a (List.mem_cons_self _ _)
    have := ih (fun c hc => h c (List.mem_cons_of_mem _ hc))
    simp [this, List.isPrefixOf, Ne.symm ha]

theorem drop_of_drop_le (a b : List Char) (z n : Nat) (hn : z ≤ n)
    (h : a.drop z = b.drop z) : a.drop n = b.drop n := by
  have e : ∀ l : List Char, l.drop n = (l.drop z).drop (n - z) := by
    intro l; rw [List.drop_drop]; congr 1; omega
  rw [e a, e b, h]

theorem lt_length_of_drop (buf : List Char) (z : Nat) (x : Char) (tl : List Char)
    (hz : buf.drop z = x :: tl) : z < buf.length := by
  by_contra h
  rw [List.drop_eq_nil_of_le (by omega)] at hz
  cases hz

theorem drop_nul_of_cstrAt_nil (buf : List Char) (e : Nat) (he : e < buf.length)
    (h : cstrAt buf e = []) : ∃ tl, buf.drop e = NUL :: tl := by
  unfold cstrAt at h
  rw [List.drop_eq_getElem_cons he] at h ⊢
  unfold cstr at h
  split_ifs at h with hx
  · exact ⟨_, by rw [hx]⟩

/-- What `strtok_r` does to a buffer whose string ends at or before the NUL at
offset `zend`. -/
theorem strtok_r_spec (buf : List Char) (s zend : Nat) (tl delim : List Char)
    (hz : buf.drop zend = NUL :: tl) (hs : s ≤ zend) :
    (strtok_r buf s delim).buf.drop zend = NUL :: tl ∧
    (strtok_r buf s delim).buf.length = buf.length ∧
    (strtok_r buf s delim).save ≤ zend ∧
    ((cstrAt buf s).dropWhile (fun c => decide (c ∈ delim)) = [] →
      (strtok_r buf s delim).tok = none ∧ (strtok_r buf s delim).buf = buf) ∧
    ((cstrAt buf s).dropWhile (fun c => decide (c ∈ delim)) ≠ [] →
      ∃ c z tl2, (strtok_r buf s delim).tok = some c ∧ s ≤ c ∧ c ≤ z ∧
        z ≤ (strtok_r buf s delim).save ∧
        (strtok_r buf s delim).buf.drop z = NUL :: tl2 ∧
        cstrAt (strtok_r buf s delim).buf c
          = ((cstrAt buf s).dropWhile (fun c => decide (c ∈ delim))).takeWhile
              (fun c => decide (c ∉ delim)) ∧
        cstrAt (strtok_r buf s delim).buf (strtok_r buf s delim).save
          = ((((cstrAt buf s).dropWhile (fun c => decide (c ∈ delim))).dropWhile
              (fun c => decide (c ∉ delim))).drop 1)) := by
  have hzl := lt_length_of_drop buf zend NUL tl hz
  have h0 := cstrAt_length_le buf s zend tl hz hs
  have hk0 := strspn_le (cstrAt buf s) delim
  have e1 : cstrAt buf (s + strspn (cstrAt buf s) delim)
      = (cstrAt buf s).dropWhile (fun c => decide (c ∈ delim)) := by
    rw [cstrAt_add _ _ _ hk0, strspn_drop]
  have hs1 : s + strspn (cstrAt buf s) delim ≤ zend := by omega
  have h1 := cstrAt_length_le buf _ zend tl hz hs1
  have hk1 := strcspn_le (cstrAt buf (s + strspn (cstrAt buf s) delim)) delim
  have e2 : cstrAt buf (s + strspn (cstrAt buf s) delim
        + strcspn (cstrAt buf (s + strspn (cstrAt buf s) delim)) delim)
      = ((cstrAt buf s).dropWhile (fun c => decide (c ∈ delim))).dropWhile
          (fun c => decide (c ∉ delim)) := by
    rw [cstrAt_add _ _ _ hk1, strcspn_drop, e1]
  unfold strtok_r
  simp only []
  generalize hs1d : s + strspn (cstrAt buf s) delim = s1 at *
  generalize hed : s1 + strcspn (cstrAt buf s1) delim = e at *
  have hez : e ≤ zend := by omega
  by_cases hr : cstrAt buf s1 = []
  · rw [if_pos hr]
    dsimp only
    refine ⟨hz, rfl, hs1, fun _ => ⟨rfl, rfl⟩, fun h => ?_⟩
    rw [← e1] at h
    exact absurd hr h
  · rw [if_neg hr]
    by_cases hr2 : cstrAt buf e = []
    · rw [if_pos hr2]
      dsimp only
      refine ⟨hz, rfl, hez, fun h => ?_, fun _ => ?_⟩
      · rw [← e1] at h; exact absurd h hr
      · obtain ⟨tl2, htl2⟩ := drop_nul_of_cstrAt_nil buf e (by omega) hr2
        refine ⟨s1, e, tl2, rfl, by omega, by omega, le_refl _, htl2, ?_, ?_⟩
        · rw [← e1]
          have : (cstrAt buf s1).drop (strcspn (cstrAt buf s1) delim) = [] := by
            rw [← cstrAt_add _ _ _ hk1, hed, hr2]
          rw [← strcspn_takeWhile]
          rw [List.take_of_length_le]
          exact List.drop_eq_nil_iff.1 this
        · rw [← e2, hr2]; rfl
    · rw [if_neg hr2]
      dsimp only
      have hlt : e < zend := by
        rcases Nat.lt_or_ge e zend with h | h
        · exact h
        · exfalso
          have : e = zend := by omega
          apply hr2
          unfold cstrAt
          rw [this, hz]; simp [cstr]
      refine ⟨?_, by simp, by omega, fun h => ?_, fun _ => ?_⟩
      · rw [List.drop_set_of_lt _ _ hlt]; exact hz
      · rw [← e1] at h; exact absurd h hr
      · refine ⟨s1, e, buf.drop (e + 1), rfl, by omega, by omega, by omega, ?_, ?_, ?_⟩
        · rw [List.drop_set, if_neg (by omega)]
          rw [List.drop_eq_getElem_cons (by omega : e < buf.length)]
          simp only [Nat.sub_self, List.set_cons_zero]
        · rw [← hed, cstrAt_set_nul _ _ _ hk1, strcspn_takeWhile, e1]
        · have h3 : cstrAt buf (e + 1) = (cstrAt buf e).drop 1 := by
            apply cstrAt_add
            cases hc : cstrAt buf e with
            | nil => exact absurd hc hr2
            | cons _ _ => simp
          rw [← e2, ← h3]
          unfold cstrAt
          rw [List.drop_set_of_lt _ _ (by omega)]

theorem removeSpaces_frame (buf : List Char) (c z : Nat) (tl : List Char)
    (hz : buf.drop z = NUL :: tl) (hc : c ≤ z) :
    (removeSpaces buf c).drop z = NUL :: tl ∧
    (removeSpaces buf c).length = buf.length ∧
    cstrAt (removeSpaces buf c) c = (cstrAt buf c).filter (fun ch => ch ≠ ' ') := by
  have hzl := lt_length_of_drop buf z NUL tl hz
  have h0 := cstrAt_length_le buf c z tl hz hc
  have hf : ((cstrAt buf c).filter (fun ch => ch ≠ ' ')).length ≤ (cstrAt buf c).length :=
    List.length_filter_le _ _
  have hnul : ∀ x ∈ (cstrAt buf c).filter (fun ch => ch ≠ ' '), x ≠ NUL := by
    intro x hx
    exact cstr_no_nul _ x (List.mem_of_mem_filter hx)
  unfold removeSpaces
  generalize (cstrAt buf c).filter (fun ch => ch ≠ ' ') = f at *
  have hw := writeAt_eq (f ++ [NUL]) buf c (by simp; omega)
  have hlen : (buf.take c).length = c := by simp; omega
  refine ⟨?_, writeAt_length _ _ _, ?_⟩
  · rw [hw]
    simp only [List.length_append, List.length_singleton, List.append_assoc,
      List.singleton_append]
    rw [← List.append_assoc]
    have hl2 : (buf.take c ++ f).length = c + f.length := by simp [hlen]
    rw [List.drop_append_eq_append_drop, hl2]
    rw [List.drop_eq_nil_of_le (by omega), List.nil_append]
    rcases Nat.eq_or_lt_of_le (show c + f.length ≤ z by omega) with h | h
    · have h4 := hz
      rw [← h, List.drop_eq_getElem_cons (by omega)] at h4
      simp only [List.cons.injEq] at h4
      rw [← h, Nat.sub_self, List.drop_zero, ← h4.2]
      rfl
    · obtain ⟨k, hk⟩ : ∃ k, z - (c + f.length) = k + 1 := ⟨z - (c + f.length) - 1, by omega⟩
      rw [hk, List.drop_succ_cons, List.drop_drop, ← hz]
      congr 1
      omega
  · unfold cstrAt
    rw [hw, List.drop_append_eq_append_drop, hlen]
    rw [List.drop_eq_nil_of_le (by simp), List.nil_append]
    simp only [Nat.sub_self, List.drop_zero, List.append_assoc, List.singleton_append]
    exact cstr_append_nul f _ hnul

/-! ## The Cookie branch on the text of the field value -/

theorem scan_and_copy_wild (m : CookieMem) (src : Nat) (h : m.value = ValuePtr.wild) :
    (scan_and_copy m src).map (fun r => (r.value_mem, r.cookie))
      = (match m.value_mem with
         | none => none
         | some old =>
           match sscanf_auth_token (cstrAt m.buf src) with
           | some w => some (some w, w)
           | none => some (some old, old)) ∧
    ∀ r, scan_and_copy m src = some r → r.buf = m.buf ∧ r.value = ValuePtr.wild := by
  unfold scan_and_copy
  rw [h]
  simp only []
  cases m.value_mem with
  | none => exact ⟨rfl, fun r hr => by cases hr⟩
  | some old =>
    simp only []
    cases sscanf_auth_token (cstrAt m.buf src) with
    | none =>
      refine ⟨rfl, fun r hr => ?_⟩
      cases hr
      exact ⟨rfl, rfl⟩
    | some w =>
      refine ⟨rfl, fun r hr => ?_⟩
      cases hr
      exact ⟨rfl, rfl⟩

theorem cookie_loop_none (fuel save : Nat) (m : CookieMem) :
    cookie_loop fuel none save m = some m := by
  cases fuel <;> rfl

theorem takeWhile_no_delim (l delim : List Char) :
    ∀ d ∈ l.takeWhile (fun c => decide (c ∉ delim)), d ∉ delim := by
  intro d hd
  have := List.mem_takeWhile_imp hd
  simpa using this

/-- The loop of the Cookie branch, entered through a call of `strtok`, does to
what is behind `value` and to the string in `ta->cookie` what `cookie_scan`
does on the text at the saved position, is undefined exactly when
`cookie_scan` is, and leaves the buffer from the NUL at `zend` on as it is. -/
theorem cookie_loop_scan (zend : Nat) (tl : List Char) :
    ∀ (fuel save : Nat) (m : CookieMem), m.value = ValuePtr.wild →
      m.buf.drop zend = NUL :: tl → save ≤ zend →
      (cookie_loop fuel (strtok_r m.buf save [';']).tok (strtok_r m.buf save [';']).save
          { m with buf := (strtok_r m.buf save [';']).buf }).map
          (fun r => (r.value_mem, r.cookie))
        = cookie_scan fuel (cstrAt m.buf save) (m.value_mem, m.cookie) ∧
      ∀ r, cookie_loop fuel (strtok_r m.buf save [';']).tok (strtok_r m.buf save [';']).save
          { m with buf := (strtok_r m.buf save [';']).buf } = some r →
        r.buf.drop zend = NUL :: tl ∧ r.buf.length = m.buf.length := by
  intro fuel
  induction fuel with
  | zero =>
    intro save m _ hz hs
    obtain ⟨h1, h2, _, _, _⟩ := strtok_r_spec m.buf save zend tl [';'] hz hs
    simp only [cookie_loop, cookie_scan]
    refine ⟨rfl, fun r hr => ?_⟩
    cases hr
    exact ⟨h1, h2⟩
  | succ fuel ih =>
    intro save m hv hz hs
    obtain ⟨h1, h2, h3, h4, h5⟩ := strtok_r_spec m.buf save zend tl [';'] hz hs
    by_cases hr : (cstrAt m.buf save).dropWhile (fun c => decide (c ∈ [';'])) = []
    · obtain ⟨ht, hb⟩ := h4 hr
      rw [ht, cookie_loop_none]
      unfold cookie_scan
      rw [if_pos hr]
      refine ⟨rfl, fun r hr2 => ?_⟩
      cases hr2
      exact ⟨h1, h2⟩
    · obtain ⟨c, z, tl2, ht, _, hcz, hzs, hdz, hcur, hrem⟩ := h5 hr
      generalize strtok_r m.buf save [';'] = t at *
      obtain ⟨tok, tbuf, tsave⟩ := t
      simp only at ht h1 h2 h3 hzs hdz hcur hrem
      subst ht
      simp only []
      have hzz : z ≤ zend := le_trans hzs h3
      obtain ⟨r1, r2, r3⟩ := removeSpaces_frame tbuf c z tl2 hdz hcz
      have hdrop : ∀ n, z ≤ n → (removeSpaces tbuf c).drop n = tbuf.drop n :=
        fun n hn => drop_of_drop_le _ _ z n hn (by rw [r1, hdz])
      have hnosemi : ∀ d ∈ cstrAt tbuf c, d ≠ ';' := by
        intro d hd
        rw [hcur] at hd
        have := takeWhile_no_delim _ _ d hd
        simpa using this
      have hdead : strstr (cstrAt (removeSpaces tbuf c) c) ";".toList = false := by
        rw [r3]
        exact strstr_single _ ';' (fun d hd => hnosemi d (List.mem_of_mem_filter hd))
      -- the state after the body of the loop
      obtain ⟨m1o, hm1, hm1p, hm1f⟩ :
          ∃ m1o : Option CookieMem,
            (if strstr (cstrAt tbuf c) "auth_token=".toList then
              (if strstr (cstrAt (removeSpaces tbuf c) c) ";".toList then
                (some { m with
                    buf := (strtok_r (removeSpaces tbuf c) c [';']).buf,
                    value := ValuePtr.inbuf (strtok_r (removeSpaces tbuf c) c [';']).save,
                    cookie := cstrAt (strtok_r (removeSpaces tbuf c) c [';']).buf
                      (strtok_r (removeSpaces tbuf c) c [';']).save } : Option CookieMem)
              else scan_and_copy { m with buf := removeSpaces tbuf c } c)
            else (some { m with buf := tbuf } : Option CookieMem)) = m1o ∧
            m1o.map (fun r => (r.value_mem, r.cookie))
              = scan_segment (m.value_mem, m.cookie) (cstrAt tbuf c) ∧
            ∀ m1, m1o = some m1 →
              m1.value = ValuePtr.wild ∧ m1.buf.drop zend = NUL :: tl ∧
              cstrAt m1.buf tsave = cstrAt tbuf tsave ∧ m1.buf.length = m.buf.length := by
        refine ⟨_, rfl, ?_⟩
        unfold scan_segment
        by_cases ha : strstr (cstrAt tbuf c) "auth_token=".toList = true
        · rw [if_pos ha, if_pos ha, hdead]
          simp only [Bool.false_eq_true, if_false]
          obtain ⟨q3, q12⟩ := scan_and_copy_wild { m with buf := removeSpaces tbuf c } c hv
          simp only at q3
          rw [r3] at q3
          refine ⟨q3, fun m1 hm1 => ?_⟩
          obtain ⟨q1, q2⟩ := q12 m1 hm1
          simp only at q1
          refine ⟨q2, ?_, ?_, ?_⟩
          · rw [q1, hdrop zend hzz]; exact h1
          · unfold cstrAt; rw [q1, hdrop tsave hzs]
          · rw [q1, r2, h2]
        · rw [if_neg ha, if_neg ha]
          refine ⟨rfl, fun m1 hm1 => ?_⟩
          cases hm1
          exact ⟨hv, h1, rfl, h2⟩
      unfold cookie_loop
      simp only []
      rw [hm1]
      unfold cookie_scan
      rw [if_neg hr, ← hcur, ← hm1p]
      cases m1o with
      | none =>
        simp only [Option.map]
        exact ⟨trivial, fun r hr2 => by cases hr2⟩
      | some m1 =>
        obtain ⟨hm1v, hm1z, hm1s, hm1l⟩ := hm1f m1 rfl
        obtain ⟨k1, k2⟩ := ih tsave m1 hm1v hm1z h3
        simp only [Option.map]
        rw [← hrem, ← hm1s]
        refine ⟨k1, fun r hr2 => ?_⟩
        obtain ⟨k3, k4⟩ := k2 r hr2
        exact ⟨k3, by rw [k4, hm1l]⟩

/-- The Cookie branch on a field value that ends at or before the NUL at
offset `zend`: the string left in `ta->cookie` and what is left behind
`value` are those of `cookie_of_value` on the text of the field value, the
branch is undefined exactly when `cookie_of_value` is, and the buffer keeps
its length and its content from `zend` on. -/
theorem process_cookie_scan (env : Env) (vm : Option (List Char)) (buf : List Char)
    (fv zend : Nat) (tl : List Char)
    (hz : buf.drop zend = NUL :: tl) (hfv : fv ≤ zend) :
    (process_cookie env vm buf fv).map (fun r => (r.2.1, r.2.2))
      = cookie_of_value env vm buf.length (cstrAt buf fv) ∧
    ∀ r, process_cookie env vm buf fv = some r →
      r.1.drop zend = NUL :: tl ∧ r.1.length = buf.length := by
  unfold process_cookie cookie_of_value
  by_cases hs : strstr (cstrAt buf fv) ";".toList = true
  · rw [if_pos hs, if_pos hs]
    obtain ⟨k1, k2⟩ := cookie_loop_scan zend tl (buf.length + 1) fv
      { buf := buf, value := ValuePtr.wild, value_mem := vm,
        cookie := env.malloc_mem } rfl hz hfv
    simp only at k1 k2
    rw [← k1]
    simp only []
    cases hc : cookie_loop (buf.length + 1) (strtok_r buf fv [';']).tok
        (strtok_r buf fv [';']).save
        { buf := (strtok_r buf fv [';']).buf, value := ValuePtr.wild, value_mem := vm,
          cookie := env.malloc_mem } with
    | none => exact ⟨rfl, fun r hr => by cases hr⟩
    | some m =>
      refine ⟨rfl, fun r hr => ?_⟩
      cases hr
      exact k2 m hc
  · rw [if_neg hs, if_neg hs]
    obtain ⟨r1, r2, r3⟩ := removeSpaces_frame buf fv zend tl hz hfv
    obtain ⟨q3, q12⟩ := scan_and_copy_wild
      { buf := removeSpaces buf fv, value := ValuePtr.wild, value_mem := vm,
        cookie := env.malloc_mem } fv rfl
    simp only at q3
    rw [r3] at q3
    simp only []
    cases hc : scan_and_copy
        { buf := removeSpaces buf fv, value := ValuePtr.wild, value_mem := vm,
          cookie := env.malloc_mem } fv with
    | none =>
      rw [hc] at q3
      simp only []
      refine ⟨?_, fun r hr => by cases hr⟩
      cases vm with
      | none => rfl
      | some old =>
        simp only [Option.map] at q3
        cases hsc : sscanf_auth_token ((cstrAt buf fv).filter (fun ch => ch ≠ ' ')) <;>
          rw [hsc] at q3 <;> cases q3
    | some m =>
      rw [hc] at q3
      obtain ⟨q1, _⟩ := q12 m hc
      simp only at q1
      simp only []
      cases hn : env.cookies_null with
      | false =>
        simp only [Bool.false_eq_true, if_false]
        refine ⟨?_, fun r hr => by cases hr⟩
        cases vm with
        | none => rfl
        | some old => rfl
      | true =>
        simp only [if_true]
        refine ⟨?_, fun r hr => ?_⟩
        · cases vm with
          | none => simp only [Option.map] at q3; cases q3
          | some old =>
            simp only [Option.map] at q3
            cases hsc : sscanf_auth_token ((cstrAt buf fv).filter (fun ch => ch ≠ ' ')) with
            | none =>
              rw [hsc] at q3
              simp only [Option.some.injEq, Prod.mk.injEq] at q3
              simp only [Option.map, q3.1, q3.2]
            | some w =>
              rw [hsc] at q3
              simp only [Option.some.injEq, Prod.mk.injEq] at q3
              simp only [Option.map, q3.1, q3.2]
        · cases hr
          exact ⟨by rw [q1]; exact r1, by rw [q1]; exact r2⟩

/-! ## The header block, line by line -/

theorem cstr_append_nul_any (a b : List Char) : cstr (a ++ NUL :: b) = cstr a := by
  induction a with
  | nil => simp [cstr]
  | cons x a ih =>
    simp only [List.cons_append]
    unfold cstr
    split_ifs
    · rfl
    · rw [ih]

theorem takeWhile_dropWhile_delim_ne_nil (l delim : List Char)
    (h : l.dropWhile (fun c => decide (c ∈ delim)) ≠ []) :
    (l.dropWhile (fun c => decide (c ∈ delim))).takeWhile (fun c => decide (c ∉ delim))
      ≠ [] := by
  induction l with
  | nil => simp at h
  | cons a l ih =>
    by_cases ha : a ∈ delim
    · rw [List.dropWhile_cons_of_pos (by simpa using ha)] at h ⊢
      exact ih h
    · rw [List.dropWhile_cons_of_neg (by simpa using ha)]
      rw [List.takeWhile_cons_of_pos (by simpa using ha)]
      simp

theorem field_name_of_eq_nil (l : List Char) :
    field_name_of l = [] ↔ (cstr l).dropWhile (fun c => decide (c ∈ [':'])) = [] := by
  constructor
  · intro h
    by_contra h2
    exact takeWhile_dropWhile_delim_ne_nil _ _ h2 h
  · intro h
    unfold field_name_of
    rw [h]
    rfl

theorem readline_of_text (b : bufio) (l more : List Char) (hl : ∀ c ∈ l, c ≠ '\n')
    (htext : b.buf.drop b.bufpos = l ++ '\r' :: '\n' :: more) :
    bufio_readline b
      = some (l.length + 1 + 1, { b with bufpos := b.bufpos + (l.length + 1 + 1) }) := by
  unfold bufio_readline
  have e : l ++ '\r' :: '\n' :: more = (l ++ ['\r']) ++ '\n' :: more := by simp
  have hf : find_lf (b.buf.drop b.bufpos) = some (l.length + 1) := by
    rw [htext, e, find_lf_append]
    · simp
    · intro c hc
      rcases List.mem_append.1 hc with h | h
      · exact hl c h
      · simp at h; rw [h]; decide
  rw [hf]

/-- The line in the buffer after `header[len - 2] = 0`. -/
theorem line_terminated (buf : List Char) (pos : Nat) (l more : List Char)
    (htext : buf.drop pos = l ++ '\r' :: '\n' :: more) :
    (buf.set (pos + l.length) NUL).drop (pos + l.length) = NUL :: '\n' :: more ∧
    cstrAt (buf.set (pos + l.length) NUL) pos = cstr l ∧
    (buf.set (pos + l.length) NUL).length = buf.length := by
  have h1 : (buf.set (pos + l.length) NUL).drop pos = l ++ NUL :: '\n' :: more := by
    rw [List.drop_set, if_neg (by omega), htext]
    rw [show pos + l.length - pos = l.length by omega, set_append_length]
  refine ⟨?_, ?_, by simp⟩
  · rw [← List.drop_drop, h1]
    simp
  · unfold cstrAt
    rw [h1]
    exact cstr_append_nul_any l _

/-- One header line of the block: without a field name the loop returns
false; otherwise the line sets the content length and, for a Cookie line, the
cookie, as on the text of the line, and the loop goes on past the line, unless
the Cookie branch is undefined. -/
theorem header_step (env : Env) (fuel : Nat) (vm : Option (List Char)) (s : State)
    (l more : List Char) (hne : l ≠ []) (hl : ∀ c ∈ l, c ≠ '\n')
    (htext : s.client.buf.drop s.client.bufpos = l ++ '\r' :: '\n' :: more) :
    (field_name_of l = [] →
      (http_process_headers_loop env (fuel + 1) vm s).1 = some false ∧
      (http_process_headers_loop env (fuel + 1) vm s).2.ta.req_content_len
        = s.ta.req_content_len) ∧
    (field_name_of l ≠ [] →
      strcasecmp_eq (field_name_of l) "Cookie".toList = false →
      ∃ s1, http_process_headers_loop env (fuel + 1) vm s
          = http_process_headers_loop env fuel vm s1 ∧
        s1.client.bufpos = s.client.bufpos + l.length + 2 ∧
        s1.client.buf.drop s1.client.bufpos = more ∧
        s1.client.buf.length = s.client.buf.length ∧
        s1.trace = s.trace ∧
        s1.ta.req_content_len
          = (if strcasecmp_eq (field_name_of l) "Content-Length".toList then
              atoi (field_value_of l) else s.ta.req_content_len) ∧
        s1.ta.cookie = s.ta.cookie) ∧
    (field_name_of l ≠ [] →
      strcasecmp_eq (field_name_of l) "Cookie".toList = true →
      cookie_of_value env vm s.client.buf.length (field_value_of l) = none →
      (http_process_headers_loop env (fuel + 1) vm s).1 = none ∧
      (http_process_headers_loop env (fuel + 1) vm s).2.ta.req_content_len
        = (if strcasecmp_eq (field_name_of l) "Content-Length".toList then
            atoi (field_value_of l) else s.ta.req_content_len)) ∧
    (field_name_of l ≠ [] →
      strcasecmp_eq (field_name_of l) "Cookie".toList = true →
      ∀ ck vm2,
        cookie_of_value env vm s.client.buf.length (field_value_of l) = some (ck, vm2) →
        ∃ s1, http_process_headers_loop env (fuel + 1) vm s
            = http_process_headers_loop env fuel vm2 s1 ∧
          s1.client.bufpos = s.client.bufpos + l.length + 2 ∧
          s1.client.buf.drop s1.client.bufpos = more ∧
          s1.client.buf.length = s.client.buf.length ∧
          s1.trace = s.trace ∧
          s1.ta.req_content_len
            = (if strcasecmp_eq (field_name_of l) "Content-Length".toList then
                atoi (field_value_of l) else s.ta.req_content_len) ∧
          s1.ta.cookie = some ck) := by
  have hlen : 1 ≤ l.length := by
    cases l with
    | nil => exact absurd rfl hne
    | cons _ _ => simp
  have hrl := readline_of_text s.client l more hl htext
  obtain ⟨b1, b2, b3⟩ := line_terminated s.client.buf s.client.bufpos l more htext
  obtain ⟨t1, t2, t3, t4, t5⟩ := strtok_r_spec (s.client.buf.set (s.client.bufpos + l.length) NUL)
    s.client.bufpos (s.client.bufpos + l.length) ('\n' :: more) [':'] b1 (by omega)
  rw [b2] at t4 t5
  rw [http_process_headers_loop.eq_2]
  rw [hrl]
  simp only []
  rw [if_neg (fun h => by have := h.1; omega)]
  rw [if_pos (by omega : 2 ≤ s.client.bufpos + (l.length + 1 + 1))]
  rw [show s.client.bufpos + (l.length + 1 + 1) - 2 = s.client.bufpos + l.length by omega]
  have key : field_name_of l ≠ [] →
      ∃ c tbuf tsave,
        strtok_r (s.client.buf.set (s.client.bufpos + l.length) NUL) s.client.bufpos [':']
          = ⟨some c, tbuf, tsave⟩ ∧
        tbuf.drop (s.client.bufpos + l.length) = NUL :: '\n' :: more ∧
        tbuf.length = s.client.buf.length ∧
        tsave + strspn (cstrAt tbuf tsave) [' ', '\t'] ≤ s.client.bufpos + l.length ∧
        cstrAt tbuf c = field_name_of l ∧
        cstrAt tbuf (tsave + strspn (cstrAt tbuf tsave) [' ', '\t']) = field_value_of l := by
    intro hname
    have hr : (cstr l).dropWhile (fun c => decide (c ∈ [':'])) ≠ [] :=
      fun h => hname ((field_name_of_eq_nil l).2 h)
    obtain ⟨c, z, tl2, ht, _, _, _, _, hcur, hrem⟩ := t5 hr
    generalize strtok_r (s.client.buf.set (s.client.bufpos + l.length) NUL)
      s.client.bufpos [':'] = t at *
    obtain ⟨tok, tbuf, tsave⟩ := t
    simp only at ht t1 t2 t3 hcur hrem
    subst ht
    have hsp := strspn_le (cstrAt tbuf tsave) [' ', '\t']
    have hcl := cstrAt_length_le tbuf tsave _ _ t1 t3
    refine ⟨c, tbuf, tsave, rfl, t1, by rw [t2, b3], by omega, hcur, ?_⟩
    rw [cstrAt_add _ _ _ hsp, strspn_drop, hrem]
    rfl
  refine ⟨?_, ?_, ?_, ?_⟩
  · intro hname
    obtain ⟨ht, _⟩ := t4 ((field_name_of_eq_nil l).1 hname)
    rw [ht]
    exact ⟨rfl, rfl⟩
  · intro hname hcookie
    obtain ⟨c, tbuf, tsave, ht, k1, k2, k3, hfn, hfv⟩ := key hname
    rw [ht]
    simp only []
    rw [hfv, hfn, if_neg (by rw [hcookie]; decide)]
    refine ⟨_, rfl, ?_, ?_, ?_, rfl, ?_, ?_⟩
    · simp only []; omega
    · simp only []
      rw [show s.client.bufpos + (l.length + 1 + 1) = (s.client.bufpos + l.length) + 2 by omega,
        ← List.drop_drop, k1]
      rfl
    · simp only []
      exact k2
    · simp only []
      split_ifs <;> rfl
    · simp only []
      split_ifs <;> rfl
  · intro hname hcookie hnone
    obtain ⟨c, tbuf, tsave, ht, k1, k2, k3, hfn, hfv⟩ := key hname
    obtain ⟨pc1, _⟩ := process_cookie_scan env vm tbuf
      (tsave + strspn (cstrAt tbuf tsave) [' ', '\t']) (s.client.bufpos + l.length)
      ('\n' :: more) k1 k3
    rw [hfv, k2, hnone] at pc1
    rw [ht]
    simp only []
    rw [hfv, hfn, if_pos hcookie]
    cases hpc : process_cookie env vm tbuf
        (tsave + strspn (cstrAt tbuf tsave) [' ', '\t']) with
    | none =>
      refine ⟨rfl, ?_⟩
      simp only []
      split_ifs <;> rfl
    | some r => rw [hpc] at pc1; cases pc1
  · intro hname hcookie ck vm2 hsome
    obtain ⟨c, tbuf, tsave, ht, k1, k2, k3, hfn, hfv⟩ := key hname
    obtain ⟨pc1, pc2⟩ := process_cookie_scan env vm tbuf
      (tsave + strspn (cstrAt tbuf tsave) [' ', '\t']) (s.client.bufpos + l.length)
      ('\n' :: more) k1 k3
    rw [hfv, k2, hsome] at pc1
    rw [ht]
    simp only []
    rw [hfn, if_pos hcookie]
    cases hpc : process_cookie env vm tbuf
        (tsave + strspn (cstrAt tbuf tsave) [' ', '\t']) with
    | none => rw [hpc] at pc1; cases pc1
    | some r =>
      obtain ⟨buf2, ck2, vm3⟩ := r
      rw [hpc] at pc1
      simp only [Option.map, Option.some.injEq, Prod.mk.injEq] at pc1
      obtain ⟨rfl, rfl⟩ := pc1
      obtain ⟨f1, f2⟩ := pc2 _ hpc
      simp only at f1 f2
      simp only []
      rw [hfv]
      refine ⟨_, rfl, ?_, ?_, ?_, rfl, ?_, rfl⟩
      · simp only []; omega
      · simp only []
        rw [show s.client.bufpos + (l.length + 1 + 1) = (s.client.bufpos + l.length) + 2
              by omega,
          ← List.drop_drop, f1]
        rfl
      · simp only []
        rw [f2, k2]
      · simp only []
        split_ifs <;> rfl

/-- The empty line ends the loop with success. -/
theorem header_end (env : Env) (fuel : Nat) (vm : Option (List Char)) (s : State)
    (rest : List Char)
    (htext : s.client.buf.drop s.client.bufpos = '\r' :: '\n' :: rest) :
    http_process_headers_loop env (fuel + 1) vm s
      = (some true, { s with client := { s.client with bufpos := s.client.bufpos + 2 } }) := by
  have hrl := readline_of_text s.client [] rest (by simp) (by simpa using htext)
  unfold http_process_headers_loop
  rw [hrl]
  simp only []
  have hsw : STARTS_WITH (cstrAt s.client.buf s.client.bufpos) CRLF = true := by
    unfold cstrAt
    rw [htext]
    have e : cstr ('\r' :: '\n' :: rest) = '\r' :: '\n' :: cstr rest := by
      rw [cstr, if_neg (by decide), cstr, if_neg (by decide)]
    rw [e]
    unfold STARTS_WITH
    have e2 : cstr CRLF = ['\r', '\n'] := by decide
    rw [e2]
    simp [strncasecmp_eq, CRLF]
  rw [if_pos ⟨rfl, hsw⟩]
  rfl

/-- A header block given as text: the loop of `http_process_headers` returns
what `header_lines_run` returns on the lines and stores the content length
that `header_lines_run` gives, and when it returns true the cookie stored is
that of `header_lines_run`, the read position is after the empty line and
nothing was written to the socket. -/
theorem headers_run (env : Env) (rest : List Char) :
    ∀ (lines : List (List Char)) (fuel : Nat) (vm : Option (List Char)) (s : State),
      lines.length < fuel →
      (∀ l ∈ lines, l ≠ [] ∧ ∀ c ∈ l, c ≠ '\n') →
      s.client.buf.drop s.client.bufpos = header_text lines rest →
      (http_process_headers_loop env fuel vm s).1
        = (header_lines_run env s.client.buf.length lines
            ⟨vm, s.ta.req_content_len, s.ta.cookie⟩).1 ∧
      (http_process_headers_loop env fuel vm s).2.ta.req_content_len
        = (header_lines_run env s.client.buf.length lines
            ⟨vm, s.ta.req_content_len, s.ta.cookie⟩).2.content_len ∧
      ((http_process_headers_loop env fuel vm s).1 = some true →
        (http_process_headers_loop env fuel vm s).2.ta.cookie
          = (header_lines_run env s.client.buf.length lines
              ⟨vm, s.ta.req_content_len, s.ta.cookie⟩).2.cookie ∧
        (http_process_headers_loop env fuel vm s).2.client.buf.drop
            (http_process_headers_loop env fuel vm s).2.client.bufpos = rest ∧
        (http_process_headers_loop env fuel vm s).2.client.buf.length = s.client.buf.length ∧
        (http_process_headers_loop env fuel vm s).2.trace = s.trace) := by
  intro lines
  induction lines with
  | nil =>
    intro fuel vm s hf _ htext
    obtain ⟨f, rfl⟩ : ∃ f, fuel = f + 1 := ⟨fuel - 1, by simp at hf; omega⟩
    simp only [header_text, List.foldr_nil] at htext
    rw [header_end env f vm s rest htext]
    refine ⟨rfl, rfl, fun _ => ⟨rfl, ?_, rfl, rfl⟩⟩
    simp only []
    rw [← List.drop_drop, htext]
    rfl
  | cons l ls ih =>
    intro fuel vm s hf hls htext
    obtain ⟨f, rfl⟩ : ∃ f, fuel = f + 1 := ⟨fuel - 1, by simp at hf; omega⟩
    obtain ⟨hne, hl⟩ := hls l (List.mem_cons_self _ _)
    have htext2 : s.client.buf.drop s.client.bufpos
        = l ++ '\r' :: '\n' :: header_text ls rest := htext
    obtain ⟨hA, hB1, hB2, hB3⟩ := header_step env f vm s l (header_text ls rest) hne hl htext2
    have hf2 : ls.length < f := by simp at hf; omega
    have hls2 : ∀ x ∈ ls, x ≠ [] ∧ ∀ c ∈ x, c ≠ '\n' :=
      fun x hx => hls x (List.mem_cons_of_mem _ hx)
    unfold header_lines_run
    by_cases hname : field_name_of l = []
    · rw [if_pos hname, (hA hname).1, (hA hname).2]
      exact ⟨rfl, rfl, fun h => by cases h⟩
    · rw [if_neg hname]
      by_cases hcookie : strcasecmp_eq (field_name_of l) "Cookie".toList = true
      · rw [if_pos hcookie]
        cases hcv : cookie_of_value env vm s.client.buf.length (field_value_of l) with
        | none =>
          simp only []
          rw [(hB2 hname hcookie hcv).1, (hB2 hname hcookie hcv).2]
          exact ⟨rfl, rfl, fun h => by cases h⟩
        | some r =>
          obtain ⟨ck, vm2⟩ := r
          simp only []
          obtain ⟨s1, e, p1, p2, p3, p4, p5, p6⟩ := hB3 hname hcookie ck vm2 hcv
          rw [e]
          have hih := ih f vm2 s1 hf2 hls2 (by rw [p1] at p2; rw [p1]; exact p2)
          rw [p3, p5, p6] at hih
          obtain ⟨q1, q0, q2⟩ := hih
          refine ⟨q1, q0, fun h => ?_⟩
          obtain ⟨r2, r3, r4, r5⟩ := q2 h
          exact ⟨r2, r3, r4, by rw [r5, p4]⟩
      · have hc2 : strcasecmp_eq (field_name_of l) "Cookie".toList = false := by
          cases h : strcasecmp_eq (field_name_of l) "Cookie".toList
          · rfl
          · exact absurd h hcookie
        rw [if_neg hcookie]
        obtain ⟨s1, e, p1, p2, p3, p4, p5, p6⟩ := hB1 hname hc2
        rw [e]
        have hih := ih f vm s1 hf2 hls2 (by rw [p1] at p2; rw [p1]; exact p2)
        rw [p3, p5, p6] at hih
        obtain ⟨q1, q0, q2⟩ := hih
        refine ⟨q1, q0, fun h => ?_⟩
        obtain ⟨r2, r3, r4, r5⟩ := q2 h
        exact ⟨r2, r3, r4, by rw [r5, p4]⟩

/-! ## The content length of a header block -/

theorem header_lines_run_content_len (env : Env) (n : Nat) :
    ∀ (lines : List (List Char)) (f : HeaderFields),
      (header_lines_run env n lines f).1 = some true →
      (header_lines_run env n lines f).2.content_len
        = content_length_after f.content_len lines := by
  intro lines
  induction lines with
  | nil => intro f _; rfl
  | cons l ls ih =>
    intro f h
    unfold header_lines_run at h ⊢
    unfold content_length_after
    simp only [List.foldl_cons]
    by_cases hname : field_name_of l = []
    · rw [if_pos hname] at h
      cases h
    · rw [if_neg hname] at h ⊢
      by_cases hcookie : strcasecmp_eq (field_name_of l) "Cookie".toList = true
      · rw [if_pos hcookie] at h ⊢
        cases hcv : cookie_of_value env f.value_mem n (field_value_of l) with
        | none =>
          rw [hcv] at h
          cases h
        | some r =>
          obtain ⟨ck, vm⟩ := r
          rw [hcv] at h
          simp only [] at h ⊢
          exact ih _ h
      · rw [if_neg hcookie] at h ⊢
        exact ih _ h

/-- The content length that the loop leaves is that of the lines it has gone
through: all of them when it returns true, otherwise those up to the line on
which it stops. -/
theorem header_lines_run_prefix (env : Env) (n : Nat) :
    ∀ (lines : List (List Char)) (f : HeaderFields),
      ∃ done more, lines = done ++ more ∧
        (header_lines_run env n lines f).2.content_len
          = content_length_after f.content_len done ∧
        ((header_lines_run env n lines f).1 = some true → more = []) := by
  intro lines
  induction lines with
  | nil => intro f; exact ⟨[], [], rfl, rfl, fun _ => rfl⟩
  | cons l ls ih =>
    intro f
    unfold header_lines_run
    by_cases hname : field_name_of l = []
    · rw [if_pos hname]
      exact ⟨[], l :: ls, rfl, rfl, fun h => nomatch h⟩
    · rw [if_neg hname]
      by_cases hcookie : strcasecmp_eq (field_name_of l) "Cookie".toList = true
      · rw [if_pos hcookie]
        cases hcv : cookie_of_value env f.value_mem n (field_value_of l) with
        | none =>
          refine ⟨[l], ls, rfl, ?_, fun h => nomatch h⟩
          simp only [content_length_after, List.foldl_cons, List.foldl_nil]
        | some r =>
          obtain ⟨ck, vm⟩ := r
          simp only []
          obtain ⟨d, m, e1, e2, e3⟩ := ih
            { value_mem := vm,
              content_len :=
                if strcasecmp_eq (field_name_of l) "Content-Length".toList then
                  atoi (field_value_of l) else f.content_len,
              cookie := some ck }
          refine ⟨l :: d, m, by rw [e1]; rfl, ?_, e3⟩
          rw [e2]
          simp only [content_length_after, List.foldl_cons]
      · rw [if_neg hcookie]
        obtain ⟨d, m, e1, e2, e3⟩ := ih
          { f with content_len :=
              if strcasecmp_eq (field_name_of l) "Content-Length".toList then
                atoi (field_value_of l) else f.content_len }
        refine ⟨l :: d, m, by rw [e1]; rfl, ?_, e3⟩
        rw [e2]
        simp only [content_length_after, List.foldl_cons]

theorem header_lines_run_no_cookie (env : Env) (n : Nat) :
    ∀ (lines : List (List Char)) (f : HeaderFields),
      (∀ l ∈ lines, field_name_of l ≠ [] ∧
        strcasecmp_eq (field_name_of l) "Cookie".toList = false) →
      (header_lines_run env n lines f).1 = some true := by
  intro lines
  induction lines with
  | nil => intro f _; rfl
  | cons l ls ih =>
    intro f h
    obtain ⟨h1, h2⟩ := h l (List.mem_cons_self _ _)
    unfold header_lines_run
    rw [if_neg h1, if_neg (by rw [h2]; decide)]
    exact ih _ (fun x hx => h x (List.mem_cons_of_mem _ hx))

theorem content_length_after_none (init : Int) (lines : List (List Char))
    (h : ∀ x ∈ lines, strcasecmp_eq (field_name_of x) "Content-Length".toList = false) :
    content_length_after init lines = init := by
  unfold content_length_after
  induction lines generalizing init with
  | nil => rfl
  | cons x xs ih =>
    simp only [List.foldl_cons]
    rw [h x (List.mem_cons_self _ _)]
    simp only [Bool.false_eq_true, if_false]
    exact ih init (fun y hy => h y (List.mem_cons_of_mem _ hy))

theorem content_length_after_mem (init : Int) (lines : List (List Char)) :
    content_length_after init lines = init ∨
    ∃ l ∈ lines, strcasecmp_eq (field_name_of l) "Content-Length".toList = true ∧
      content_length_after init lines = atoi (field_value_of l) := by
  induction lines using List.reverseRecOn with
  | nil => exact Or.inl rfl
  | append_singleton xs x ih =>
    have e : content_length_after init (xs ++ [x])
        = (if strcasecmp_eq (field_name_of x) "Content-Length".toList then
            atoi (field_value_of x) else content_length_after init xs) := by
      unfold content_length_after
      rw [List.foldl_append]
      rfl
    rw [e]
    by_cases h : strcasecmp_eq (field_name_of x) "Content-Length".toList = true
    · rw [if_pos h]
      exact Or.inr ⟨x, by simp, h, rfl⟩
    · rw [if_neg h]
      rcases ih with h1 | ⟨l, hl, h2, h3⟩
      · exact Or.inl h1
      · exact Or.inr ⟨l, by simp [hl], h2, h3⟩

theorem header_lines_fuel (buf : List Char) (pos : Nat) (lines : List (List Char))
    (rest : List Char) (h : buf.drop pos = header_text lines rest) :
    lines.length < buf.length + 1 := by
  have h1 : (header_text lines rest).length ≤ buf.length := by
    rw [← h, List.length_drop]; omega
  have h2 : ∀ ls : List (List Char), ls.length ≤ (header_text ls rest).length := by
    intro ls
    induction ls with
    | nil => simp
    | cons x xs ih =>
      have e : header_text (x :: xs) rest = x ++ '\r' :: '\n' :: header_text xs rest := rfl
      rw [e]
      simp only [List.length_append, List.length_cons]
      omega
  have := h2 lines
  omega

/-- The step that reads the body, from the bytes `rest` left in the buffer. -/
theorem read_body_of_rest (s : State) (rest : List Char)
    (hrest : s.client.buf.drop s.client.bufpos = rest) :
    (s.ta.req_content_len ≤ 0 → read_body s = (true, s)) ∧
    (0 < s.ta.req_content_len →
      (read_body s).1 = decide (s.ta.req_content_len.toNat ≤ rest.length) ∧
      (read_body s).2.client.bufpos
        = s.client.bufpos + min s.ta.req_content_len.toNat rest.length ∧
      (s.ta.req_content_len.toNat ≤ rest.length →
        (read_body s).2.ta.req_body = s.client.bufpos ∧
        ((read_body s).2.client.buf.drop (read_body s).2.ta.req_body).take
            s.ta.req_content_len.toNat
          = rest.take s.ta.req_content_len.toNat)) := by
  have hlen : s.client.buf.length - s.client.bufpos = rest.length := by
    rw [← hrest, List.length_drop]
  constructor
  · intro h
    unfold read_body
    rw [if_neg (by omega)]
  · intro h
    unfold read_body bufio_read
    rw [if_pos h, hlen]
    simp only []
    by_cases hle : s.ta.req_content_len.toNat ≤ rest.length
    · have hmin : min s.ta.req_content_len.toNat rest.length = s.ta.req_content_len.toNat :=
        Nat.min_eq_left hle
      have hcast : ((s.ta.req_content_len.toNat : Nat) : Int) = s.ta.req_content_len :=
        Int.toNat_of_nonneg (le_of_lt h)
      rw [hmin, hcast, if_neg (not_not.2 rfl)]
      refine ⟨by simp [hle], rfl, fun _ => ⟨rfl, ?_⟩⟩
      show (s.client.buf.drop s.client.bufpos).take _ = _
      rw [hrest]
    · have hmin : min s.ta.req_content_len.toNat rest.length = rest.length :=
        Nat.min_eq_right (by omega)
      have hne : ((rest.length : Nat) : Int) ≠ s.ta.req_content_len := by
        intro e
        apply hle
        rw [← e]
        simp
      rw [hmin, if_pos hne]
      exact ⟨by simp [hle], rfl, fun h2 => absurd h2 hle⟩

/-! ## Claims on the header block -/

/-- C14, amended: for every header block, `http_process_headers` returns what
the loop gives on the text of the lines (true at the empty line unless a line
before it has no field name or is a Cookie line on which the Cookie branch is
undefined), in particular true when every line has a field name and none is a
Cookie line.  Whatever it returns, the content length stored is an `int` that
may be negative: the value before the block (0 after `memset`), or `atoi` of
the value of a line with the field name `Content-Length`, namely of the last
such line among the lines gone through, which are all the lines when it
returns true.  When it returns true, the stored value is the value before the
block when no line has the field name `Content-Length`, and otherwise `atoi`
of the value of the last such line; a body is read exactly when the stored
value is greater than 0: then that many bytes are asked for, the step
succeeds exactly when that many bytes are there, and the body is the bytes
that follow the empty line. -/
theorem C14_content_length (env : Env) (s : State) (lines : List (List Char))
    (rest : List Char)
    (htext : s.client.buf.drop s.client.bufpos = header_text lines rest)
    (hlines : ∀ l ∈ lines, l ≠ [] ∧ ∀ c ∈ l, c ≠ '\n') :
    (http_process_headers env s).1
      = (header_lines_run env s.client.buf.length lines
          ⟨env.value_mem, s.ta.req_content_len, s.ta.cookie⟩).1 ∧
    ((∀ l ∈ lines, field_name_of l ≠ [] ∧
        strcasecmp_eq (field_name_of l) "Cookie".toList = false) →
      (http_process_headers env s).1 = some true) ∧
    (∃ done more, lines = done ++ more ∧
      (http_process_headers env s).2.ta.req_content_len
        = content_length_after s.ta.req_content_len done ∧
      ((http_process_headers env s).1 = some true → more = [])) ∧
    ((http_process_headers env s).2.ta.req_content_len = s.ta.req_content_len ∨
      ∃ l ∈ lines, strcasecmp_eq (field_name_of l) "Content-Length".toList = true ∧
        (http_process_headers env s).2.ta.req_content_len = atoi (field_value_of l)) ∧
    ((http_process_headers env s).1 = some true →
      (http_process_headers env s).2.ta.req_content_len
        = content_length_after s.ta.req_content_len lines ∧
      ((∀ l ∈ lines, strcasecmp_eq (field_name_of l) "Content-Length".toList = false) →
        (http_process_headers env s).2.ta.req_content_len = s.ta.req_content_len) ∧
      (∀ (before after : List (List Char)) (l : List Char), lines = before ++ l :: after →
        strcasecmp_eq (field_name_of l) "Content-Length".toList = true →
        (∀ x ∈ after, strcasecmp_eq (field_name_of x) "Content-Length".toList = false) →
        (http_process_headers env s).2.ta.req_content_len = atoi (field_value_of l)) ∧
      ((http_process_headers env s).2.ta.req_content_len ≤ 0 →
        read_body (http_process_headers env s).2 = (true, (http_process_headers env s).2)) ∧
      (0 < (http_process_headers env s).2.ta.req_content_len →
        (read_body (http_process_headers env s).2).1
          = decide ((http_process_headers env s).2.ta.req_content_len.toNat ≤ rest.length) ∧
        (read_body (http_process_headers env s).2).2.client.bufpos
          = (http_process_headers env s).2.client.bufpos
            + min (http_process_headers env s).2.ta.req_content_len.toNat rest.length ∧
        ((http_process_headers env s).2.ta.req_content_len.toNat ≤ rest.length →
          (read_body (http_process_headers env s).2).2.ta.req_body
            = (http_process_headers env s).2.client.bufpos ∧
          ((read_body (http_process_headers env s).2).2.client.buf.drop
              (read_body (http_process_headers env s).2).2.ta.req_body).take
              (http_process_headers env s).2.ta.req_content_len.toNat
            = rest.take (http_process_headers env s).2.ta.req_content_len.toNat))) := by
  have hfuel := header_lines_fuel s.client.buf s.client.bufpos lines rest htext
  obtain ⟨q1, q0, q2⟩ :=
    headers_run env rest lines (s.client.buf.length + 1) env.value_mem s hfuel hlines htext
  obtain ⟨done, more, d1, d2, d3⟩ := header_lines_run_prefix env s.client.buf.length lines
    ⟨env.value_mem, s.ta.req_content_len, s.ta.cookie⟩
  unfold http_process_headers
  refine ⟨q1, ?_, ?_, ?_, ?_⟩
  · intro h
    rw [q1]
    exact header_lines_run_no_cookie env _ lines _ h
  · refine ⟨done, more, d1, ?_, ?_⟩
    · rw [q0]
      exact d2
    · rw [q1]
      exact d3
  · rw [q0, d2]
    rcases content_length_after_mem s.ta.req_content_len done with h | ⟨l, hl, h2, h3⟩
    · exact Or.inl h
    · exact Or.inr ⟨l, by rw [d1]; exact List.mem_append_left _ hl, h2, h3⟩
  · intro htrue
    have r1 := q0
    obtain ⟨_, r3, _, _⟩ := q2 htrue
    have hrun : (header_lines_run env s.client.buf.length lines
        ⟨env.value_mem, s.ta.req_content_len, s.ta.cookie⟩).1 = some true := by
      rw [← q1]; exact htrue
    have hlen := header_lines_run_content_len env _ lines _ hrun
    simp only [] at hlen
    rw [hlen] at r1
    obtain ⟨b1, b2⟩ := read_body_of_rest
      (http_process_headers_loop env (s.client.buf.length + 1) env.value_mem s).2 rest r3
    refine ⟨r1, ?_, ?_, b1, b2⟩
    · intro h
      rw [r1, content_length_after_none _ _ h]
    · intro before after l hb hcl hafter
      rw [r1, hb]
      unfold content_length_after
      rw [List.foldl_append, List.foldl_cons, if_pos hcl]
      exact content_length_after_none _ after hafter

/-- C14 as stated fails: the content length stored is negative after the
header `Content-Length: -5`, and after `Content-Length: 2147483648`, whose
base-10 value does not fit an `int`; after `Content-Length: 4294967296` it
is 0. -/
theorem C14_counterexample_negative_length :
    (dispatch_state demo_env
        "POST /api/login HTTP/1.1\r\nContent-Length: -5\r\n\r\n").ta.req_content_len = -5
    ∧ (dispatch_state demo_env
        "POST /api/login HTTP/1.1\r\nContent-Length: 2147483648\r\n\r\n").ta.req_content_len
      = -2147483648
    ∧ (dispatch_state demo_env
        "POST /api/login HTTP/1.1\r\nContent-Length: 4294967296\r\n\r\n").ta.req_content_len
      = 0 := by
  decide

/-- C14 at a concrete block: `Host: x`, `Content-Length: 5` followed by the
bytes `hello` is accepted and stores 5. -/
theorem C14_content_length_witness :
    (http_process_headers demo_env
        { ta := zeroed_transaction demo_env,
          client := connection "Host: x\r\nContent-Length: 5\r\n\r\nhello",
          trace := [] }).1 = some true
    ∧ (http_process_headers demo_env
        { ta := zeroed_transaction demo_env,
          client := connection "Host: x\r\nContent-Length: 5\r\n\r\nhello",
          trace := [] }).2.ta.req_content_len = 5 :=
  have h := C14_content_length demo_env
    { ta := zeroed_transaction demo_env,
      client := connection "Host: x\r\nContent-Length: 5\r\n\r\nhello",
      trace := [] }
    ["Host: x".toList, "Content-Length: 5".toList] "hello".toList
    (by decide) (by decide)
  ⟨h.2.1 (by decide), ((h.2.2.2.2 (h.2.1 (by decide))).1).trans (by decide)⟩

/-- C12 (the code departs from the claim): every path that stores a token
writes and reads it through the pointer `value`, which is never initialised.
When `value` addresses no storage, header processing is undefined on
`Cookie: a=b; auth_token=abc` and on `Cookie: auth_token=abc`, and no token is
stored.  When it happens to address storage, the segment is tested with
`strstr` and scanned with `sscanf`: after
`Cookie: auth_token=good; xauth_token=evil` the token stored is `good`, though
the last segment that contains `auth_token=` is `xauth_token=evil`, and after
`Cookie: a=b; auth_token=ab<TAB>cd` it is `ab`, the tab being neither removed
nor part of the value. -/
theorem C12_token_stored_through_uninitialised_pointer :
    (http_process_headers demo_env_wild
        { ta := zeroed_transaction demo_env_wild,
          client := connection "Cookie: a=b; auth_token=abc\r\n\r\n", trace := [] }).1 = none
    ∧ (http_process_headers demo_env_wild
        { ta := zeroed_transaction demo_env_wild,
          client := connection "Cookie: auth_token=abc\r\n\r\n", trace := [] }).1 = none
    ∧ (http_handle_transaction demo_env_wild
        (connection "GET /private/x HTTP/1.1\r\nCookie: a=b; auth_token=abc\r\n\r\n") []).1
      = none
    ∧ (http_handle_transaction demo_env_wild
        (connection "GET /private/x HTTP/1.1\r\nCookie: a=b; auth_token=abc\r\n\r\n")
        []).2.trace = []
    ∧ (dispatch_state demo_env
        "GET /private/x HTTP/1.1\r\nCookie: auth_token=good; xauth_token=evil\r\n\r\n").ta.cookie
      = some "good".toList
    ∧ (dispatch_state demo_env
        "GET /private/x HTTP/1.1\r\nCookie: a=b; auth_token=ab\tcd\r\n\r\n").ta.cookie
      = some "ab".toList := by
  decide

/-! ## The static handler -/

theorem strstr_not_mem (l : List Char) (x : Char) (ys : List Char) (h : x ∉ l) :
    strstr l (x :: ys) = false := by
  induction l with
  | nil => simp [strstr]
  | cons a l ih =>
    unfold strstr
    have ha : x ≠ a := fun e => h (by rw [e]; exact List.mem_cons_self _ _)
    have := ih (fun hm => h (List.mem_cons_of_mem _ hm))
    simp [this, List.isPrefixOf, ha]

theorem strstr_append_left (a b needle : List Char) (h : strstr b needle = true) :
    strstr (a ++ b) needle = true := by
  induction a with
  | nil => exact h
  | cons x a ih =>
    cases hab : a ++ b with
    | nil =>
      rw [hab] at ih
      simp only [List.cons_append, hab]
      unfold strstr
      rw [ih]
      simp
    | cons y ys =>
      simp only [List.cons_append]
      unfold strstr
      rw [ih]
      simp

/-- A refusal of `handle_static_asset` is the error response with the status
and the text of the case, written after the file system calls of the case. -/
theorem handle_static_asset_refusal (env : Env) (s : State) (basedir : List Char)
    (h : static_status_amended env
        (snprintf PATH_MAX (basedir ++ bufio_offset2ptr s.client s.ta.req_path))
      ≠ http_response_status.HTTP_OK) :
    handle_static_asset env s basedir
      = returns (send_error env
          { s with
            trace := s.trace ++ Event.call Handler.static ::
              static_fs_calls env
                (snprintf PATH_MAX (basedir ++ bufio_offset2ptr s.client s.ta.req_path)) }
          (static_status_amended env
            (snprintf PATH_MAX (basedir ++ bufio_offset2ptr s.client s.ta.req_path)))
          (static_refusal_text env
            (snprintf PATH_MAX (basedir ++ bufio_offset2ptr s.client s.ta.req_path))
            (bufio_offset2ptr s.client s.ta.req_path))) := by
  generalize hf : snprintf PATH_MAX (basedir ++ bufio_offset2ptr s.client s.ta.req_path)
    = fname at h
  have hf2 : snprintf PATH_MAX (basedir ++ cstrAt s.client.buf s.ta.req_path) = fname := hf
  unfold handle_static_asset static_status_amended static_fs_calls static_refusal_text
  unfold static_status_amended at h
  simp only [State.log, bufio_offset2ptr, hf2, send_not_found]
  cases hdd : strstr fname "..".toList
  · simp only [hdd, Bool.false_eq_true, if_false] at h
    simp only [if_true, Bool.false_eq_true, if_false]
    cases hacc : env.fs_access fname
    · simp only [hacc] at h
      simp only []
      cases hst : env.fs_stat fname
      · simp only [List.append_assoc, List.singleton_append, List.cons_append, List.nil_append]
      · simp only [hst] at h
        simp only []
        cases hop : env.fs_open fname
        · simp only [if_true, List.append_assoc, List.singleton_append, List.cons_append,
            List.nil_append, Bool.false_eq_true, if_false]
        · simp only [hop, if_true, ne_eq, not_true_eq_false] at h
    · simp only [List.append_assoc, List.singleton_append]
    · simp only [List.append_assoc, List.singleton_append]
  · simp only [Bool.true_eq_false, if_false, if_true, List.append_nil]

/-- The status that `handle_static_asset` assigns. -/
theorem handle_static_asset_status (env : Env) (s : State) (basedir : List Char) :
    (handle_static_asset env s basedir).2.ta.resp_status
      = some (static_status_amended env
          (snprintf PATH_MAX (basedir ++ bufio_offset2ptr s.client s.ta.req_path))) := by
  generalize hf : snprintf PATH_MAX (basedir ++ bufio_offset2ptr s.client s.ta.req_path) = fname
  have hf2 : snprintf PATH_MAX (basedir ++ cstrAt s.client.buf s.ta.req_path) = fname := hf
  unfold handle_static_asset static_status_amended
  simp only [State.log, bufio_offset2ptr, hf2]
  cases hdd : strstr fname "..".toList
  · simp only [if_true, Bool.false_eq_true, if_false]
    cases hacc : env.fs_access fname
    · simp only []
      cases hst : env.fs_stat fname
      · simp only [returns, send_error_status]
      · simp only []
        cases hop : env.fs_open fname
        · simp only [if_true, returns, send_not_found_status, Bool.false_eq_true, if_false]
        · simp only [Bool.true_eq_false, if_false, if_true]
          split_ifs <;> simp only [State.log, send_response_header_status]
    · simp only [returns, send_error_status]
    · simp only [returns, send_not_found_status]
  · simp only [Bool.true_eq_false, if_false, if_true, returns, send_error_status]

/-- C7, amended: for every server root and request path, with `fname` the
joined path as `snprintf` stores it (cut to `PATH_MAX - 1` bytes),
`handle_static_asset` answers 404 if `fname` contains `..`, without any file
system call; otherwise 403 if the access check fails with `EACCES`; otherwise
404 if the access check fails otherwise; otherwise 500 if `stat` fails;
otherwise 404 if the file cannot be opened; otherwise 200.  A refusal is
answered after the file system calls of the case and nothing but socket
writes follows them: the status line of the status is handed to the socket
first, and on a socket that accepts the writes the response is the status
line, the header block with `Content-Type: text/plain` and the
`Content-Length` of the body, and the body with the text of the case.  For 200
on a socket that accepts the writes the header block sent ends with
`Content-Type: <guessed MIME type>` and `Content-Length: <file size>`, and the
file is streamed from offset 0 by the `sendfile` loop. -/
theorem C7_static_asset_answer (env : Env) (s : State) (basedir fname : List Char)
    (hfname : fname = snprintf PATH_MAX (basedir ++ bufio_offset2ptr s.client s.ta.req_path)) :
    (handle_static_asset env s basedir).2.ta.resp_status
        = some (static_status_amended env fname)
    ∧ (strstr fname "..".toList = true →
        ∀ e ∈ (handle_static_asset env s basedir).2.trace, e ∈ s.trace ∨ is_fs_event e = false)
    ∧ (static_status_amended env fname ≠ http_response_status.HTTP_OK →
        extends_trace
          (s.trace ++ (Event.call Handler.static :: static_fs_calls env fname) ++
            [Event.send
              ("HTTP/1.1 ".toList ++ status_text (some (static_status_amended env fname)) ++ CRLF)
              (env.sendbuffer_ok
                (s.trace ++ (Event.call Handler.static :: static_fs_calls env fname)).length)])
          (handle_static_asset env s basedir).2.trace
        ∧ sends_only (s.trace ++ (Event.call Handler.static :: static_fs_calls env fname))
            (handle_static_asset env s basedir).2.trace
        ∧ ((∀ k, env.sendbuffer_ok k = true) →
            (handle_static_asset env s basedir).1 = some true
            ∧ (handle_static_asset env s basedir).2.trace
              = s.trace ++ (Event.call Handler.static :: static_fs_calls env fname) ++
                [Event.send
                   ("HTTP/1.1 ".toList ++ status_text (some (static_status_amended env fname))
                     ++ CRLF) true,
                 Event.send
                   (add_content_length
                     (http_add_header s.ta.resp_headers "Content-Type".toList
                       "text/plain".toList)
                     (s.ta.resp_body ++ vsnprintf_append MAX_ERROR_LEN
                       (static_refusal_text env fname
                         (bufio_offset2ptr s.client s.ta.req_path))).length ++ CRLF) true,
                 Event.send
                   (s.ta.resp_body ++ vsnprintf_append MAX_ERROR_LEN
                     (static_refusal_text env fname (bufio_offset2ptr s.client s.ta.req_path)))
                   true]))
    ∧ (∀ st_size,
        static_status_amended env fname = http_response_status.HTTP_OK →
        env.fs_stat fname = some st_size →
        (∀ k, env.sendbuffer_ok k = true) →
        (handle_static_asset env s basedir).2.trace
          = (sendfile_loop env (st_size + 1) 0 ((st_size : Int) - 1)
              (s.trace ++
                [Event.call Handler.static,
                 Event.access fname,
                 Event.stat fname,
                 Event.fopen fname,
                 Event.send "HTTP/1.1 200 OK\r\n".toList true,
                 Event.send
                   (add_content_length
                     (s.ta.resp_headers ++ "Content-Type: ".toList
                       ++ guess_mime_type fname ++ "\r\n".toList)
                     st_size ++ "\r\n".toList)
                   true])).2
            ++ [Event.close]) := by
  have hst := handle_static_asset_status env s basedir
  have href := handle_static_asset_refusal env s basedir
  rw [← hfname] at hst href
  have hf2 : snprintf PATH_MAX (basedir ++ cstrAt s.client.buf s.ta.req_path) = fname :=
    hfname.symm
  refine ⟨hst, ?_, ?_, ?_⟩
  · intro hdd e he
    unfold handle_static_asset at he
    simp only [State.log, bufio_offset2ptr, hf2, hdd, Bool.true_eq_false, if_false, returns] at he
    rcases sends_only_mem (send_error_sends env _ _ _) e he with h | h
    · rcases List.mem_append.mp h with h1 | h1
      · exact Or.inl h1
      · rw [List.mem_singleton] at h1
        subst h1
        exact Or.inr rfl
    · exact Or.inr (is_fs_event_of_is_send e h)
  · intro hno
    rw [href hno]
    simp only [returns]
    refine ⟨?_, ?_, ?_⟩
    · exact send_error_first env _ _ _
    · exact send_error_sends env _ _ _
    · intro hsend
      unfold send_error
      rw [send_response_all_ok env _ hsend]
      simp only [start_response, List.nil_append, List.append_assoc, List.length_append]
      exact ⟨trivial, trivial⟩
  · intro st_size hok hstat hsend
    have hdd : strstr fname "..".toList = false := by
      cases h : strstr fname "..".toList
      · rfl
      · simp only [static_status_amended, h, if_true] at hok
        cases hok
    have hacc : env.fs_access fname = access_result.ok := by
      cases h : env.fs_access fname
      · rfl
      · simp only [static_status_amended, h, hdd, Bool.false_eq_true, if_false] at hok
        cases hok
      · simp only [static_status_amended, h, hdd, Bool.false_eq_true, if_false] at hok
        cases hok
    have hop : env.fs_open fname = true := by
      cases h : env.fs_open fname
      · simp only [static_status_amended, h, hdd, hacc, hstat, Bool.false_eq_true,
          if_false] at hok
        cases hok
      · rfl
    unfold handle_static_asset
    simp only [State.log, bufio_offset2ptr, hf2, hdd, hacc, hstat, hop, if_true,
      Bool.true_eq_false, if_false, send_response_header_all_ok env _ hsend]
    simp [add_content_length, http_add_header, start_response, status_text, CRLF,
      vsnprintf_append_of_lt _ _ (guess_mime_type_length fname)]

/-- A request path of 4089 bytes that ends in `/..`, under the root
`/srv/www`: the joined path is cut before the dots, and the handler answers by
the access check on the cut path. -/
theorem static_asset_cut (as : List Char) (hlen : as.length = 4086)
    (ha : ∀ c ∈ as, c = 'a' ∨ c = '/') :
    static_status_stated demo_env_denied ("/srv/www".toList ++ (as ++ "/..".toList))
      = http_response_status.HTTP_NOT_FOUND
    ∧ (handle_static_asset demo_env_denied
        (init_response
          { ta := zeroed_transaction demo_env_denied,
            client := { buf := (as ++ "/..".toList) ++ [NUL], bufpos := 0 },
            trace := [] })
        "/srv/www".toList).2.ta.resp_status
      = some http_response_status.HTTP_PERMISSION_DENIED
    ∧ (handle_static_asset demo_env_denied
        (init_response
          { ta := zeroed_transaction demo_env_denied,
            client := { buf := (as ++ "/..".toList) ++ [NUL], bufpos := 0 },
            trace := [] })
        "/srv/www".toList).2.trace
      = [Event.call Handler.static,
         Event.access ("/srv/www".toList ++ as ++ "/".toList),
         Event.send "HTTP/1.1 403 Permission Denied\r\n".toList true,
         Event.send
           "Server: CS3214-Personal-Server\r\nContent-Type: text/plain\r\nContent-Length: 18\r\n\r\n".toList
           true,
         Event.send "Permission denied.".toList true] := by
  have hroot : "/srv/www".toList = ['/', 's', 'r', 'v', '/', 'w', 'w', 'w'] := rfl
  have hslash : "/".toList = ['/'] := rfl
  have hdots : "..".toList = ['.', '.'] := rfl
  have hsd : "/..".toList = ['/', '.', '.'] := rfl
  have hnonul : ∀ c ∈ as ++ "/..".toList, c ≠ NUL := by
    intro c hc
    rcases List.mem_append.mp hc with h | h
    · rcases ha c h with h1 | h1 <;> rw [h1] <;> decide
    · intro e
      rw [e] at h
      exact absurd h (by decide)
  have hpath : bufio_offset2ptr
      (init_response
        { ta := zeroed_transaction demo_env_denied,
          client := { buf := (as ++ "/..".toList) ++ [NUL], bufpos := 0 },
          trace := [] }).client
      (init_response
        { ta := zeroed_transaction demo_env_denied,
          client := { buf := (as ++ "/..".toList) ++ [NUL], bufpos := 0 },
          trace := [] }).ta.req_path = as ++ "/..".toList := by
    show cstr (((as ++ "/..".toList) ++ [NUL]).drop 0) = _
    rw [List.drop_zero]
    exact cstr_append_nul _ [] hnonul
  have hjoin : "/srv/www".toList ++ (as ++ "/..".toList)
      = ("/srv/www".toList ++ as ++ "/".toList) ++ "..".toList := by
    rw [hsd, hslash, hdots]
    simp only [List.cons_append, List.nil_append, List.append_assoc]
  have hlen2 : ("/srv/www".toList ++ as ++ "/".toList).length = 4095 := by
    rw [hroot, hslash, List.length_append, List.length_append, hlen]
    rfl
  have hfn : snprintf PATH_MAX ("/srv/www".toList ++ (as ++ "/..".toList))
      = "/srv/www".toList ++ as ++ "/".toList := by
    rw [hjoin]
    unfold snprintf PATH_MAX
    rw [List.take_append_of_le_length (by rw [hlen2])]
    exact List.take_of_length_le (by rw [hlen2])
  have hnodot : strstr ("/srv/www".toList ++ as ++ "/".toList) "..".toList = false := by
    rw [hdots]
    apply strstr_not_mem
    intro hc
    rcases List.mem_append.mp hc with h | h
    · rcases List.mem_append.mp h with h2 | h2
      · exact absurd h2 (by decide)
      · rcases ha _ h2 with h3 | h3 <;> exact absurd h3 (by decide)
    · exact absurd h (by decide)
  have hstatus : static_status_amended demo_env_denied
      ("/srv/www".toList ++ as ++ "/".toList)
      = http_response_status.HTTP_PERMISSION_DENIED := by
    unfold static_status_amended
    rw [hnodot]
    rfl
  refine ⟨?_, ?_, ?_⟩
  · unfold static_status_stated
    rw [hjoin, strstr_append_left _ _ _ (by decide)]
    rfl
  · rw [handle_static_asset_status, hpath, hfn, hstatus]
  · have hno : static_status_amended demo_env_denied
        (snprintf PATH_MAX ("/srv/www".toList ++ bufio_offset2ptr
          (init_response
            { ta := zeroed_transaction demo_env_denied,
              client := { buf := (as ++ "/..".toList) ++ [NUL], bufpos := 0 },
              trace := [] }).client
          (init_response
            { ta := zeroed_transaction demo_env_denied,
              client := { buf := (as ++ "/..".toList) ++ [NUL], bufpos := 0 },
              trace := [] }).ta.req_path))
        ≠ http_response_status.HTTP_OK := by
      rw [hpath, hfn, hstatus]
      decide
    rw [handle_static_asset_refusal demo_env_denied _ _ hno]
    simp only [returns, send_error]
    rw [send_response_all_ok demo_env_denied _ (fun _ => rfl)]
    have hacc : demo_env_denied.fs_access ("/srv/www".toList ++ as ++ "/".toList)
        = access_result.eacces := rfl
    simp only [hpath, hfn, hstatus, static_fs_calls, static_refusal_text, hnodot, hacc,
      Bool.false_eq_true, if_false]
    generalize "/srv/www".toList ++ as ++ "/".toList = f
    simp only [init_response, List.nil_append, List.cons_append, List.cons.injEq, true_and,
      Event.send.injEq, and_true]
    decide

/-- C7 as stated fails in two ways.  A file that passes the access check
and `stat` but cannot be opened is answered with 404, where the stated rule
gives 200.  And for the root `/srv/www` and the request path of 4089 bytes
made of 18 directory names `/aaa...a` of 226 letters followed by `/..`, the
concatenation root ++ path contains `..`, for which the stated rule gives 404,
while the joined path that the handler tests is cut to 4095 bytes, holds no
`..`, and is answered with 403 by an access check that fails with
`EACCES`; the handler is entered in the state in which the dispatcher
calls it, with the path at offset 0 of the buffer. -/
theorem C7_counterexample_open_fails_and_cut :
    static_status_stated demo_env_unopenable "/srv/www/index.html".toList
      = http_response_status.HTTP_OK
    ∧ (handle_static_asset demo_env_unopenable
        (dispatch_state demo_env_unopenable "GET /index.html HTTP/1.1\r\n\r\n")
        demo_env_unopenable.server_root).2.ta.resp_status
      = some http_response_status.HTTP_NOT_FOUND
    ∧ (handle_static_asset demo_env_unopenable
        (dispatch_state demo_env_unopenable "GET /index.html HTTP/1.1\r\n\r\n")
        demo_env_unopenable.server_root).2.trace
      = [Event.call Handler.static,
         Event.access "/srv/www/index.html".toList,
         Event.stat "/srv/www/index.html".toList,
         Event.fopen "/srv/www/index.html".toList,
         Event.send "HTTP/1.1 404 Not Found\r\n".toList true,
         Event.send
           "Server: CS3214-Personal-Server\r\nContent-Type: text/plain\r\nContent-Length: 26\r\n\r\n".toList
           true,
         Event.send "File /index.html not found".toList true]
    ∧ static_status_stated demo_env_denied
        ("/srv/www".toList ++
          (List.flatten (List.replicate 18 ('/' :: List.replicate 226 'a')) ++ "/..".toList))
      = http_response_status.HTTP_NOT_FOUND
    ∧ (handle_static_asset demo_env_denied
        (init_response
          { ta := zeroed_transaction demo_env_denied,
            client :=
              { buf := (List.flatten (List.replicate 18 ('/' :: List.replicate 226 'a'))
                  ++ "/..".toList) ++ [NUL],
                bufpos := 0 },
            trace := [] })
        "/srv/www".toList).2.ta.resp_status
      = some http_response_status.HTTP_PERMISSION_DENIED
    ∧ (handle_static_asset demo_env_denied
        (init_response
          { ta := zeroed_transaction demo_env_denied,
            client :=
              { buf := (List.flatten (List.replicate 18 ('/' :: List.replicate 226 'a'))
                  ++ "/..".toList) ++ [NUL],
                bufpos := 0 },
            trace := [] })
        "/srv/www".toList).2.trace
      = [Event.call Handler.static,
         Event.access ("/srv/www".toList ++
           List.flatten (List.replicate 18 ('/' :: List.replicate 226 'a')) ++ "/".toList),
         Event.send "HTTP/1.1 403 Permission Denied\r\n".toList true,
         Event.send
           "Server: CS3214-Personal-Server\r\nContent-Type: text/plain\r\nContent-Length: 18\r\n\r\n".toList
           true,
         Event.send "Permission denied.".toList true] :=
  ⟨by decide, by decide, by decide,
   static_asset_cut (List.flatten (List.replicate 18 ('/' :: List.replicate 226 'a')))
     (by rw [List.length_flatten, List.map_replicate, List.sum_replicate, List.length_cons,
        List.length_replicate, smul_eq_mul])
     (fun c hc => by
        obtain ⟨l, hl, hcl⟩ := List.mem_flatten.mp hc
        rw [List.eq_of_mem_replicate hl] at hcl
        rcases List.mem_cons.mp hcl with h | h
        · exact Or.inr h
        · exact Or.inl (List.eq_of_mem_replicate h))⟩

/-- C7 at the scenario of the specification: `GET /index.html` on a file of
10 bytes is answered with `200 OK`, `Content-Type: text/html` and
`Content-Length: 10`, and the 10 bytes are streamed. -/
theorem C7_static_asset_answer_witness :
    (handle_static_asset demo_env_index
        (dispatch_state demo_env_index "GET /index.html HTTP/1.1\r\n\r\n")
        demo_env_index.server_root).2.trace
      = [Event.call Handler.static,
         Event.access "/srv/www/index.html".toList,
         Event.stat "/srv/www/index.html".toList,
         Event.fopen "/srv/www/index.html".toList,
         Event.send "HTTP/1.1 200 OK\r\n".toList true,
         Event.send
           "Server: CS3214-Personal-Server\r\nContent-Type: text/html\r\nContent-Length: 10\r\n\r\n".toList
           true,
         Event.sendfile 0 10 10,
         Event.close] :=
  ((C7_static_asset_answer demo_env_index
      (dispatch_state demo_env_index "GET /index.html HTTP/1.1\r\n\r\n")
      demo_env_index.server_root "/srv/www/index.html".toList (by decide)).2.2.2
    10 (by decide) (by decide) (fun _ => rfl)).trans (by decide)

/-! ## What the header loop leaves of the buffer before the read position -/

end PersonalServer
